import Mathlib

/-! # filter-squirrel: translation of filter condition trees into SQL fragments

A shallow embedding of `builder.go` and `options.go`.

* Go `any` values carried by conditions are `Value`.
* Go `error` values are `Error`.
* The fragments handed to the statement builder are `Sqlizer`; the dynamic
  `any` result of a condition builder is `SqlObj`.
* The `tableAliases map[string]bool` accumulator is the list of its keys.
* A call either returns or panics (nil dereference); `Res` and `Outcome`
  keep the two apart.
-/

namespace FilterSquirrel

/-! ## Data model -/

/-- Go values of static type `any` carried by a condition: the nil interface,
scalars, and sequences (slices and arrays, the kinds `isListType` accepts). -/
inductive Value where
  | nil
  | bool (b : Bool)
  | int (i : Int)
  | str (s : String)
  | list (items : List Value)

/-- A Go `error` value, identified by its message. -/
structure Error where
  msg : String
deriving DecidableEq, Repr

/-- The error built by `fmt.Errorf` with an already formatted message. -/
def Errorf (msg : String) : Error := ⟨msg⟩

mutual
/-- The fragment values built by the translation. `Eq` to `ILike` are the
single-key squirrel maps (`sq.Eq{fieldName: value}` and so on), `And` and `Or`
the squirrel conjunctions, the rest are the fragment types of this package. -/
inductive Sqlizer where
  | Eq (key : String) (val : Value)
  | NotEq (key : String) (val : Value)
  | Gt (key : String) (val : Value)
  | GtOrEq (key : String) (val : Value)
  | Lt (key : String) (val : Value)
  | LtOrEq (key : String) (val : Value)
  | ILike (key : String) (val : Value)
  | And (parts : List Sqlizer)
  | Or (parts : List Sqlizer)
  | ArrayContains (fieldName : String) (value : Value)
  | ArrayContainsArray (fieldName : String) (value : Value)
  | ArrayIsContained (fieldName : String) (value : Value)
  | Overlaps (fieldName : String) (value : Value)
  | Regex (fieldName : String) (expression : String)
  | NotRegex (fieldName : String) (expression : String)
  | Not (inner : SqlObj)
/-- The dynamic `any` value a condition builder returns: the nil interface, a
value implementing `sq.Sqlizer`, or a plain `[]sq.Sqlizer` slice. -/
inductive SqlObj where
  | nil
  | sqlizer (s : Sqlizer)
  | slice (items : List Sqlizer)
end

/-- Modelled from the spec: the condition-type tags of the external filter
library, which is not under src/: one constant for each of the 22 variants the
library defines, taken to be pairwise distinct, and `other tag` for any other
tag. A condition value carries the tag of its variant; the table of builders is
keyed by these tags. -/
inductive ConditionType where
  | AndConditionType
  | ArrayContainsConditionType
  | ArrayContainsArrayConditionType
  | ArrayIsContainedConditionType
  | ArraysOverlapConditionType
  | ContainsConditionType
  | EqualsConditionType
  | GreaterThanConditionType
  | GreaterThanOrEqualConditionType
  | GroupConditionType
  | InConditionType
  | IsNilConditionType
  | LowerThanConditionType
  | LowerThanOrEqualConditionType
  | NotConditionType
  | NotEqualsConditionType
  | NotNilConditionType
  | NotRegexConditionType
  | OrConditionType
  | OverlapsConditionType
  | RegexConditionType
  | WhereConditionType
  | other (tag : String)
deriving DecidableEq

/-- The condition tree of the filter library, one constructor per constructor
function of the library (`filter.And`, `filter.Equals`, ...). `nil` is the nil
interface value; `typedNil t` is a non-nil interface value that holds a nil
pointer to the struct of the variant with tag `t`; `other tag` is a condition
variant whose `Type()` is a tag for which no builder is registered. -/
inductive Condition where
  | nil
  | typedNil (t : ConditionType)
  | And (conditions : List Condition)
  | ArrayContains (field : String) (value : Value)
  | ArrayContainsArray (field : String) (value : Value)
  | ArrayIsContained (field : String) (value : Value)
  | ArraysOverlap (field : String) (value : Value)
  | Contains (field : String) (value : Value)
  | Equals (field : String) (value : Value)
  | GreaterThan (field : String) (value : Value)
  | GreaterThanOrEqual (field : String) (value : Value)
  | Group (condition : Condition)
  | In (field : String) (value : Value)
  | IsNil (field : String)
  | LowerThan (field : String) (value : Value)
  | LowerThanOrEqual (field : String) (value : Value)
  | Not (condition : Condition)
  | NotEquals (field : String) (value : Value)
  | NotNil (field : String)
  | NotRegex (field : String) (expression : String)
  | Or (conditions : List Condition)
  | Overlaps (field : String) (value : Value)
  | Regex (field : String) (expression : String)
  | Where (condition : Condition)
  | other (tag : String)

/-- Result of a call that returns `(value, error)` or panics. An error return
always carries the nil value in the source, so only the error is kept. -/
inductive Res (α : Type) where
  | ok (a : α)
  | err (e : Error)
  | panic

/-- Result of a call that either returns or panics. -/
inductive Outcome (α : Type) where
  | returns (a : α)
  | panics

/-- Type `FieldMapperFunc` of `options.go`: maps a domain field name to a column
reference or fails. -/
abbrev FieldMapperFunc := String → Except Error String

/-- The key set of `tableAliases map[string]bool`, in insertion order. -/
abbrev Aliases := List String

/-! ## options.go -/

/-- Function `FieldAsIsMapperFunc`: the identity mapping. -/
def FieldAsIsMapperFunc : FieldMapperFunc := fun fieldName => .ok fieldName

/-- Structure `Options`. -/
structure Options where
  MapperFunc : FieldMapperFunc

/-- Type `Option` of `options.go`: a function updating the options in place. -/
abbrev Option' := Options → Options

/-- Function `DefaultOptions`. -/
def DefaultOptions : Options := { MapperFunc := FieldAsIsMapperFunc }

/-- Function `FromDefaultOptions`: applies the options in order to the defaults. -/
def FromDefaultOptions (opts : List Option') : Options :=
  opts.foldl (fun o applyOption => applyOption o) DefaultOptions

/-- Function `WithMapperFunc`; a nil function is `none`. -/
def WithMapperFunc (f : Option FieldMapperFunc) : Option' := fun o =>
  match f with
  | none => o
  | some g => { o with MapperFunc := g }

/-! ## Strings and formatting -/

/-- Splitting of a character list at every occurrence of `sep`. -/
def splitChars (sep : Char) : List Char → List (List Char)
  | [] => [[]]
  | c :: cs =>
    if c = sep then [] :: splitChars sep cs
    else
      match splitChars sep cs with
      | [] => [[c]]
      | t :: ts => (c :: t) :: ts

/-- Go `strings.Split(s, sep)` for a one-character separator. -/
def Split (s : String) (sep : Char) : List String :=
  (splitChars sep s.data).map String.mk

mutual
/-- Go `fmt.Sprintf("%s", v)`: a string prints as itself, any other operand
with the bad-verb marker, a slice element by element. -/
def Sprint : Value → String
  | .nil => "%!s(<nil>)"
  | .bool b => "%!s(bool=" ++ toString b ++ ")"
  | .int i => "%!s(int=" ++ toString i ++ ")"
  | .str s => s
  | .list items => "[" ++ " ".intercalate (SprintAll items) ++ "]"
/-- Function `Sprint` over the elements of a slice; a nil element of a slice
prints as `<nil>`. -/
def SprintAll : List Value → List String
  | [] => []
  | .nil :: vs => "<nil>" :: SprintAll vs
  | .bool b :: vs => Sprint (.bool b) :: SprintAll vs
  | .int i :: vs => Sprint (.int i) :: SprintAll vs
  | .str s :: vs => Sprint (.str s) :: SprintAll vs
  | .list items :: vs => Sprint (.list items) :: SprintAll vs
end

/-- Modelled from the spec: `sq.Placeholders` of the external statement
builder library, which is not under src/: `count` question marks separated by
commas, the empty string for `count < 1`. -/
def Placeholders (count : Nat) : String :=
  ",".intercalate (List.replicate count "?")

/-- The constant `sqlFalse`. -/
def sqlFalse : String := "(1=0)"

/-- Modelled from the spec: the constant `sqlTrue` of the external statement
builder library, which is not under src/. -/
def sqlTrue : String := "(1=1)"

/-- Function `isListType`: reports whether the value is an array or a slice. -/
def isListType : Value → Bool
  | .list _ => true
  | _ => false

/-! ## Table aliases -/

/-- The map update `tableAliases[key] = true` on the key list. -/
def Aliases.set (tableAliases : Aliases) (key : String) : Aliases :=
  if key ∈ tableAliases then tableAliases else tableAliases ++ [key]

/-- Function `addTableAlias`: records the text before the first dot of a
reference that has at least two dot-separated tokens. -/
def addTableAlias (fieldName : String) (tableAliases : Aliases) : Aliases :=
  match Split fieldName '.' with
  | t0 :: _ :: _ => tableAliases.set t0
  | _ => tableAliases

/-! ## Leaf builders

Every builder checks for the nil condition, asserts the concrete condition
type, maps the field, records the table alias and returns its fragment. A nil
pointer of the asserted type passes both checks and the first access to one of
its fields panics. -/

/-- Builder `applyEquals`. -/
def applyEquals (condition : Condition) (mf : FieldMapperFunc) (tableAliases : Aliases) :
    Res SqlObj × Aliases :=
  match condition with
  | .nil => (.err (Errorf "condition is nil"), tableAliases)
  | .typedNil t =>
    if t = .EqualsConditionType then (.panic, tableAliases)
    else (.err (Errorf "condition is no EqualsCondition"), tableAliases)
  | .Equals field value =>
    match mf field with
    | .error err => (.err err, tableAliases)
    | .ok fieldName => (.ok (.sqlizer (.Eq fieldName value)), addTableAlias fieldName tableAliases)
  | _ => (.err (Errorf "condition is no EqualsCondition"), tableAliases)

/-- Builder `applyGreaterThan`. -/
def applyGreaterThan (condition : Condition) (mf : FieldMapperFunc) (tableAliases : Aliases) :
    Res SqlObj × Aliases :=
  match condition with
  | .nil => (.err (Errorf "condition is nil"), tableAliases)
  | .typedNil t =>
    if t = .GreaterThanConditionType then (.panic, tableAliases)
    else (.err (Errorf "condition is no GreaterThanCondition"), tableAliases)
  | .GreaterThan field value =>
    match mf field with
    | .error err => (.err err, tableAliases)
    | .ok fieldName => (.ok (.sqlizer (.Gt fieldName value)), addTableAlias fieldName tableAliases)
  | _ => (.err (Errorf "condition is no GreaterThanCondition"), tableAliases)

/-- Builder `applyGreaterThanOrEqual`. -/
def applyGreaterThanOrEqual (condition : Condition) (mf : FieldMapperFunc) (tableAliases : Aliases) :
    Res SqlObj × Aliases :=
  match condition with
  | .nil => (.err (Errorf "condition is nil"), tableAliases)
  | .typedNil t =>
    if t = .GreaterThanOrEqualConditionType then (.panic, tableAliases)
    else (.err (Errorf "condition is no GreaterThanOrEqualCondition"), tableAliases)
  | .GreaterThanOrEqual field value =>
    match mf field with
    | .error err => (.err err, tableAliases)
    | .ok fieldName => (.ok (.sqlizer (.GtOrEq fieldName value)), addTableAlias fieldName tableAliases)
  | _ => (.err (Errorf "condition is no GreaterThanOrEqualCondition"), tableAliases)

/-- Builder `applyLowerThan`. -/
def applyLowerThan (condition : Condition) (mf : FieldMapperFunc) (tableAliases : Aliases) :
    Res SqlObj × Aliases :=
  match condition with
  | .nil => (.err (Errorf "condition is nil"), tableAliases)
  | .typedNil t =>
    if t = .LowerThanConditionType then (.panic, tableAliases)
    else (.err (Errorf "condition is no LowerThanCondition"), tableAliases)
  | .LowerThan field value =>
    match mf field with
    | .error err => (.err err, tableAliases)
    | .ok fieldName => (.ok (.sqlizer (.Lt fieldName value)), addTableAlias fieldName tableAliases)
  | _ => (.err (Errorf "condition is no LowerThanCondition"), tableAliases)

/-- Builder `applyLowerThanOrEqual`. -/
def applyLowerThanOrEqual (condition : Condition) (mf : FieldMapperFunc) (tableAliases : Aliases) :
    Res SqlObj × Aliases :=
  match condition with
  | .nil => (.err (Errorf "condition is nil"), tableAliases)
  | .typedNil t =>
    if t = .LowerThanOrEqualConditionType then (.panic, tableAliases)
    else (.err (Errorf "condition is no LowerThanOrEqualCondition"), tableAliases)
  | .LowerThanOrEqual field value =>
    match mf field with
    | .error err => (.err err, tableAliases)
    | .ok fieldName => (.ok (.sqlizer (.LtOrEq fieldName value)), addTableAlias fieldName tableAliases)
  | _ => (.err (Errorf "condition is no LowerThanOrEqualCondition"), tableAliases)

/-- Builder `applyContains`. -/
def applyContains (condition : Condition) (mf : FieldMapperFunc) (tableAliases : Aliases) :
    Res SqlObj × Aliases :=
  match condition with
  | .nil => (.err (Errorf "condition is nil"), tableAliases)
  | .typedNil t =>
    if t = .ContainsConditionType then (.panic, tableAliases)
    else (.err (Errorf "condition is no ContainsCondition"), tableAliases)
  | .Contains field value =>
    match mf field with
    | .error err => (.err err, tableAliases)
    | .ok fieldName => (.ok (.sqlizer (.ILike fieldName (.str ("%" ++ Sprint value ++ "%")))), addTableAlias fieldName tableAliases)
  | _ => (.err (Errorf "condition is no ContainsCondition"), tableAliases)

/-- Builder `applyIn`. -/
def applyIn (condition : Condition) (mf : FieldMapperFunc) (tableAliases : Aliases) :
    Res SqlObj × Aliases :=
  match condition with
  | .nil => (.err (Errorf "condition is nil"), tableAliases)
  | .typedNil t =>
    if t = .InConditionType then (.panic, tableAliases)
    else (.err (Errorf "condition is no InCondition"), tableAliases)
  | .In field value =>
    match mf field with
    | .error err => (.err err, tableAliases)
    | .ok fieldName => (.ok (.sqlizer (.Eq fieldName value)), addTableAlias fieldName tableAliases)
  | _ => (.err (Errorf "condition is no InCondition"), tableAliases)

/-- Builder `applyArrayContains`. -/
def applyArrayContains (condition : Condition) (mf : FieldMapperFunc) (tableAliases : Aliases) :
    Res SqlObj × Aliases :=
  match condition with
  | .nil => (.err (Errorf "condition is nil"), tableAliases)
  | .typedNil t =>
    if t = .ArrayContainsConditionType then (.panic, tableAliases)
    else (.err (Errorf "condition is no ArrayContainsCondition"), tableAliases)
  | .ArrayContains field value =>
    match mf field with
    | .error err => (.err err, tableAliases)
    | .ok fieldName => (.ok (.sqlizer (.ArrayContains fieldName value)), addTableAlias fieldName tableAliases)
  | _ => (.err (Errorf "condition is no ArrayContainsCondition"), tableAliases)

/-- Builder `applyArrayContainsArray`. -/
def applyArrayContainsArray (condition : Condition) (mf : FieldMapperFunc) (tableAliases : Aliases) :
    Res SqlObj × Aliases :=
  match condition with
  | .nil => (.err (Errorf "condition is nil"), tableAliases)
  | .typedNil t =>
    if t = .ArrayContainsArrayConditionType then (.panic, tableAliases)
    else (.err (Errorf "condition is no ArrayContainsArrayCondition"), tableAliases)
  | .ArrayContainsArray field value =>
    match mf field with
    | .error err => (.err err, tableAliases)
    | .ok fieldName => (.ok (.sqlizer (.ArrayContainsArray fieldName value)), addTableAlias fieldName tableAliases)
  | _ => (.err (Errorf "condition is no ArrayContainsArrayCondition"), tableAliases)

/-- Builder `applyArrayIsContained`. -/
def applyArrayIsContained (condition : Condition) (mf : FieldMapperFunc) (tableAliases : Aliases) :
    Res SqlObj × Aliases :=
  match condition with
  | .nil => (.err (Errorf "condition is nil"), tableAliases)
  | .typedNil t =>
    if t = .ArrayIsContainedConditionType then (.panic, tableAliases)
    else (.err (Errorf "condition is no ArrayIsContainedCondition"), tableAliases)
  | .ArrayIsContained field value =>
    match mf field with
    | .error err => (.err err, tableAliases)
    | .ok fieldName => (.ok (.sqlizer (.ArrayIsContained fieldName value)), addTableAlias fieldName tableAliases)
  | _ => (.err (Errorf "condition is no ArrayIsContainedCondition"), tableAliases)

/-- Builder `applyRegex`. -/
def applyRegex (condition : Condition) (mf : FieldMapperFunc) (tableAliases : Aliases) :
    Res SqlObj × Aliases :=
  match condition with
  | .nil => (.err (Errorf "condition is nil"), tableAliases)
  | .typedNil t =>
    if t = .RegexConditionType then (.panic, tableAliases)
    else (.err (Errorf "condition is no RegexCondition"), tableAliases)
  | .Regex field expression =>
    match mf field with
    | .error err => (.err err, tableAliases)
    | .ok fieldName => (.ok (.sqlizer (.Regex fieldName expression)), addTableAlias fieldName tableAliases)
  | _ => (.err (Errorf "condition is no RegexCondition"), tableAliases)

/-- Builder `applyNotRegex`. -/
def applyNotRegex (condition : Condition) (mf : FieldMapperFunc) (tableAliases : Aliases) :
    Res SqlObj × Aliases :=
  match condition with
  | .nil => (.err (Errorf "condition is nil"), tableAliases)
  | .typedNil t =>
    if t = .NotRegexConditionType then (.panic, tableAliases)
    else (.err (Errorf "condition is no NotRegexCondition"), tableAliases)
  | .NotRegex field expression =>
    match mf field with
    | .error err => (.err err, tableAliases)
    | .ok fieldName => (.ok (.sqlizer (.NotRegex fieldName expression)), addTableAlias fieldName tableAliases)
  | _ => (.err (Errorf "condition is no NotRegexCondition"), tableAliases)

/-- Builder `applyIsNil`. -/
def applyIsNil (condition : Condition) (mf : FieldMapperFunc) (tableAliases : Aliases) :
    Res SqlObj × Aliases :=
  match condition with
  | .nil => (.err (Errorf "condition is nil"), tableAliases)
  | .typedNil t =>
    if t = .IsNilConditionType then (.panic, tableAliases)
    else (.err (Errorf "condition is no IsNilCondition"), tableAliases)
  | .IsNil field =>
    match mf field with
    | .error err => (.err err, tableAliases)
    | .ok fieldName => (.ok (.sqlizer (.Eq fieldName .nil)), addTableAlias fieldName tableAliases)
  | _ => (.err (Errorf "condition is no IsNilCondition"), tableAliases)

/-- Builder `applyNotEquals`. -/
def applyNotEquals (condition : Condition) (mf : FieldMapperFunc) (tableAliases : Aliases) :
    Res SqlObj × Aliases :=
  match condition with
  | .nil => (.err (Errorf "condition is nil"), tableAliases)
  | .typedNil t =>
    if t = .NotEqualsConditionType then (.panic, tableAliases)
    else (.err (Errorf "condition is no NotEqualsCondition"), tableAliases)
  | .NotEquals field value =>
    match mf field with
    | .error err => (.err err, tableAliases)
    | .ok fieldName => (.ok (.sqlizer (.NotEq fieldName value)), addTableAlias fieldName tableAliases)
  | _ => (.err (Errorf "condition is no NotEqualsCondition"), tableAliases)

/-- Builder `applyNotNil`. -/
def applyNotNil (condition : Condition) (mf : FieldMapperFunc) (tableAliases : Aliases) :
    Res SqlObj × Aliases :=
  match condition with
  | .nil => (.err (Errorf "condition is nil"), tableAliases)
  | .typedNil t =>
    if t = .NotNilConditionType then (.panic, tableAliases)
    else (.err (Errorf "condition is no NotNilCondition"), tableAliases)
  | .NotNil field =>
    match mf field with
    | .error err => (.err err, tableAliases)
    | .ok fieldName => (.ok (.sqlizer (.NotEq fieldName .nil)), addTableAlias fieldName tableAliases)
  | _ => (.err (Errorf "condition is no NotNilCondition"), tableAliases)

/-- Builder `applyOverlaps`. -/
def applyOverlaps (condition : Condition) (mf : FieldMapperFunc) (tableAliases : Aliases) :
    Res SqlObj × Aliases :=
  match condition with
  | .nil => (.err (Errorf "condition is nil"), tableAliases)
  | .typedNil t =>
    if t = .OverlapsConditionType then (.panic, tableAliases)
    else (.err (Errorf "condition is no OverlapsCondition"), tableAliases)
  | .Overlaps field value =>
    match mf field with
    | .error err => (.err err, tableAliases)
    | .ok fieldName => (.ok (.sqlizer (.Overlaps fieldName value)), addTableAlias fieldName tableAliases)
  | _ => (.err (Errorf "condition is no OverlapsCondition"), tableAliases)

/-- Builder `applyArraysOverlap`: rebuilds the condition as `filter.Overlaps`
with the same field and value and hands it to `applyOverlaps`. -/
def applyArraysOverlap (condition : Condition) (mf : FieldMapperFunc) (tableAliases : Aliases) :
    Res SqlObj × Aliases :=
  match condition with
  | .nil => (.err (Errorf "condition is nil"), tableAliases)
  | .typedNil t =>
    if t = .ArraysOverlapConditionType then (.panic, tableAliases)
    else (.err (Errorf "condition is no ArraysOverlapCondition"), tableAliases)
  | .ArraysOverlap field value => applyOverlaps (.Overlaps field value) mf tableAliases
  | _ => (.err (Errorf "condition is no ArraysOverlapCondition"), tableAliases)

/-! ## Dispatch and composite builders -/

mutual
/-- Function `applyFilter`: looks the builder up under `condition.Type()` and
calls it. Each case is the body of the registered builder after its own type
assertion; the five composite builders are unfolded here so that the recursion
is structural (they are restated on their own below). Calling `Type()` on the
nil interface panics, and so does calling it on a nil pointer, the method
having a value receiver. -/
def applyFilter : Condition → FieldMapperFunc → Aliases → Res SqlObj × Aliases
  | .nil, _, tableAliases => (.panic, tableAliases)
  | .typedNil _, _, tableAliases => (.panic, tableAliases)
  | .other tag, _, tableAliases => (.err (Errorf ("unknown condition: " ++ tag)), tableAliases)
  | .And conditions, mf, tableAliases =>
    if conditions.length < 2 then
      (.err (Errorf "AND condition must have at least two conditions"), tableAliases)
    else andLoop conditions mf tableAliases []
  | .Or conditions, mf, tableAliases =>
    if conditions.length < 2 then
      (.err (Errorf "OR condition must have at least two conditions"), tableAliases)
    else orLoop conditions mf tableAliases []
  | .Where child, mf, tableAliases =>
    match child with
    | .nil => (.ok .nil, tableAliases)
    | _ => applyFilter child mf tableAliases
  | .Group child, mf, tableAliases =>
    match child with
    | .nil => (.ok .nil, tableAliases)
    | _ => applyFilter child mf tableAliases
  | .Not child, mf, tableAliases =>
    match applyFilter child mf tableAliases with
    | (.ok inner, ta) => (.ok (.sqlizer (.Not inner)), ta)
    | (.err err, ta) => (.err err, ta)
    | (.panic, ta) => (.panic, ta)
  | .ArrayContains f v, mf, ta => applyArrayContains (.ArrayContains f v) mf ta
  | .ArrayContainsArray f v, mf, ta => applyArrayContainsArray (.ArrayContainsArray f v) mf ta
  | .ArrayIsContained f v, mf, ta => applyArrayIsContained (.ArrayIsContained f v) mf ta
  | .ArraysOverlap f v, mf, ta => applyArraysOverlap (.ArraysOverlap f v) mf ta
  | .Contains f v, mf, ta => applyContains (.Contains f v) mf ta
  | .Equals f v, mf, ta => applyEquals (.Equals f v) mf ta
  | .GreaterThan f v, mf, ta => applyGreaterThan (.GreaterThan f v) mf ta
  | .GreaterThanOrEqual f v, mf, ta => applyGreaterThanOrEqual (.GreaterThanOrEqual f v) mf ta
  | .In f v, mf, ta => applyIn (.In f v) mf ta
  | .IsNil f, mf, ta => applyIsNil (.IsNil f) mf ta
  | .LowerThan f v, mf, ta => applyLowerThan (.LowerThan f v) mf ta
  | .LowerThanOrEqual f v, mf, ta => applyLowerThanOrEqual (.LowerThanOrEqual f v) mf ta
  | .NotEquals f v, mf, ta => applyNotEquals (.NotEquals f v) mf ta
  | .NotNil f, mf, ta => applyNotNil (.NotNil f) mf ta
  | .NotRegex f e, mf, ta => applyNotRegex (.NotRegex f e) mf ta
  | .Overlaps f v, mf, ta => applyOverlaps (.Overlaps f v) mf ta
  | .Regex f e, mf, ta => applyRegex (.Regex f e) mf ta
/-- The loop of `applyAndConjunction` over the remaining conditions, `conj`
being the conjunction built so far. A result that is a `sq.Sqlizer` is
appended, a `[]sq.Sqlizer` is appended element by element, anything else is
the "unexpected data type" error. -/
def andLoop : List Condition → FieldMapperFunc → Aliases → List Sqlizer → Res SqlObj × Aliases
  | [], _, tableAliases, conj => (.ok (.sqlizer (.And conj)), tableAliases)
  | condition :: rest, mf, tableAliases, conj =>
    match applyFilter condition mf tableAliases with
    | (.err err, ta) => (.err err, ta)
    | (.panic, ta) => (.panic, ta)
    | (.ok (.sqlizer item), ta) => andLoop rest mf ta (conj ++ [item])
    | (.ok (.slice items), ta) => andLoop rest mf ta (conj ++ items)
    | (.ok .nil, ta) => (.err (Errorf "unexpected data type: <nil>"), ta)
/-- The loop of `applyOrConjunction`, as `andLoop` with `sq.Or`. -/
def orLoop : List Condition → FieldMapperFunc → Aliases → List Sqlizer → Res SqlObj × Aliases
  | [], _, tableAliases, conj => (.ok (.sqlizer (.Or conj)), tableAliases)
  | condition :: rest, mf, tableAliases, conj =>
    match applyFilter condition mf tableAliases with
    | (.err err, ta) => (.err err, ta)
    | (.panic, ta) => (.panic, ta)
    | (.ok (.sqlizer item), ta) => orLoop rest mf ta (conj ++ [item])
    | (.ok (.slice items), ta) => orLoop rest mf ta (conj ++ items)
    | (.ok .nil, ta) => (.err (Errorf "unexpected data type: <nil>"), ta)
end

/-- Function `applyAndConjunction`: starts from the empty `sq.And`. -/
def applyAndConjunction (conditions : List Condition) (mf : FieldMapperFunc)
    (tableAliases : Aliases) : Res SqlObj × Aliases :=
  andLoop conditions mf tableAliases []

/-- Function `applyOrConjunction`: starts from the empty `sq.Or`. -/
def applyOrConjunction (conditions : List Condition) (mf : FieldMapperFunc)
    (tableAliases : Aliases) : Res SqlObj × Aliases :=
  orLoop conditions mf tableAliases []

/-- Builder `applyWhere`. -/
def applyWhere (condition : Condition) (mf : FieldMapperFunc) (tableAliases : Aliases) :
    Res SqlObj × Aliases :=
  match condition with
  | .nil => (.ok .nil, tableAliases)
  | .typedNil t =>
    if t = .WhereConditionType then (.panic, tableAliases)
    else (.err (Errorf "condition is no WhereCondition"), tableAliases)
  | .Where .nil => (.ok .nil, tableAliases)
  | .Where child => applyFilter child mf tableAliases
  | _ => (.err (Errorf "condition is no WhereCondition"), tableAliases)

/-- Builder `applyGroup`. -/
def applyGroup (condition : Condition) (mf : FieldMapperFunc) (tableAliases : Aliases) :
    Res SqlObj × Aliases :=
  match condition with
  | .nil => (.err (Errorf "condition is nil"), tableAliases)
  | .typedNil t =>
    if t = .GroupConditionType then (.panic, tableAliases)
    else (.err (Errorf "condition is no GroupCondition"), tableAliases)
  | .Group .nil => (.ok .nil, tableAliases)
  | .Group child => applyFilter child mf tableAliases
  | _ => (.err (Errorf "condition is no GroupCondition"), tableAliases)

/-- Builder `applyOr`. -/
def applyOr (condition : Condition) (mf : FieldMapperFunc) (tableAliases : Aliases) :
    Res SqlObj × Aliases :=
  match condition with
  | .nil => (.err (Errorf "condition is nil"), tableAliases)
  | .typedNil t =>
    if t = .OrConditionType then (.panic, tableAliases)
    else (.err (Errorf "condition is no OrCondition"), tableAliases)
  | .Or conditions =>
    if conditions.length < 2 then
      (.err (Errorf "OR condition must have at least two conditions"), tableAliases)
    else applyOrConjunction conditions mf tableAliases
  | _ => (.err (Errorf "condition is no OrCondition"), tableAliases)

/-- Builder `applyAnd`. -/
def applyAnd (condition : Condition) (mf : FieldMapperFunc) (tableAliases : Aliases) :
    Res SqlObj × Aliases :=
  match condition with
  | .nil => (.err (Errorf "condition is nil"), tableAliases)
  | .typedNil t =>
    if t = .AndConditionType then (.panic, tableAliases)
    else (.err (Errorf "condition is no AndCondition"), tableAliases)
  | .And conditions =>
    if conditions.length < 2 then
      (.err (Errorf "AND condition must have at least two conditions"), tableAliases)
    else applyAndConjunction conditions mf tableAliases
  | _ => (.err (Errorf "condition is no AndCondition"), tableAliases)

/-- Builder `applyNot`. -/
def applyNot (condition : Condition) (mf : FieldMapperFunc) (tableAliases : Aliases) :
    Res SqlObj × Aliases :=
  match condition with
  | .nil => (.err (Errorf "condition is nil"), tableAliases)
  | .typedNil t =>
    if t = .NotConditionType then (.panic, tableAliases)
    else (.err (Errorf "condition is no NotCondition"), tableAliases)
  | .Not child =>
    match applyFilter child mf tableAliases with
    | (.ok inner, ta) => (.ok (.sqlizer (.Not inner)), ta)
    | (.err err, ta) => (.err err, ta)
    | (.panic, ta) => (.panic, ta)
  | _ => (.err (Errorf "condition is no NotCondition"), tableAliases)

/-! ## Rendering

`ToSql` returns the Go triple `(sql, args, err)`. -/

/-- The triple returned by a `ToSql` method. -/
abbrev Rendered := String × List Value × Option Error

/-- Method `ArrayContains.ToSql`. -/
def ArrayContains.ToSql (fieldName : String) (value : Value) : Rendered :=
  match value with
  | .nil => ("", [], some (Errorf "value cannot be nil"))
  | _ => (fieldName ++ " = ANY (" ++ Placeholders 1 ++ ")", [value], none)

/-- Method `ArrayContainsArray.ToSql`. -/
def ArrayContainsArray.ToSql (fieldName : String) (value : Value) : Rendered :=
  match value with
  | .nil => (sqlFalse, [], none)
  | .list items =>
    if items.length = 0 then (sqlFalse, [], none)
    else (fieldName ++ " @> ARRAY[" ++ Placeholders items.length ++ "]", items, none)
  | val => (fieldName ++ " @> ARRAY[" ++ Placeholders [val].length ++ "]", [val], none)

/-- Method `ArrayIsContained.ToSql`. -/
def ArrayIsContained.ToSql (fieldName : String) (value : Value) : Rendered :=
  match value with
  | .nil => (sqlFalse, [], none)
  | .list items =>
    if items.length = 0 then (sqlFalse, [], none)
    else (fieldName ++ " <@ ARRAY[" ++ Placeholders items.length ++ "]", items, none)
  | val => (fieldName ++ " <@ ARRAY[" ++ Placeholders [val].length ++ "]", [val], none)

/-- Method `Overlaps.ToSql`. -/
def Overlaps.ToSql (fieldName : String) (value : Value) : Rendered :=
  match value with
  | .nil => (sqlFalse, [], none)
  | .list items =>
    if items.length = 0 then (sqlFalse, [], none)
    else (fieldName ++ " && ARRAY[" ++ Placeholders items.length ++ "]", items, none)
  | val => (fieldName ++ " && ARRAY[" ++ Placeholders [val].length ++ "]", [val], none)

/-- Method `Regex.ToSql`. -/
def Regex.ToSql (fieldName : String) (expression : String) : Rendered :=
  (fieldName ++ " ~ " ++ Placeholders 1, [.str expression], none)

/-- Method `NotRegex.ToSql`. -/
def NotRegex.ToSql (fieldName : String) (expression : String) : Rendered :=
  (fieldName ++ " !~ " ++ Placeholders 1, [.str expression], none)

/-- Modelled from the spec: the rendering of `sq.Eq` and `sq.NotEq` with one
key by the external statement builder library, which is not under src/: a nil
value gives `IS NULL`, a sequence an `IN (...)` list (the false or true literal
when it is empty), a scalar `key = ?`. -/
def eqToSQL (useNotOpr : Bool) (key : String) (val : Value) : Rendered :=
  let equalOpr := if useNotOpr then "<>" else "="
  let inOpr := if useNotOpr then "NOT IN" else "IN"
  let nullOpr := if useNotOpr then "IS NOT" else "IS"
  let inEmptyExpr := if useNotOpr then sqlTrue else sqlFalse
  match val with
  | .nil => (key ++ " " ++ nullOpr ++ " NULL", [], none)
  | .list items =>
    if items.length = 0 then (inEmptyExpr, [], none)
    else (key ++ " " ++ inOpr ++ " (" ++ Placeholders items.length ++ ")", items, none)
  | v => (key ++ " " ++ equalOpr ++ " ?", [v], none)

/-- Modelled from the spec: the rendering of `sq.Lt`, `sq.LtOrEq`, `sq.Gt` and
`sq.GtOrEq` with one key by the external statement builder library, which is
not under src/: `key OP ?` for a scalar, an error for nil and for a sequence. -/
def ltToSql (opposite orEq : Bool) (key : String) (val : Value) : Rendered :=
  let opr := (if opposite then ">" else "<") ++ (if orEq then "=" else "")
  match val with
  | .nil => ("", [], some (Errorf "cannot use null with less than or greater than operators"))
  | .list _ =>
    ("", [], some (Errorf "cannot use array or slice with less than or greater than operators"))
  | v => (key ++ " " ++ opr ++ " ?", [v], none)

/-- Modelled from the spec: the rendering of `sq.ILike` with one key by the
external statement builder library, which is not under src/. -/
def likeToSql (opr : String) (key : String) (val : Value) : Rendered :=
  match val with
  | .nil => ("", [], some (Errorf "cannot use null with like operators"))
  | .list _ => ("", [], some (Errorf "cannot use array or slice with like operators"))
  | v => (key ++ " " ++ opr ++ " ?", [v], none)

mutual
/-- The `ToSql` method of a fragment. The cases of the package's own types are
the methods above and `Not.ToSql`, which fails unless its inner value is a
`sq.Sqlizer` and otherwise wraps the inner SQL in `NOT (...)`, handing the
inner arguments and error through. The cases `And` and `Or` are modelled on
the external library (see `joinLoop`). -/
def Sqlizer.ToSql : Sqlizer → Rendered
  | .Eq key val => eqToSQL false key val
  | .NotEq key val => eqToSQL true key val
  | .Gt key val => ltToSql true false key val
  | .GtOrEq key val => ltToSql true true key val
  | .Lt key val => ltToSql false false key val
  | .LtOrEq key val => ltToSql false true key val
  | .ILike key val => likeToSql "ILIKE" key val
  | .And parts =>
    if parts.length = 0 then (sqlTrue, [], none)
    else
      match joinLoop parts [] [] with
      | .error err => ("", [], some err)
      | .ok (sqlParts, args) =>
        (if sqlParts.length > 0 then "(" ++ " AND ".intercalate sqlParts ++ ")" else "", args, none)
  | .Or parts =>
    if parts.length = 0 then (sqlFalse, [], none)
    else
      match joinLoop parts [] [] with
      | .error err => ("", [], some err)
      | .ok (sqlParts, args) =>
        (if sqlParts.length > 0 then "(" ++ " OR ".intercalate sqlParts ++ ")" else "", args, none)
  | .ArrayContains fieldName value => ArrayContains.ToSql fieldName value
  | .ArrayContainsArray fieldName value => ArrayContainsArray.ToSql fieldName value
  | .ArrayIsContained fieldName value => ArrayIsContained.ToSql fieldName value
  | .Overlaps fieldName value => Overlaps.ToSql fieldName value
  | .Regex fieldName expression => Regex.ToSql fieldName expression
  | .NotRegex fieldName expression => NotRegex.ToSql fieldName expression
  | .Not (.sqlizer sqlObj) =>
    match Sqlizer.ToSql sqlObj with
    | (sql, args, err) => ("NOT (" ++ sql ++ ")", args, err)
  | .Not .nil => ("", [], some (Errorf "expected sq.Sqlizer but got <nil>"))
  | .Not (.slice _) => ("", [], some (Errorf "expected sq.Sqlizer but got []squirrel.Sqlizer"))
/-- Modelled from the spec: the loop by which the external statement builder
library, which is not under src/, renders the parts of `sq.And` and `sq.Or`:
parts are rendered left to right, the first error aborts, and a part with
non-empty SQL contributes its SQL and its arguments in order. -/
def joinLoop : List Sqlizer → List String → List Value → Except Error (List String × List Value)
  | [], sqlParts, args => .ok (sqlParts, args)
  | sqlizer :: rest, sqlParts, args =>
    match Sqlizer.ToSql sqlizer with
    | (_, _, some err) => .error err
    | (partSQL, partArgs, none) =>
      if partSQL ≠ "" then joinLoop rest (sqlParts ++ [partSQL]) (args ++ partArgs)
      else joinLoop rest sqlParts args
end

/-! ## Entry point -/

/-- Modelled from the spec: the select builder of the external statement
builder library, which is not under src/: the predicates of its WHERE part in
order, and everything else it holds. -/
structure SelectBuilder where
  rest : String
  WhereParts : List SqlObj

/-- Modelled from the spec: `SelectBuilder.Where` of the external statement
builder library, which is not under src/: a nil predicate leaves the builder
as it is, any other predicate is appended to the WHERE parts. -/
def SelectBuilder.Where (b : SelectBuilder) (pred : SqlObj) : SelectBuilder :=
  match pred with
  | .nil => b
  | _ => { b with WhereParts := b.WhereParts ++ [pred] }

/-- The values `ApplyFilter` returns: builder, alias list (nil is the empty
list) and error (nil is `none`). -/
structure Applied where
  builder : SelectBuilder
  tableAliases : List String
  err : Option Error

/-- Function `ApplyFilter`. The alias list is read off the key list of the
alias map; the order in which Go ranges over the map is not fixed. -/
def ApplyFilter (b : SelectBuilder) (condition : Condition) (opts : List Option') :
    Outcome Applied :=
  match condition with
  | .nil => .returns ⟨b, [], none⟩
  | _ =>
    let options := FromDefaultOptions opts
    match applyFilter condition options.MapperFunc [] with
    | (.panic, _) => .panics
    | (.err err, _) => .returns ⟨b, [], some err⟩
    | (.ok sqlizers, tableAliasesMap) =>
      match sqlizers with
      | .nil => .returns ⟨b, tableAliasesMap, none⟩
      | _ => .returns ⟨b.Where sqlizers, tableAliasesMap, none⟩

/-! ## Notions used to state the properties -/

/-- The field and the fragment constructor of a leaf condition: the mapped
field name is the only input of the fragment the leaf builder returns. Not a
leaf: nil, the five composite variants and an unregistered variant. -/
def Condition.asLeaf : Condition → Option (String × (String → Sqlizer))
  | .ArrayContains f v => some (f, fun m => .ArrayContains m v)
  | .ArrayContainsArray f v => some (f, fun m => .ArrayContainsArray m v)
  | .ArrayIsContained f v => some (f, fun m => .ArrayIsContained m v)
  | .ArraysOverlap f v => some (f, fun m => .Overlaps m v)
  | .Contains f v => some (f, fun m => .ILike m (.str ("%" ++ Sprint v ++ "%")))
  | .Equals f v => some (f, fun m => .Eq m v)
  | .GreaterThan f v => some (f, fun m => .Gt m v)
  | .GreaterThanOrEqual f v => some (f, fun m => .GtOrEq m v)
  | .In f v => some (f, fun m => .Eq m v)
  | .IsNil f => some (f, fun m => .Eq m .nil)
  | .LowerThan f v => some (f, fun m => .Lt m v)
  | .LowerThanOrEqual f v => some (f, fun m => .LtOrEq m v)
  | .NotEquals f v => some (f, fun m => .NotEq m v)
  | .NotNil f => some (f, fun m => .NotEq m .nil)
  | .NotRegex f e => some (f, fun m => .NotRegex m e)
  | .Overlaps f v => some (f, fun m => .Overlaps m v)
  | .Regex f e => some (f, fun m => .Regex m e)
  | _ => none

/-- The field of a leaf condition. -/
def Condition.leafField (c : Condition) : Option String :=
  c.asLeaf.map Prod.fst

/-- The result of translating a condition with a fresh alias map. -/
def translate (mf : FieldMapperFunc) (c : Condition) : Res SqlObj :=
  (applyFilter c mf []).1

/-- The condition translates successfully: the translation returns with a nil
error (the returned value may be the nil "no predicate" result). -/
def translatesOk (mf : FieldMapperFunc) (c : Condition) : Bool :=
  match translate mf c with
  | .ok _ => true
  | _ => false

/-- The condition translates to a fragment: the translation returns a
`sq.Sqlizer` value with a nil error. -/
def translatesToFragment (mf : FieldMapperFunc) (c : Condition) : Bool :=
  match translate mf c with
  | .ok (.sqlizer _) => true
  | _ => false

/-- What the fragment translated from a condition renders to; `none` when the
translation yields no fragment. -/
def render (mf : FieldMapperFunc) (c : Condition) : Option Rendered :=
  match translate mf c with
  | .ok (.sqlizer s) => some s.ToSql
  | _ => none

/-- The argument list the fragment translated from a condition renders to;
`none` when there is no fragment or rendering fails. -/
def renderArgs (mf : FieldMapperFunc) (c : Condition) : Option (List Value) :=
  match render mf c with
  | some (_, args, none) => some args
  | _ => none

/-- The relation `Under good root node`: `node` is `root` or sits below it
under WHERE, GROUP, NOT, AND and OR nodes, every AND and OR node on the way
having at least two children and every child to the left of the way satisfying
`good`. -/
inductive Under (good : Condition → Prop) : Condition → Condition → Prop where
  | here (c : Condition) : Under good c c
  | inWhere {c n : Condition} : Under good c n → Under good (.Where c) n
  | inGroup {c n : Condition} : Under good c n → Under good (.Group c) n
  | inNot {c n : Condition} : Under good c n → Under good (.Not c) n
  | inAnd {c n : Condition} (pre post : List Condition) :
      2 ≤ (pre ++ c :: post).length → (∀ p ∈ pre, good p) → Under good c n →
      Under good (.And (pre ++ c :: post)) n
  | inOr {c n : Condition} (pre post : List Condition) :
      2 ≤ (pre ++ c :: post).length → (∀ p ∈ pre, good p) → Under good c n →
      Under good (.Or (pre ++ c :: post)) n

mutual
/-- The fields of the leaf conditions of a tree, left to right. -/
def Condition.fields : Condition → List String
  | .And cs => fieldsAll cs
  | .Or cs => fieldsAll cs
  | .Where c => Condition.fields c
  | .Group c => Condition.fields c
  | .Not c => Condition.fields c
  | .nil => []
  | .typedNil _ => []
  | .other _ => []
  | .ArrayContains f _ => [f]
  | .ArrayContainsArray f _ => [f]
  | .ArrayIsContained f _ => [f]
  | .ArraysOverlap f _ => [f]
  | .Contains f _ => [f]
  | .Equals f _ => [f]
  | .GreaterThan f _ => [f]
  | .GreaterThanOrEqual f _ => [f]
  | .In f _ => [f]
  | .IsNil f => [f]
  | .LowerThan f _ => [f]
  | .LowerThanOrEqual f _ => [f]
  | .NotEquals f _ => [f]
  | .NotNil f => [f]
  | .NotRegex f _ => [f]
  | .Overlaps f _ => [f]
  | .Regex f _ => [f]
/-- The fields of the leaf conditions of a list of trees. -/
def fieldsAll : List Condition → List String
  | [] => []
  | c :: cs => Condition.fields c ++ fieldsAll cs
end

/-- The table qualifier of a column reference: the text before its first dot,
when it has a dot. -/
def qualifier (ref : String) : Option String :=
  if '.' ∈ ref.data then some (String.mk (ref.data.takeWhile (fun ch => ch != '.'))) else none

/-- The condition is nil or a chain of WHERE and GROUP wrappers around nil. -/
def Condition.endsInNil : Condition → Bool
  | .nil => true
  | .Where c => Condition.endsInNil c
  | .Group c => Condition.endsInNil c
  | _ => false

/-! ## The dispatch table -/

/-- Modelled from the spec: the function `filter.AllConditionTypes` of the
external filter library, which is not under src/: the tags of the 22 variants
the library defines. -/
def AllConditionTypes : List ConditionType :=
  [.AndConditionType, .ArrayContainsConditionType, .ArrayContainsArrayConditionType,
   .ArrayIsContainedConditionType, .ArraysOverlapConditionType, .ContainsConditionType,
   .EqualsConditionType, .GreaterThanConditionType, .GreaterThanOrEqualConditionType,
   .GroupConditionType, .InConditionType, .IsNilConditionType,
   .LowerThanConditionType, .LowerThanOrEqualConditionType, .NotConditionType,
   .NotEqualsConditionType, .NotNilConditionType, .NotRegexConditionType,
   .OrConditionType, .OverlapsConditionType, .RegexConditionType,
   .WhereConditionType]

/-- Modelled from the spec: the method `Type` of a condition of the external
filter library, which is not under src/: the tag of the variant; calling it on
the nil interface or on a nil pointer panics, which is `none`. -/
def Condition.Type : Condition → Option ConditionType
  | .nil => none
  | .typedNil _ => none
  | .other tag => some (.other tag)
  | .And _ => some .AndConditionType
  | .ArrayContains _ _ => some .ArrayContainsConditionType
  | .ArrayContainsArray _ _ => some .ArrayContainsArrayConditionType
  | .ArrayIsContained _ _ => some .ArrayIsContainedConditionType
  | .ArraysOverlap _ _ => some .ArraysOverlapConditionType
  | .Contains _ _ => some .ContainsConditionType
  | .Equals _ _ => some .EqualsConditionType
  | .GreaterThan _ _ => some .GreaterThanConditionType
  | .GreaterThanOrEqual _ _ => some .GreaterThanOrEqualConditionType
  | .Group _ => some .GroupConditionType
  | .In _ _ => some .InConditionType
  | .IsNil _ => some .IsNilConditionType
  | .LowerThan _ _ => some .LowerThanConditionType
  | .LowerThanOrEqual _ _ => some .LowerThanOrEqualConditionType
  | .Not _ => some .NotConditionType
  | .NotEquals _ _ => some .NotEqualsConditionType
  | .NotNil _ => some .NotNilConditionType
  | .NotRegex _ _ => some .NotRegexConditionType
  | .Or _ => some .OrConditionType
  | .Overlaps _ _ => some .OverlapsConditionType
  | .Regex _ _ => some .RegexConditionType
  | .Where _ => some .WhereConditionType

/-- The type of a condition builder. -/
abbrev Builder := Condition → FieldMapperFunc → Aliases → Res SqlObj × Aliases

/-- The map `conditionBuilders` as `init` fills it, one entry per assignment,
in the order of the assignments. -/
def conditionBuilders : List (ConditionType × Builder) :=
  [(.AndConditionType, applyAnd),
   (.ArrayContainsConditionType, applyArrayContains),
   (.ArrayContainsArrayConditionType, applyArrayContainsArray),
   (.ArrayIsContainedConditionType, applyArrayIsContained),
   (.ArraysOverlapConditionType, applyArraysOverlap),
   (.ContainsConditionType, applyContains),
   (.EqualsConditionType, applyEquals),
   (.GreaterThanConditionType, applyGreaterThan),
   (.GreaterThanOrEqualConditionType, applyGreaterThanOrEqual),
   (.GroupConditionType, applyGroup),
   (.InConditionType, applyIn),
   (.IsNilConditionType, applyIsNil),
   (.LowerThanConditionType, applyLowerThan),
   (.LowerThanOrEqualConditionType, applyLowerThanOrEqual),
   (.NotConditionType, applyNot),
   (.NotEqualsConditionType, applyNotEquals),
   (.NotNilConditionType, applyNotNil),
   (.NotRegexConditionType, applyNotRegex),
   (.OrConditionType, applyOr),
   (.OverlapsConditionType, applyOverlaps),
   (.RegexConditionType, applyRegex),
   (.WhereConditionType, applyWhere)]

/-- The map access `conditionBuilders[t]`: the builder stored under the tag,
if there is one. -/
def lookupBuilder (t : ConditionType) : Option Builder :=
  (conditionBuilders.find? (fun entry => decide (entry.1 = t))).map Prod.snd

/-- Function `applyFilter` as the source writes it: the builder is looked up
in the table under the tag of the condition and called on the condition; a
tag without entry gives the "unknown condition" error. The text of a tag
belongs to the filter library and is the parameter `tagText`. -/
def applyFilterDispatch (tagText : ConditionType → String) (condition : Condition)
    (mf : FieldMapperFunc) (tableAliases : Aliases) : Res SqlObj × Aliases :=
  match condition.Type with
  | none => (.panic, tableAliases)
  | some t =>
    match lookupBuilder t with
    | none => (.err (Errorf ("unknown condition: " ++ tagText t)), tableAliases)
    | some applyFunc => applyFunc condition mf tableAliases

/-- A text for the tags under which `other tag` prints as `tag`; the text of
the 22 constants never reaches a message. -/
def exTagText : ConditionType → String
  | .other tag => tag
  | _ => "registered"

/-! ## Further notions used to state the properties -/

/-- The number of `?` placeholders in an SQL text. -/
def countPlaceholders (sql : String) : Nat :=
  sql.data.count '?'

mutual
/-- The fragment is of a type this package defines: one of the four array
fragments, `Regex`, `NotRegex`, or `Not` over such a fragment. -/
def Sqlizer.isPackageFragment : Sqlizer → Bool
  | .ArrayContains _ _ => true
  | .ArrayContainsArray _ _ => true
  | .ArrayIsContained _ _ => true
  | .Overlaps _ _ => true
  | .Regex _ _ => true
  | .NotRegex _ _ => true
  | .Not inner => SqlObj.isPackageFragment inner
  | _ => false
/-- The value is a fragment of a type this package defines. -/
def SqlObj.isPackageFragment : SqlObj → Bool
  | .sqlizer s => Sqlizer.isPackageFragment s
  | _ => false
end

mutual
/-- The mapped field name of a fragment of this package, looked up through
`Not`. -/
def Sqlizer.fieldName : Sqlizer → Option String
  | .ArrayContains fieldName _ => some fieldName
  | .ArrayContainsArray fieldName _ => some fieldName
  | .ArrayIsContained fieldName _ => some fieldName
  | .Overlaps fieldName _ => some fieldName
  | .Regex fieldName _ => some fieldName
  | .NotRegex fieldName _ => some fieldName
  | .Not inner => SqlObj.fieldName inner
  | _ => none
/-- The mapped field name of a fragment value of this package. -/
def SqlObj.fieldName : SqlObj → Option String
  | .sqlizer s => Sqlizer.fieldName s
  | _ => none
end

/-- The condition is the nil interface value. -/
def Condition.isNil : Condition → Bool
  | .nil => true
  | _ => false

mutual
/-- No operand that is translated without a nil check is nil: every NOT node
has a non-nil child and every child of an AND or OR node is non-nil, at every
depth. The child of a WHERE or GROUP node may be nil. -/
def Condition.noNilOperand : Condition → Bool
  | .Not c => !Condition.isNil c && Condition.noNilOperand c
  | .And cs => noNilOperands cs
  | .Or cs => noNilOperands cs
  | .Where c => Condition.noNilOperand c
  | .Group c => Condition.noNilOperand c
  | _ => true
/-- Every condition of the list is non-nil and has no nil operand. -/
def noNilOperands : List Condition → Bool
  | [] => true
  | c :: cs => !Condition.isNil c && Condition.noNilOperand c && noNilOperands cs
end

mutual
/-- No condition of the tree, the root included, is a nil pointer held in a
non-nil interface value. -/
def Condition.noTypedNil : Condition → Bool
  | .typedNil _ => false
  | .Not c => Condition.noTypedNil c
  | .And cs => noTypedNils cs
  | .Or cs => noTypedNils cs
  | .Where c => Condition.noTypedNil c
  | .Group c => Condition.noTypedNil c
  | _ => true
/-- No condition of the trees of the list is a nil pointer. -/
def noTypedNils : List Condition → Bool
  | [] => true
  | c :: cs => Condition.noTypedNil c && noTypedNils cs
end

/-- The mapper of the last non-nil `WithMapperFunc` option of a list, the
given one when there is none. -/
def lastMapper (dflt : FieldMapperFunc) : List (Option FieldMapperFunc) → FieldMapperFunc
  | [] => dflt
  | none :: rest => lastMapper dflt rest
  | some f :: rest => lastMapper f rest

/-! ## Example inputs -/

/-- The builder of `SELECT * FROM users u`, holding no predicate. -/
def exBuilder : SelectBuilder := ⟨"SELECT * FROM users u", []⟩

/-- A mapper that qualifies every field with `u.` and rejects `missingField`. -/
def exMapper : FieldMapperFunc := fun fieldName =>
  if fieldName = "missingField" then .error (Errorf "field name error")
  else .ok ("u." ++ fieldName)

/-- The failing leaf `Equals("missingField", "x")`. -/
def exMissing : Condition := .Equals "missingField" (.str "x")

/-- The tree `And(Equals("id", 1234), Equals("missingField", "x"))`. -/
def exAndMissing : Condition := .And [.Equals "id" (.int 1234), exMissing]

/-- The tree `And(Group(nil), Equals("missingField", "x"))`. -/
def exGroupNilThenMissing : Condition := .And [.Group .nil, exMissing]

/-- The tree `Where(And(Equals("id", 1), Not(Group(Or(Regex("name", "a$"),
Equals("missingField", "x"), Equals("id", 2))))))`. -/
def exDeepMissing : Condition :=
  .Where (.And [.Equals "id" (.int 1),
    .Not (.Group (.Or [.Regex "name" "a$", exMissing, .Equals "id" (.int 2)]))])

/-- The tree `Where(Or(Equals("a", 1), Not(And(Equals("b", 2)))))`, whose AND
node has a single child. -/
def exDeepArity : Condition :=
  .Where (.Or [.Equals "a" (.int 1), .Not (.And [.Equals "b" (.int 2)])])

/-- The mapper of the grouping test: `a` maps to `aa.a`, `b` to `bbb.b`, `n` to
the unqualified `n`, any other field `x` to `x.x`. -/
def exGroupingMapper : FieldMapperFunc := fun fieldName =>
  if fieldName = "a" then .ok "aa.a"
  else if fieldName = "b" then .ok "bbb.b"
  else if fieldName = "n" then .ok "n"
  else .ok (fieldName ++ "." ++ fieldName)

/-- The tree `Where(And(Equals("a", 2), Group(Or(Equals("b", "b"),
Equals("c", "c"), GreaterThan("a", "e"), IsNil("n")))))`. -/
def exGrouping : Condition :=
  .Where (.And [.Equals "a" (.int 2),
    .Group (.Or [.Equals "b" (.str "b"), .Equals "c" (.str "c"), .GreaterThan "a" (.str "e"),
      .IsNil "n"])])

/-- The leaf `Equals("a", 1)`. -/
def exA : Condition := .Equals "a" (.int 1)

/-- The leaf `Overlaps("b", [2, 3])`. -/
def exB : Condition := .Overlaps "b" (.list [.int 2, .int 3])

/-- The leaf `Regex("c", "x$")`. -/
def exC : Condition := .Regex "c" "x$"

/-- The builder of `SELECT * FROM users u WHERE active = ?`, already holding
one predicate. -/
def exBuilderWithPredicate : SelectBuilder :=
  ⟨"SELECT * FROM users u", [.sqlizer (.Eq "active" (.bool true))]⟩

/-- A mapper that rejects every field. -/
def exRejectingMapper : FieldMapperFunc := fun _ => .error (Errorf "should not be reached")

/-- The tree `Where(Or(Not(Equals("a", 1)), Group(nil), And(Regex("c", "x$"))))`:
no NOT, AND or OR operand is nil. -/
def exNoNilOperand : Condition :=
  .Where (.Or [.Not exA, .Group .nil, .And [exC]])

/-! # General lemmas -/

theorem applyFilter_leaf {c : Condition} {f : String} {mk : String → Sqlizer}
    (h : Condition.asLeaf c = some (f, mk)) (mf : FieldMapperFunc) (ta : Aliases) :
    applyFilter c mf ta =
      match mf f with
      | .error e => (.err e, ta)
      | .ok m => (.ok (.sqlizer (mk m)), addTableAlias m ta) := by
  cases c <;> simp only [Condition.asLeaf, Option.some.injEq, Prod.mk.injEq, reduceCtorEq] at h <;>
    obtain ⟨rfl, rfl⟩ := h <;>
    simp only [applyFilter, applyArrayContains, applyArrayContainsArray, applyArrayIsContained,
      applyArraysOverlap, applyContains, applyEquals, applyGreaterThan, applyGreaterThanOrEqual,
      applyIn, applyIsNil, applyLowerThan, applyLowerThanOrEqual, applyNotEquals, applyNotNil,
      applyNotRegex, applyOverlaps, applyRegex]

theorem applyFilter_Where {c : Condition} (hc : c ≠ .nil) (mf : FieldMapperFunc) (ta : Aliases) :
    applyFilter (.Where c) mf ta = applyFilter c mf ta := by
  unfold applyFilter
  cases c <;> first | exact absurd rfl hc | rfl

theorem applyFilter_Group {c : Condition} (hc : c ≠ .nil) (mf : FieldMapperFunc) (ta : Aliases) :
    applyFilter (.Group c) mf ta = applyFilter c mf ta := by
  unfold applyFilter
  cases c <;> first | exact absurd rfl hc | rfl

theorem applyFilter_Not_ok {c : Condition} {mf : FieldMapperFunc} {ta ta2 : Aliases} {o : SqlObj}
    (h : applyFilter c mf ta = (.ok o, ta2)) :
    applyFilter (.Not c) mf ta = (.ok (.sqlizer (.Not o)), ta2) := by
  rw [applyFilter, h]

theorem applyFilter_Not_err {c : Condition} {mf : FieldMapperFunc} {ta ta2 : Aliases} {e : Error}
    (h : applyFilter c mf ta = (.err e, ta2)) :
    applyFilter (.Not c) mf ta = (.err e, ta2) := by
  rw [applyFilter, h]

theorem applyFilter_Not_panic {c : Condition} {mf : FieldMapperFunc} {ta ta2 : Aliases}
    (h : applyFilter c mf ta = (.panic, ta2)) :
    applyFilter (.Not c) mf ta = (.panic, ta2) := by
  rw [applyFilter, h]

theorem applyFilter_And (cs : List Condition) (mf : FieldMapperFunc) (ta : Aliases) :
    applyFilter (.And cs) mf ta =
      if cs.length < 2 then
        (.err (Errorf "AND condition must have at least two conditions"), ta)
      else andLoop cs mf ta [] := by
  rw [applyFilter]

theorem applyFilter_Or (cs : List Condition) (mf : FieldMapperFunc) (ta : Aliases) :
    applyFilter (.Or cs) mf ta =
      if cs.length < 2 then
        (.err (Errorf "OR condition must have at least two conditions"), ta)
      else orLoop cs mf ta [] := by
  rw [applyFilter]

theorem applyFilter_nil (mf : FieldMapperFunc) (ta : Aliases) :
    applyFilter .nil mf ta = (.panic, ta) := by
  rw [applyFilter]

theorem applyFilter_typedNil (t : ConditionType) (mf : FieldMapperFunc) (ta : Aliases) :
    applyFilter (.typedNil t) mf ta = (.panic, ta) := by
  rw [applyFilter]

theorem andLoop_cons_err {c : Condition} {mf : FieldMapperFunc} {ta ta2 : Aliases} {e : Error}
    (h : applyFilter c mf ta = (.err e, ta2)) (rest : List Condition) (conj : List Sqlizer) :
    andLoop (c :: rest) mf ta conj = (.err e, ta2) := by
  rw [andLoop, h]

theorem andLoop_cons_panic {c : Condition} {mf : FieldMapperFunc} {ta ta2 : Aliases}
    (h : applyFilter c mf ta = (.panic, ta2)) (rest : List Condition) (conj : List Sqlizer) :
    andLoop (c :: rest) mf ta conj = (.panic, ta2) := by
  rw [andLoop, h]

theorem andLoop_cons_nil {c : Condition} {mf : FieldMapperFunc} {ta ta2 : Aliases}
    (h : applyFilter c mf ta = (.ok .nil, ta2)) (rest : List Condition) (conj : List Sqlizer) :
    andLoop (c :: rest) mf ta conj = (.err (Errorf "unexpected data type: <nil>"), ta2) := by
  rw [andLoop, h]

theorem andLoop_cons_sqlizer {c : Condition} {mf : FieldMapperFunc} {ta ta2 : Aliases}
    {item : Sqlizer} (h : applyFilter c mf ta = (.ok (.sqlizer item), ta2))
    (rest : List Condition) (conj : List Sqlizer) :
    andLoop (c :: rest) mf ta conj = andLoop rest mf ta2 (conj ++ [item]) := by
  rw [andLoop, h]

theorem andLoop_cons_slice {c : Condition} {mf : FieldMapperFunc} {ta ta2 : Aliases}
    {items : List Sqlizer} (h : applyFilter c mf ta = (.ok (.slice items), ta2))
    (rest : List Condition) (conj : List Sqlizer) :
    andLoop (c :: rest) mf ta conj = andLoop rest mf ta2 (conj ++ items) := by
  rw [andLoop, h]

theorem orLoop_cons_err {c : Condition} {mf : FieldMapperFunc} {ta ta2 : Aliases} {e : Error}
    (h : applyFilter c mf ta = (.err e, ta2)) (rest : List Condition) (conj : List Sqlizer) :
    orLoop (c :: rest) mf ta conj = (.err e, ta2) := by
  rw [orLoop, h]

theorem orLoop_cons_panic {c : Condition} {mf : FieldMapperFunc} {ta ta2 : Aliases}
    (h : applyFilter c mf ta = (.panic, ta2)) (rest : List Condition) (conj : List Sqlizer) :
    orLoop (c :: rest) mf ta conj = (.panic, ta2) := by
  rw [orLoop, h]

theorem orLoop_cons_nil {c : Condition} {mf : FieldMapperFunc} {ta ta2 : Aliases}
    (h : applyFilter c mf ta = (.ok .nil, ta2)) (rest : List Condition) (conj : List Sqlizer) :
    orLoop (c :: rest) mf ta conj = (.err (Errorf "unexpected data type: <nil>"), ta2) := by
  rw [orLoop, h]

theorem orLoop_cons_sqlizer {c : Condition} {mf : FieldMapperFunc} {ta ta2 : Aliases}
    {item : Sqlizer} (h : applyFilter c mf ta = (.ok (.sqlizer item), ta2))
    (rest : List Condition) (conj : List Sqlizer) :
    orLoop (c :: rest) mf ta conj = orLoop rest mf ta2 (conj ++ [item]) := by
  rw [orLoop, h]

theorem orLoop_cons_slice {c : Condition} {mf : FieldMapperFunc} {ta ta2 : Aliases}
    {items : List Sqlizer} (h : applyFilter c mf ta = (.ok (.slice items), ta2))
    (rest : List Condition) (conj : List Sqlizer) :
    orLoop (c :: rest) mf ta conj = orLoop rest mf ta2 (conj ++ items) := by
  rw [orLoop, h]


theorem leaf_fst_indep (mf : FieldMapperFunc) (ta ta2 : Aliases) {c : Condition} {f : String}
    {mk : String → Sqlizer} (h : Condition.asLeaf c = some (f, mk)) :
    (applyFilter c mf ta).1 = (applyFilter c mf ta2).1 := by
  rw [applyFilter_leaf h, applyFilter_leaf h]
  cases mf f <;> rfl

mutual
/-- The value a translation returns does not depend on the aliases recorded so far. -/
theorem applyFilter_fst_indep : ∀ (c : Condition) (mf : FieldMapperFunc) (ta ta2 : Aliases),
    (applyFilter c mf ta).1 = (applyFilter c mf ta2).1
  | .And cs, mf, ta, ta2 => by
    rw [applyFilter_And, applyFilter_And]
    split
    · rfl
    · exact andLoop_fst_indep cs mf ta ta2 []
  | .Or cs, mf, ta, ta2 => by
    rw [applyFilter_Or, applyFilter_Or]
    split
    · rfl
    · exact orLoop_fst_indep cs mf ta ta2 []
  | .Where c, mf, ta, ta2 => by
    have ih := applyFilter_fst_indep c mf ta ta2
    unfold applyFilter
    cases c <;> first | rfl | exact ih
  | .Group c, mf, ta, ta2 => by
    have ih := applyFilter_fst_indep c mf ta ta2
    unfold applyFilter
    cases c <;> first | rfl | exact ih
  | .Not c, mf, ta, ta2 => by
    have ih := applyFilter_fst_indep c mf ta ta2
    rcases h1 : applyFilter c mf ta with ⟨r1, t1⟩
    rcases h2 : applyFilter c mf ta2 with ⟨r2, t2⟩
    rw [h1, h2] at ih
    simp only at ih
    subst ih
    cases r1 with
    | ok o => rw [applyFilter_Not_ok h1, applyFilter_Not_ok h2]
    | err e => rw [applyFilter_Not_err h1, applyFilter_Not_err h2]
    | panic => rw [applyFilter_Not_panic h1, applyFilter_Not_panic h2]
  | .nil, mf, ta, ta2 => by rw [applyFilter, applyFilter]
  | .typedNil t, mf, ta, ta2 => by rw [applyFilter, applyFilter]
  | .other t, mf, ta, ta2 => by rw [applyFilter, applyFilter]
  | .ArrayContains f v, mf, ta, ta2 => by
    exact leaf_fst_indep mf ta ta2 (by first | exact Eq.refl (some (f, _)))
  | .ArrayContainsArray f v, mf, ta, ta2 => by
    exact leaf_fst_indep mf ta ta2 (by first | exact Eq.refl (some (f, _)))
  | .ArrayIsContained f v, mf, ta, ta2 => by
    exact leaf_fst_indep mf ta ta2 (by first | exact Eq.refl (some (f, _)))
  | .ArraysOverlap f v, mf, ta, ta2 => by
    exact leaf_fst_indep mf ta ta2 (by first | exact Eq.refl (some (f, _)))
  | .Contains f v, mf, ta, ta2 => by
    exact leaf_fst_indep mf ta ta2 (by first | exact Eq.refl (some (f, _)))
  | .Equals f v, mf, ta, ta2 => by
    exact leaf_fst_indep mf ta ta2 (by first | exact Eq.refl (some (f, _)))
  | .GreaterThan f v, mf, ta, ta2 => by
    exact leaf_fst_indep mf ta ta2 (by first | exact Eq.refl (some (f, _)))
  | .GreaterThanOrEqual f v, mf, ta, ta2 => by
    exact leaf_fst_indep mf ta ta2 (by first | exact Eq.refl (some (f, _)))
  | .In f v, mf, ta, ta2 => by
    exact leaf_fst_indep mf ta ta2 (by first | exact Eq.refl (some (f, _)))
  | .IsNil f, mf, ta, ta2 => by
    exact leaf_fst_indep mf ta ta2 (by first | exact Eq.refl (some (f, _)))
  | .LowerThan f v, mf, ta, ta2 => by
    exact leaf_fst_indep mf ta ta2 (by first | exact Eq.refl (some (f, _)))
  | .LowerThanOrEqual f v, mf, ta, ta2 => by
    exact leaf_fst_indep mf ta ta2 (by first | exact Eq.refl (some (f, _)))
  | .NotEquals f v, mf, ta, ta2 => by
    exact leaf_fst_indep mf ta ta2 (by first | exact Eq.refl (some (f, _)))
  | .NotNil f, mf, ta, ta2 => by
    exact leaf_fst_indep mf ta ta2 (by first | exact Eq.refl (some (f, _)))
  | .NotRegex f v, mf, ta, ta2 => by
    exact leaf_fst_indep mf ta ta2 (by first | exact Eq.refl (some (f, _)))
  | .Overlaps f v, mf, ta, ta2 => by
    exact leaf_fst_indep mf ta ta2 (by first | exact Eq.refl (some (f, _)))
  | .Regex f v, mf, ta, ta2 => by
    exact leaf_fst_indep mf ta ta2 (by first | exact Eq.refl (some (f, _)))
/-- The value the AND loop returns does not depend on the aliases recorded so far. -/
theorem andLoop_fst_indep : ∀ (cs : List Condition) (mf : FieldMapperFunc) (ta ta2 : Aliases)
    (conj : List Sqlizer), (andLoop cs mf ta conj).1 = (andLoop cs mf ta2 conj).1
  | [], mf, ta, ta2, conj => by simp [andLoop]
  | c :: rest, mf, ta, ta2, conj => by
    have ih := applyFilter_fst_indep c mf ta ta2
    rcases h1 : applyFilter c mf ta with ⟨r1, t1⟩
    rcases h2 : applyFilter c mf ta2 with ⟨r2, t2⟩
    rw [h1, h2] at ih
    simp only at ih
    subst ih
    cases r1 with
    | err e => rw [andLoop_cons_err h1, andLoop_cons_err h2]
    | panic => rw [andLoop_cons_panic h1, andLoop_cons_panic h2]
    | ok o =>
      cases o with
      | nil => rw [andLoop_cons_nil h1, andLoop_cons_nil h2]
      | sqlizer s =>
        rw [andLoop_cons_sqlizer h1, andLoop_cons_sqlizer h2]
        exact andLoop_fst_indep rest mf t1 t2 _
      | slice l =>
        rw [andLoop_cons_slice h1, andLoop_cons_slice h2]
        exact andLoop_fst_indep rest mf t1 t2 _
/-- The value the OR loop returns does not depend on the aliases recorded so far. -/
theorem orLoop_fst_indep : ∀ (cs : List Condition) (mf : FieldMapperFunc) (ta ta2 : Aliases)
    (conj : List Sqlizer), (orLoop cs mf ta conj).1 = (orLoop cs mf ta2 conj).1
  | [], mf, ta, ta2, conj => by simp [orLoop]
  | c :: rest, mf, ta, ta2, conj => by
    have ih := applyFilter_fst_indep c mf ta ta2
    rcases h1 : applyFilter c mf ta with ⟨r1, t1⟩
    rcases h2 : applyFilter c mf ta2 with ⟨r2, t2⟩
    rw [h1, h2] at ih
    simp only at ih
    subst ih
    cases r1 with
    | err e => rw [orLoop_cons_err h1, orLoop_cons_err h2]
    | panic => rw [orLoop_cons_panic h1, orLoop_cons_panic h2]
    | ok o =>
      cases o with
      | nil => rw [orLoop_cons_nil h1, orLoop_cons_nil h2]
      | sqlizer s =>
        rw [orLoop_cons_sqlizer h1, orLoop_cons_sqlizer h2]
        exact orLoop_fst_indep rest mf t1 t2 _
      | slice l =>
        rw [orLoop_cons_slice h1, orLoop_cons_slice h2]
        exact orLoop_fst_indep rest mf t1 t2 _
end

theorem applyFilter_fst (c : Condition) (mf : FieldMapperFunc) (ta : Aliases) :
    (applyFilter c mf ta).1 = translate mf c :=
  applyFilter_fst_indep c mf ta []

theorem applyFilter_of_translate {c : Condition} {mf : FieldMapperFunc} {r : Res SqlObj}
    (h : translate mf c = r) (ta : Aliases) : ∃ ta2, applyFilter c mf ta = (r, ta2) := by
  have h1 := applyFilter_fst c mf ta
  rw [h] at h1
  exact ⟨(applyFilter c mf ta).2, by rw [← h1]⟩

theorem translate_of_applyFilter {c : Condition} {mf : FieldMapperFunc} {r : Res SqlObj}
    {ta ta2 : Aliases} (h : applyFilter c mf ta = (r, ta2)) : translate mf c = r := by
  rw [← applyFilter_fst c mf ta, h]

theorem translatesToFragment_iff {mf : FieldMapperFunc} {c : Condition} :
    translatesToFragment mf c = true ↔ ∃ s, translate mf c = .ok (.sqlizer s) := by
  unfold translatesToFragment
  constructor
  · intro h
    split at h
    · rename_i s hs; exact ⟨s, hs⟩
    · exact absurd h (by simp)
  · rintro ⟨s, hs⟩
    rw [hs]

theorem andLoop_fragments_prefix (mf : FieldMapperFunc) (rest : List Condition) :
    ∀ (pre : List Condition), (∀ p ∈ pre, translatesToFragment mf p = true) →
      ∀ (ta : Aliases) (conj : List Sqlizer),
        ∃ ta2 conj2, andLoop (pre ++ rest) mf ta conj = andLoop rest mf ta2 conj2
  | [], _, ta, conj => ⟨ta, conj, rfl⟩
  | p :: pre, h, ta, conj => by
    obtain ⟨s, hs⟩ := translatesToFragment_iff.mp (h p (List.mem_cons_self _ _))
    obtain ⟨t1, h1⟩ := applyFilter_of_translate hs ta
    rw [List.cons_append, andLoop_cons_sqlizer h1]
    exact andLoop_fragments_prefix mf rest pre
      (fun q hq => h q (List.mem_cons_of_mem _ hq)) t1 _

theorem orLoop_fragments_prefix (mf : FieldMapperFunc) (rest : List Condition) :
    ∀ (pre : List Condition), (∀ p ∈ pre, translatesToFragment mf p = true) →
      ∀ (ta : Aliases) (conj : List Sqlizer),
        ∃ ta2 conj2, orLoop (pre ++ rest) mf ta conj = orLoop rest mf ta2 conj2
  | [], _, ta, conj => ⟨ta, conj, rfl⟩
  | p :: pre, h, ta, conj => by
    obtain ⟨s, hs⟩ := translatesToFragment_iff.mp (h p (List.mem_cons_self _ _))
    obtain ⟨t1, h1⟩ := applyFilter_of_translate hs ta
    rw [List.cons_append, orLoop_cons_sqlizer h1]
    exact orLoop_fragments_prefix mf rest pre
      (fun q hq => h q (List.mem_cons_of_mem _ hq)) t1 _

theorem translate_nil (mf : FieldMapperFunc) : translate mf .nil = .panic := by
  unfold translate; rw [applyFilter]

/-- An error returned at a node the walk reaches is the error of the whole translation. -/
theorem err_of_under {mf : FieldMapperFunc} {root n : Condition} {e : Error}
    (h : Under (fun p => translatesToFragment mf p = true) root n)
    (hn : translate mf n = .err e) : translate mf root = .err e := by
  induction h with
  | here c => exact hn
  | @inWhere c n _ ih =>
    have hc : c ≠ .nil := by
      rintro rfl; rw [translate_nil] at ih; exact absurd (ih hn) (by simp)
    unfold translate
    rw [applyFilter_Where hc]
    exact ih hn
  | @inGroup c n _ ih =>
    have hc : c ≠ .nil := by
      rintro rfl; rw [translate_nil] at ih; exact absurd (ih hn) (by simp)
    unfold translate
    rw [applyFilter_Group hc]
    exact ih hn
  | @inNot c n _ ih =>
    obtain ⟨t, ht⟩ := applyFilter_of_translate (ih hn) []
    unfold translate
    rw [applyFilter_Not_err ht]
  | @inAnd c n pre post hlen hpre _ ih =>
    unfold translate
    rw [applyFilter_And, if_neg (by omega)]
    obtain ⟨t1, conj1, h1⟩ := andLoop_fragments_prefix mf (c :: post) pre hpre [] []
    obtain ⟨t, ht⟩ := applyFilter_of_translate (ih hn) t1
    rw [h1, andLoop_cons_err ht]
  | @inOr c n pre post hlen hpre _ ih =>
    unfold translate
    rw [applyFilter_Or, if_neg (by omega)]
    obtain ⟨t1, conj1, h1⟩ := orLoop_fragments_prefix mf (c :: post) pre hpre [] []
    obtain ⟨t, ht⟩ := applyFilter_of_translate (ih hn) t1
    rw [h1, orLoop_cons_err ht]

theorem ApplyFilter_of_err {mf : FieldMapperFunc} {c : Condition} {e : Error}
    (h : translate mf c = .err e) (b : SelectBuilder) (opts : List Option')
    (hmf : (FromDefaultOptions opts).MapperFunc = mf) :
    ApplyFilter b c opts = .returns ⟨b, [], some e⟩ := by
  obtain ⟨t, ht⟩ := applyFilter_of_translate h []
  have hc : c ≠ .nil := by
    rintro rfl; rw [translate_nil] at h; exact absurd h (by simp)
  unfold ApplyFilter
  cases c <;> first | exact absurd rfl hc | simp only [hmf, ht]

theorem Placeholders_one : Placeholders 1 = "?" := by decide

theorem render_leaf {c : Condition} {f m : String} {mk : String → Sqlizer} {mf : FieldMapperFunc}
    (h : Condition.asLeaf c = some (f, mk)) (hm : mf f = .ok m) :
    render mf c = some (mk m).ToSql := by
  unfold render translate
  rw [applyFilter_leaf h, hm]

theorem scalar_cases {v : Value} (hnil : v ≠ .nil) (hlist : isListType v = false) :
    (∃ b, v = .bool b) ∨ (∃ i, v = .int i) ∨ (∃ s, v = .str s) := by
  cases v with
  | nil => exact absurd rfl hnil
  | bool b => exact Or.inl ⟨b, rfl⟩
  | int i => exact Or.inr (Or.inl ⟨i, rfl⟩)
  | str s => exact Or.inr (Or.inr ⟨s, rfl⟩)
  | list l => simp [isListType] at hlist


mutual
/-- Induction over condition trees: leaves, nil, unregistered variants, nil
pointers, the three one-child wrappers and the two list nodes. -/
theorem Condition.induct {P : Condition → Prop} {Q : List Condition → Prop}
    (hleaf : ∀ (c : Condition) (f : String) (mk : String → Sqlizer),
      c.asLeaf = some (f, mk) → P c)
    (hnil : P .nil) (hother : ∀ t, P (.other t)) (htyped : ∀ t, P (.typedNil t))
    (hWhere : ∀ c, P c → P (.Where c)) (hGroup : ∀ c, P c → P (.Group c))
    (hNot : ∀ c, P c → P (.Not c))
    (hAnd : ∀ cs, Q cs → P (.And cs)) (hOr : ∀ cs, Q cs → P (.Or cs))
    (hempty : Q []) (hcons : ∀ c cs, P c → Q cs → Q (c :: cs)) :
    ∀ c, P c
  | .And cs => hAnd cs (Condition.inductList hleaf hnil hother htyped hWhere hGroup hNot hAnd hOr hempty hcons cs)
  | .Or cs => hOr cs (Condition.inductList hleaf hnil hother htyped hWhere hGroup hNot hAnd hOr hempty hcons cs)
  | .Where c => hWhere c (Condition.induct hleaf hnil hother htyped hWhere hGroup hNot hAnd hOr hempty hcons c)
  | .Group c => hGroup c (Condition.induct hleaf hnil hother htyped hWhere hGroup hNot hAnd hOr hempty hcons c)
  | .Not c => hNot c (Condition.induct hleaf hnil hother htyped hWhere hGroup hNot hAnd hOr hempty hcons c)
  | .nil => hnil
  | .other t => hother t
  | .typedNil t => htyped t
  | .ArrayContains _ _ => hleaf _ _ _ rfl
  | .ArrayContainsArray _ _ => hleaf _ _ _ rfl
  | .ArrayIsContained _ _ => hleaf _ _ _ rfl
  | .ArraysOverlap _ _ => hleaf _ _ _ rfl
  | .Contains _ _ => hleaf _ _ _ rfl
  | .Equals _ _ => hleaf _ _ _ rfl
  | .GreaterThan _ _ => hleaf _ _ _ rfl
  | .GreaterThanOrEqual _ _ => hleaf _ _ _ rfl
  | .In _ _ => hleaf _ _ _ rfl
  | .IsNil _ => hleaf _ _ _ rfl
  | .LowerThan _ _ => hleaf _ _ _ rfl
  | .LowerThanOrEqual _ _ => hleaf _ _ _ rfl
  | .NotEquals _ _ => hleaf _ _ _ rfl
  | .NotNil _ => hleaf _ _ _ rfl
  | .NotRegex _ _ => hleaf _ _ _ rfl
  | .Overlaps _ _ => hleaf _ _ _ rfl
  | .Regex _ _ => hleaf _ _ _ rfl
/-- The list part of `Condition.induct`. -/
theorem Condition.inductList {P : Condition → Prop} {Q : List Condition → Prop}
    (hleaf : ∀ (c : Condition) (f : String) (mk : String → Sqlizer),
      c.asLeaf = some (f, mk) → P c)
    (hnil : P .nil) (hother : ∀ t, P (.other t)) (htyped : ∀ t, P (.typedNil t))
    (hWhere : ∀ c, P c → P (.Where c)) (hGroup : ∀ c, P c → P (.Group c))
    (hNot : ∀ c, P c → P (.Not c))
    (hAnd : ∀ cs, Q cs → P (.And cs)) (hOr : ∀ cs, Q cs → P (.Or cs))
    (hempty : Q []) (hcons : ∀ c cs, P c → Q cs → Q (c :: cs)) :
    ∀ cs, Q cs
  | [] => hempty
  | c :: cs => hcons c cs (Condition.induct hleaf hnil hother htyped hWhere hGroup hNot hAnd hOr hempty hcons c)
      (Condition.inductList hleaf hnil hother htyped hWhere hGroup hNot hAnd hOr hempty hcons cs)
end

theorem splitChars_ne_nil (sep : Char) : ∀ l : List Char, splitChars sep l ≠ []
  | [] => by simp [splitChars]
  | c :: cs => by
    unfold splitChars
    split
    · simp
    · split <;> simp

theorem splitChars_no_sep (sep : Char) : ∀ l : List Char, sep ∉ l → splitChars sep l = [l]
  | [], _ => by simp [splitChars]
  | c :: cs, h => by
    have hc : c ≠ sep := fun e => h (by simp [e])
    have hcs : sep ∉ cs := fun e => h (List.mem_cons_of_mem _ e)
    unfold splitChars
    rw [if_neg hc, splitChars_no_sep sep cs hcs]

theorem splitChars_sep (sep : Char) : ∀ l : List Char, sep ∈ l →
    ∃ t rest, splitChars sep l = l.takeWhile (fun ch => ch != sep) :: t :: rest
  | [], h => by simp at h
  | c :: cs, h => by
    unfold splitChars
    by_cases hc : c = sep
    · rw [if_pos hc]
      cases hs : splitChars sep cs with
      | nil => exact absurd hs (splitChars_ne_nil sep cs)
      | cons t rest => exact ⟨t, rest, by simp [hc]⟩
    · rw [if_neg hc]
      have hcs : sep ∈ cs := by
        rcases List.mem_cons.mp h with e | e
        · exact absurd e.symm hc
        · exact e
      obtain ⟨t, rest, ht⟩ := splitChars_sep sep cs hcs
      rw [ht]
      exact ⟨t, rest, by simp [hc]⟩

theorem addTableAlias_of_none {ref : String} (h : qualifier ref = none) (ta : Aliases) :
    addTableAlias ref ta = ta := by
  unfold qualifier at h
  split at h
  · simp at h
  · rename_i hdot
    unfold addTableAlias Split
    rw [splitChars_no_sep _ _ hdot]
    rfl

theorem addTableAlias_of_some {ref a : String} (h : qualifier ref = some a) (ta : Aliases) :
    addTableAlias ref ta = ta.set a := by
  unfold qualifier at h
  split at h
  · rename_i hdot
    obtain ⟨t, rest, ht⟩ := splitChars_sep _ _ hdot
    unfold addTableAlias Split
    rw [ht]
    simp only [Option.some.injEq] at h
    simp only [List.map_cons, h]
  · simp at h

theorem mem_set {ta : Aliases} {a x : String} : x ∈ ta.set a ↔ x ∈ ta ∨ x = a := by
  unfold Aliases.set
  split
  · rename_i h
    constructor
    · exact Or.inl
    · rintro (h1 | rfl)
      · exact h1
      · exact h
  · simp

theorem nodup_set {ta : Aliases} (h : ta.Nodup) (a : String) : (ta.set a).Nodup := by
  unfold Aliases.set
  split
  · exact h
  · rename_i hn
    rw [List.nodup_append]
    exact ⟨h, List.nodup_singleton a, by
      intro x hx hx2
      rw [List.mem_singleton] at hx2
      subst hx2
      exact hn hx⟩

theorem qualifier_of_form (a col : String) (ha : '.' ∉ a.data) :
    qualifier (a ++ "." ++ col) = some a := by
  have hd : (a ++ "." ++ col).data = a.data ++ '.' :: col.data := by
    simp [String.data_append]
  unfold qualifier
  rw [hd, if_pos (by simp)]
  congr 1
  have : List.takeWhile (fun ch => ch != '.') (a.data ++ '.' :: col.data) = a.data := by
    rw [List.takeWhile_append_of_pos]
    · simp
    · intro x hx
      have : x ≠ '.' := fun e => ha (e ▸ hx)
      simpa using this
  rw [this]

theorem qualifier_isSome_iff (ref : String) : (∃ a, qualifier ref = some a) ↔ '.' ∈ ref.data := by
  unfold qualifier
  split <;> simp_all


theorem fields_of_leaf {c : Condition} {f : String} {mk : String → Sqlizer}
    (h : c.asLeaf = some (f, mk)) : c.fields = [f] := by
  cases c <;> simp only [Condition.asLeaf, Option.some.injEq, Prod.mk.injEq, reduceCtorEq] at h <;>
    obtain ⟨rfl, _⟩ := h <;> simp only [Condition.fields]

theorem fieldsAll_cons (c : Condition) (cs : List Condition) :
    fieldsAll (c :: cs) = c.fields ++ fieldsAll cs := by
  rw [fieldsAll]

theorem andLoop_nil (mf : FieldMapperFunc) (ta : Aliases) (conj : List Sqlizer) :
    andLoop [] mf ta conj = (.ok (.sqlizer (.And conj)), ta) := by
  rw [andLoop]

theorem orLoop_nil (mf : FieldMapperFunc) (ta : Aliases) (conj : List Sqlizer) :
    orLoop [] mf ta conj = (.ok (.sqlizer (.Or conj)), ta) := by
  rw [orLoop]

/-- The aliases contributed by a list of fields under a mapper. -/
theorem contributes_append (mf : FieldMapperFunc) (a : String) (xs ys : List String) :
    (∃ f ∈ xs ++ ys, ∃ m, mf f = .ok m ∧ qualifier m = some a) ↔
      (∃ f ∈ xs, ∃ m, mf f = .ok m ∧ qualifier m = some a) ∨
      (∃ f ∈ ys, ∃ m, mf f = .ok m ∧ qualifier m = some a) := by
  constructor
  · rintro ⟨f, hf, h⟩
    rcases List.mem_append.mp hf with h1 | h1
    · exact Or.inl ⟨f, h1, h⟩
    · exact Or.inr ⟨f, h1, h⟩
  · rintro (⟨f, hf, h⟩ | ⟨f, hf, h⟩)
    · exact ⟨f, List.mem_append_left _ hf, h⟩
    · exact ⟨f, List.mem_append_right _ hf, h⟩

/-- After a successful translation the alias map holds what it held before and
the qualifiers of the mapped fields of the leaves, nothing else. -/
theorem applyFilter_aliases (mf : FieldMapperFunc) : ∀ (c : Condition) (ta : Aliases)
    (o : SqlObj) (ta2 : Aliases), applyFilter c mf ta = (.ok o, ta2) →
    ∀ a, a ∈ ta2 ↔ a ∈ ta ∨ ∃ f ∈ c.fields, ∃ m, mf f = .ok m ∧ qualifier m = some a := by
  apply Condition.induct
    (P := fun c => ∀ (ta : Aliases) (o : SqlObj) (ta2 : Aliases),
      applyFilter c mf ta = (.ok o, ta2) →
      ∀ a, a ∈ ta2 ↔ a ∈ ta ∨ ∃ f ∈ c.fields, ∃ m, mf f = .ok m ∧ qualifier m = some a)
    (Q := fun cs =>
      (∀ (ta : Aliases) (conj : List Sqlizer) (o : SqlObj) (ta2 : Aliases),
        andLoop cs mf ta conj = (.ok o, ta2) →
        ∀ a, a ∈ ta2 ↔ a ∈ ta ∨ ∃ f ∈ fieldsAll cs, ∃ m, mf f = .ok m ∧ qualifier m = some a) ∧
      (∀ (ta : Aliases) (conj : List Sqlizer) (o : SqlObj) (ta2 : Aliases),
        orLoop cs mf ta conj = (.ok o, ta2) →
        ∀ a, a ∈ ta2 ↔ a ∈ ta ∨ ∃ f ∈ fieldsAll cs, ∃ m, mf f = .ok m ∧ qualifier m = some a))
  · intro c f mk hl ta o ta2 h a
    rw [applyFilter_leaf hl] at h
    rw [fields_of_leaf hl]
    cases hm : mf f with
    | error e => rw [hm] at h; simp at h
    | ok m =>
      rw [hm] at h
      simp only [Prod.mk.injEq, Res.ok.injEq] at h
      obtain ⟨_, rfl⟩ := h
      cases hq : qualifier m with
      | none =>
        rw [addTableAlias_of_none hq]
        simp [hm, hq]
      | some q =>
        rw [addTableAlias_of_some hq, mem_set]
        simp only [List.mem_singleton, exists_eq_left, hm, Except.ok.injEq, exists_eq_left', hq,
          Option.some.injEq]
        constructor
        · rintro (h1 | h1)
          · exact Or.inl h1
          · exact Or.inr h1.symm
        · rintro (h1 | h1)
          · exact Or.inl h1
          · exact Or.inr h1.symm
  · intro ta o ta2 h
    rw [applyFilter_nil] at h
    simp at h
  · intro t ta o ta2 h
    rw [applyFilter] at h
    simp at h
  · intro t ta o ta2 h
    rw [applyFilter_typedNil] at h
    simp at h
  · intro c ih ta o ta2 h a
    by_cases hc : c = .nil
    · subst hc
      rw [applyFilter] at h
      simp only [Prod.mk.injEq, Res.ok.injEq] at h
      obtain ⟨_, rfl⟩ := h
      simp [Condition.fields]
    · rw [applyFilter_Where hc] at h
      rw [Condition.fields]
      exact ih ta o ta2 h a
  · intro c ih ta o ta2 h a
    by_cases hc : c = .nil
    · subst hc
      rw [applyFilter] at h
      simp only [Prod.mk.injEq, Res.ok.injEq] at h
      obtain ⟨_, rfl⟩ := h
      simp [Condition.fields]
    · rw [applyFilter_Group hc] at h
      rw [Condition.fields]
      exact ih ta o ta2 h a
  · intro c ih ta o ta2 h a
    rw [Condition.fields]
    rcases hc : applyFilter c mf ta with ⟨r, t1⟩
    cases r with
    | ok o1 =>
      rw [applyFilter_Not_ok hc] at h
      simp only [Prod.mk.injEq, Res.ok.injEq] at h
      obtain ⟨_, rfl⟩ := h
      exact ih ta o1 t1 hc a
    | err e => rw [applyFilter_Not_err hc] at h; simp at h
    | panic => rw [applyFilter_Not_panic hc] at h; simp at h
  · intro cs ih ta o ta2 h a
    rw [applyFilter_And] at h
    rw [Condition.fields]
    split at h
    · simp at h
    · exact ih.1 ta [] o ta2 h a
  · intro cs ih ta o ta2 h a
    rw [applyFilter_Or] at h
    rw [Condition.fields]
    split at h
    · simp at h
    · exact ih.2 ta [] o ta2 h a
  · constructor
    · intro ta conj o ta2 h a
      rw [andLoop_nil] at h
      simp only [Prod.mk.injEq, Res.ok.injEq] at h
      obtain ⟨_, rfl⟩ := h
      simp [fieldsAll]
    · intro ta conj o ta2 h a
      rw [orLoop_nil] at h
      simp only [Prod.mk.injEq, Res.ok.injEq] at h
      obtain ⟨_, rfl⟩ := h
      simp [fieldsAll]
  · intro c cs ihc ihcs
    constructor
    · intro ta conj o ta2 h a
      rw [fieldsAll_cons, contributes_append, ← or_assoc]
      rcases hc : applyFilter c mf ta with ⟨r, t1⟩
      cases r with
      | err e => rw [andLoop_cons_err hc] at h; simp at h
      | panic => rw [andLoop_cons_panic hc] at h; simp at h
      | ok o1 =>
        cases o1 with
        | nil => rw [andLoop_cons_nil hc] at h; simp at h
        | sqlizer s =>
          rw [andLoop_cons_sqlizer hc] at h
          rw [← ihc ta _ t1 hc a]
          exact ihcs.1 t1 _ o ta2 h a
        | slice l =>
          rw [andLoop_cons_slice hc] at h
          rw [← ihc ta _ t1 hc a]
          exact ihcs.1 t1 _ o ta2 h a
    · intro ta conj o ta2 h a
      rw [fieldsAll_cons, contributes_append, ← or_assoc]
      rcases hc : applyFilter c mf ta with ⟨r, t1⟩
      cases r with
      | err e => rw [orLoop_cons_err hc] at h; simp at h
      | panic => rw [orLoop_cons_panic hc] at h; simp at h
      | ok o1 =>
        cases o1 with
        | nil => rw [orLoop_cons_nil hc] at h; simp at h
        | sqlizer s =>
          rw [orLoop_cons_sqlizer hc] at h
          rw [← ihc ta _ t1 hc a]
          exact ihcs.2 t1 _ o ta2 h a
        | slice l =>
          rw [orLoop_cons_slice hc] at h
          rw [← ihc ta _ t1 hc a]
          exact ihcs.2 t1 _ o ta2 h a


theorem addTableAlias_nodup (ref : String) {ta : Aliases} (h : ta.Nodup) :
    (addTableAlias ref ta).Nodup := by
  cases hq : qualifier ref with
  | none => rw [addTableAlias_of_none hq]; exact h
  | some a => rw [addTableAlias_of_some hq]; exact nodup_set h a

/-- The alias map never holds a key twice. -/
theorem applyFilter_nodup (mf : FieldMapperFunc) : ∀ (c : Condition) (ta : Aliases),
    ta.Nodup → (applyFilter c mf ta).2.Nodup := by
  apply Condition.induct
    (P := fun c => ∀ (ta : Aliases), ta.Nodup → (applyFilter c mf ta).2.Nodup)
    (Q := fun cs => ∀ (ta : Aliases) (conj : List Sqlizer), ta.Nodup →
      (andLoop cs mf ta conj).2.Nodup ∧ (orLoop cs mf ta conj).2.Nodup)
  · intro c f mk hl ta h
    rw [applyFilter_leaf hl]
    cases mf f with
    | error e => exact h
    | ok m => exact addTableAlias_nodup m h
  · intro ta h; rw [applyFilter_nil]; exact h
  · intro t ta h; rw [applyFilter]; exact h
  · intro t ta h; rw [applyFilter_typedNil]; exact h
  · intro c ih ta h
    by_cases hc : c = .nil
    · subst hc; rw [applyFilter]; exact h
    · rw [applyFilter_Where hc]; exact ih ta h
  · intro c ih ta h
    by_cases hc : c = .nil
    · subst hc; rw [applyFilter]; exact h
    · rw [applyFilter_Group hc]; exact ih ta h
  · intro c ih ta h
    have h1 := ih ta h
    rcases hc : applyFilter c mf ta with ⟨r, t1⟩
    rw [hc] at h1
    cases r with
    | ok o1 => rw [applyFilter_Not_ok hc]; exact h1
    | err e => rw [applyFilter_Not_err hc]; exact h1
    | panic => rw [applyFilter_Not_panic hc]; exact h1
  · intro cs ih ta h
    rw [applyFilter_And]
    split
    · exact h
    · exact (ih ta [] h).1
  · intro cs ih ta h
    rw [applyFilter_Or]
    split
    · exact h
    · exact (ih ta [] h).2
  · intro ta conj h
    rw [andLoop_nil, orLoop_nil]
    exact ⟨h, h⟩
  · intro c cs ihc ihcs ta conj h
    have h1 := ihc ta h
    rcases hc : applyFilter c mf ta with ⟨r, t1⟩
    rw [hc] at h1
    cases r with
    | err e => rw [andLoop_cons_err hc, orLoop_cons_err hc]; exact ⟨h1, h1⟩
    | panic => rw [andLoop_cons_panic hc, orLoop_cons_panic hc]; exact ⟨h1, h1⟩
    | ok o1 =>
      cases o1 with
      | nil => rw [andLoop_cons_nil hc, orLoop_cons_nil hc]; exact ⟨h1, h1⟩
      | sqlizer s =>
        rw [andLoop_cons_sqlizer hc, orLoop_cons_sqlizer hc]
        exact ⟨(ihcs t1 _ h1).1, (ihcs t1 _ h1).2⟩
      | slice l =>
        rw [andLoop_cons_slice hc, orLoop_cons_slice hc]
        exact ⟨(ihcs t1 _ h1).1, (ihcs t1 _ h1).2⟩

theorem ApplyFilter_of_ok {c : Condition} {opts : List Option'} {o : SqlObj} {t : Aliases}
    (h : applyFilter c (FromDefaultOptions opts).MapperFunc [] = (.ok o, t)) (b : SelectBuilder) :
    ApplyFilter b c opts = .returns ⟨b.Where o, t, none⟩ := by
  have hc : c ≠ .nil := by
    rintro rfl; rw [applyFilter_nil] at h; simp at h
  unfold ApplyFilter
  cases c <;> first
    | exact absurd rfl hc
    | (simp only [h]; cases o <;> rfl)

theorem ApplyFilter_of_panic {c : Condition} {opts : List Option'} {t : Aliases}
    (h : applyFilter c (FromDefaultOptions opts).MapperFunc [] = (.panic, t)) (hc : c ≠ .nil)
    (b : SelectBuilder) : ApplyFilter b c opts = .panics := by
  unfold ApplyFilter
  cases c <;> first
    | exact absurd rfl hc
    | simp only [h]

/-- What a successful `ApplyFilter` call returns as aliases is the alias map
of a successful translation started from the empty map. -/
theorem ApplyFilter_success {b : SelectBuilder} {c : Condition} {opts : List Option'}
    {r : Applied} (h : ApplyFilter b c opts = .returns r) (hok : r.err = none) :
    (c = .nil ∧ r.tableAliases = []) ∨
      ∃ o, applyFilter c (FromDefaultOptions opts).MapperFunc [] = (.ok o, r.tableAliases) := by
  by_cases hc : c = .nil
  · subst hc
    left
    unfold ApplyFilter at h
    simp only [Outcome.returns.injEq] at h
    subst h
    exact ⟨rfl, rfl⟩
  · right
    rcases hr : applyFilter c (FromDefaultOptions opts).MapperFunc [] with ⟨res, tam⟩
    cases res with
    | panic => rw [ApplyFilter_of_panic hr hc] at h; simp at h
    | err e =>
      rw [ApplyFilter_of_err (translate_of_applyFilter hr) b opts rfl] at h
      simp only [Outcome.returns.injEq] at h
      subst h
      simp at hok
    | ok o =>
      rw [ApplyFilter_of_ok hr] at h
      simp only [Outcome.returns.injEq] at h
      subst h
      exact ⟨o, rfl⟩


theorem ne_empty_of_append_right (s : String) {t : String} (h : t ≠ "") : s ++ t ≠ "" := by
  intro e
  apply h
  have := congrArg String.length e
  simp only [String.length_append] at this
  have h0 : t.length = 0 := by
    have : ("" : String).length = 0 := rfl
    omega
  exact String.ext (by simpa using List.length_eq_zero.mp h0)

theorem eqToSQL_ne_empty (useNotOpr : Bool) (key : String) (val : Value) :
    (eqToSQL useNotOpr key val).1 ≠ "" := by
  unfold eqToSQL
  cases val with
  | list items =>
    simp only
    split
    · cases useNotOpr <;> decide
    · exact ne_empty_of_append_right _ (by decide)
  | nil => exact ne_empty_of_append_right _ (by decide)
  | bool b => exact ne_empty_of_append_right _ (by decide)
  | int b => exact ne_empty_of_append_right _ (by decide)
  | str b => exact ne_empty_of_append_right _ (by decide)

theorem ltToSql_ne_empty (opposite orEq : Bool) (key : String) (val : Value)
    (h : (ltToSql opposite orEq key val).2.2 = none) :
    (ltToSql opposite orEq key val).1 ≠ "" := by
  unfold ltToSql at h ⊢
  cases val with
  | list items => simp at h
  | nil => simp at h
  | bool b => exact ne_empty_of_append_right _ (by decide)
  | int b => exact ne_empty_of_append_right _ (by decide)
  | str b => exact ne_empty_of_append_right _ (by decide)

theorem likeToSql_ne_empty (opr : String) (key : String) (val : Value)
    (h : (likeToSql opr key val).2.2 = none) :
    (likeToSql opr key val).1 ≠ "" := by
  unfold likeToSql at h ⊢
  cases val with
  | list items => simp at h
  | nil => simp at h
  | bool b => exact ne_empty_of_append_right _ (by decide)
  | int b => exact ne_empty_of_append_right _ (by decide)
  | str b => exact ne_empty_of_append_right _ (by decide)

theorem arrayOps_ne_empty (fieldName : String) (value : Value) :
    ((ArrayContains.ToSql fieldName value).2.2 = none →
      (ArrayContains.ToSql fieldName value).1 ≠ "") ∧
    (ArrayContainsArray.ToSql fieldName value).1 ≠ "" ∧
    (ArrayIsContained.ToSql fieldName value).1 ≠ "" ∧
    (Overlaps.ToSql fieldName value).1 ≠ "" := by
  unfold ArrayContains.ToSql ArrayContainsArray.ToSql ArrayIsContained.ToSql Overlaps.ToSql
  cases value with
  | nil =>
    have hf : sqlFalse ≠ "" := by decide
    exact ⟨fun h => by simp at h, hf, hf, hf⟩
  | list items =>
    refine ⟨fun _ => ne_empty_of_append_right _ (by decide), ?_, ?_, ?_⟩ <;>
    · simp only
      split
      · decide
      · exact ne_empty_of_append_right _ (by decide)
  | bool b =>
    exact ⟨fun _ => ne_empty_of_append_right _ (by decide), ne_empty_of_append_right _ (by decide),
      ne_empty_of_append_right _ (by decide), ne_empty_of_append_right _ (by decide)⟩
  | int b =>
    exact ⟨fun _ => ne_empty_of_append_right _ (by decide), ne_empty_of_append_right _ (by decide),
      ne_empty_of_append_right _ (by decide), ne_empty_of_append_right _ (by decide)⟩
  | str b =>
    exact ⟨fun _ => ne_empty_of_append_right _ (by decide), ne_empty_of_append_right _ (by decide),
      ne_empty_of_append_right _ (by decide), ne_empty_of_append_right _ (by decide)⟩


theorem joinLoop_nil (sqlParts : List String) (args : List Value) :
    joinLoop [] sqlParts args = .ok (sqlParts, args) := by
  rw [joinLoop]

theorem joinLoop_cons_err {p : Sqlizer} {sql : String} {a : List Value} {e : Error}
    (h : p.ToSql = (sql, a, some e)) (rest : List Sqlizer) (sqlParts : List String)
    (args : List Value) : joinLoop (p :: rest) sqlParts args = .error e := by
  rw [joinLoop, h]

theorem joinLoop_cons_ok {p : Sqlizer} {sql : String} {a : List Value}
    (h : p.ToSql = (sql, a, none)) (hne : sql ≠ "") (rest : List Sqlizer)
    (sqlParts : List String) (args : List Value) :
    joinLoop (p :: rest) sqlParts args = joinLoop rest (sqlParts ++ [sql]) (args ++ a) := by
  rw [joinLoop, h]
  simp only [ne_eq, hne, not_false_eq_true, if_true]

theorem joinLoop_cons_skip {p : Sqlizer} {a : List Value}
    (h : p.ToSql = ("", a, none)) (rest : List Sqlizer)
    (sqlParts : List String) (args : List Value) :
    joinLoop (p :: rest) sqlParts args = joinLoop rest sqlParts args := by
  rw [joinLoop, h]
  simp

/-- When the loop over the parts succeeds, no part failed to render. -/
theorem joinLoop_ok_parts : ∀ (parts : List Sqlizer) (sqlParts : List String) (args : List Value)
    (r : List String × List Value), joinLoop parts sqlParts args = .ok r →
    ∀ p ∈ parts, p.ToSql.2.2 = none
  | [], _, _, _, _ => by simp
  | q :: rest, sqlParts, args, r, h => by
    intro p hp
    rcases hq : q.ToSql with ⟨sql, a, err⟩
    cases err with
    | some e => rw [joinLoop_cons_err hq] at h; simp at h
    | none =>
      rcases List.mem_cons.mp hp with rfl | hp2
      · rw [hq]
      · by_cases hne : sql = ""
        · subst hne
          rw [joinLoop_cons_skip hq] at h
          exact joinLoop_ok_parts rest _ _ r h p hp2
        · rw [joinLoop_cons_ok hq hne] at h
          exact joinLoop_ok_parts rest _ _ r h p hp2

/-- The loop over parts that all render, each to non-empty SQL. -/
theorem joinLoop_eq : ∀ (parts : List Sqlizer) (sqlParts : List String) (args : List Value),
    (∀ p ∈ parts, p.ToSql.2.2 = none ∧ p.ToSql.1 ≠ "") →
    joinLoop parts sqlParts args =
      .ok (sqlParts ++ parts.map (fun p => p.ToSql.1),
        args ++ (parts.map (fun p => p.ToSql.2.1)).flatten)
  | [], sqlParts, args, _ => by simp [joinLoop_nil]
  | q :: rest, sqlParts, args, h => by
    rcases hq : q.ToSql with ⟨sql, a, err⟩
    have h1 := h q (List.mem_cons_self _ _)
    rw [hq] at h1
    simp only at h1
    obtain ⟨rfl, hne⟩ := h1
    rw [joinLoop_cons_ok hq hne,
      joinLoop_eq rest _ _ (fun p hp => h p (List.mem_cons_of_mem _ hp))]
    simp [hq]

theorem ToSql_And_ok {parts : List Sqlizer} {sqlParts : List String} {args : List Value}
    (hne : parts ≠ []) (h : joinLoop parts [] [] = .ok (sqlParts, args)) :
    (Sqlizer.And parts).ToSql =
      (if sqlParts.length > 0 then "(" ++ " AND ".intercalate sqlParts ++ ")" else "",
        args, none) := by
  rw [Sqlizer.ToSql, if_neg (by simpa using hne), h]

theorem ToSql_Or_ok {parts : List Sqlizer} {sqlParts : List String} {args : List Value}
    (hne : parts ≠ []) (h : joinLoop parts [] [] = .ok (sqlParts, args)) :
    (Sqlizer.Or parts).ToSql =
      (if sqlParts.length > 0 then "(" ++ " OR ".intercalate sqlParts ++ ")" else "",
        args, none) := by
  rw [Sqlizer.ToSql, if_neg (by simpa using hne), h]

theorem ToSql_And_err {parts : List Sqlizer} {e : Error}
    (hne : parts ≠ []) (h : joinLoop parts [] [] = .error e) :
    (Sqlizer.And parts).ToSql = ("", [], some e) := by
  rw [Sqlizer.ToSql, if_neg (by simpa using hne), h]

theorem ToSql_Or_err {parts : List Sqlizer} {e : Error}
    (hne : parts ≠ []) (h : joinLoop parts [] [] = .error e) :
    (Sqlizer.Or parts).ToSql = ("", [], some e) := by
  rw [Sqlizer.ToSql, if_neg (by simpa using hne), h]

theorem conj_ne_empty {parts : List Sqlizer}
    (ih : ∀ p ∈ parts, p.ToSql.2.2 = none → p.ToSql.1 ≠ "") :
    ((Sqlizer.And parts).ToSql.2.2 = none → (Sqlizer.And parts).ToSql.1 ≠ "") ∧
    ((Sqlizer.Or parts).ToSql.2.2 = none → (Sqlizer.Or parts).ToSql.1 ≠ "") := by
  cases parts with
  | nil =>
    constructor <;> intro _ <;> rw [Sqlizer.ToSql] <;> decide
  | cons q rest =>
    have hne : q :: rest ≠ [] := by simp
    cases hj : joinLoop (q :: rest) [] [] with
    | error e =>
      rw [ToSql_And_err hne hj, ToSql_Or_err hne hj]
      constructor <;> intro h <;> simp at h
    | ok r =>
      obtain ⟨sp, args⟩ := r
      have hall := joinLoop_ok_parts _ _ _ _ hj
      have hj2 := joinLoop_eq (q :: rest) [] [] (fun p hp => ⟨hall p hp, ih p hp (hall p hp)⟩)
      rw [hj] at hj2
      simp only [List.nil_append, Except.ok.injEq, Prod.mk.injEq] at hj2
      have hlen : sp.length > 0 := by rw [hj2.1]; simp
      rw [ToSql_And_ok hne hj, ToSql_Or_ok hne hj]
      simp only [hlen, if_true]
      exact ⟨fun _ => ne_empty_of_append_right _ (by decide),
        fun _ => ne_empty_of_append_right _ (by decide)⟩

mutual
/-- A fragment that renders without error renders to non-empty SQL. -/
theorem ToSql_ne_empty : ∀ s : Sqlizer, s.ToSql.2.2 = none → s.ToSql.1 ≠ ""
  | .And parts => (conj_ne_empty (ToSql_ne_empty_all parts)).1
  | .Or parts => (conj_ne_empty (ToSql_ne_empty_all parts)).2
  | .Eq key val => fun _ => by rw [Sqlizer.ToSql]; exact eqToSQL_ne_empty _ _ _
  | .NotEq key val => fun _ => by rw [Sqlizer.ToSql]; exact eqToSQL_ne_empty _ _ _
  | .Gt key val => fun h => by
    rw [Sqlizer.ToSql] at h ⊢; exact ltToSql_ne_empty _ _ _ _ h
  | .GtOrEq key val => fun h => by
    rw [Sqlizer.ToSql] at h ⊢; exact ltToSql_ne_empty _ _ _ _ h
  | .Lt key val => fun h => by
    rw [Sqlizer.ToSql] at h ⊢; exact ltToSql_ne_empty _ _ _ _ h
  | .LtOrEq key val => fun h => by
    rw [Sqlizer.ToSql] at h ⊢; exact ltToSql_ne_empty _ _ _ _ h
  | .ILike key val => fun h => by
    rw [Sqlizer.ToSql] at h ⊢; exact likeToSql_ne_empty _ _ _ h
  | .ArrayContains f v => fun h => by
    rw [Sqlizer.ToSql] at h ⊢; exact (arrayOps_ne_empty f v).1 h
  | .ArrayContainsArray f v => fun _ => by
    rw [Sqlizer.ToSql]; exact (arrayOps_ne_empty f v).2.1
  | .ArrayIsContained f v => fun _ => by
    rw [Sqlizer.ToSql]; exact (arrayOps_ne_empty f v).2.2.1
  | .Overlaps f v => fun _ => by
    rw [Sqlizer.ToSql]; exact (arrayOps_ne_empty f v).2.2.2
  | .Regex f e => fun _ => by
    rw [Sqlizer.ToSql, Regex.ToSql]; exact ne_empty_of_append_right _ (by decide)
  | .NotRegex f e => fun _ => by
    rw [Sqlizer.ToSql, NotRegex.ToSql]; exact ne_empty_of_append_right _ (by decide)
  | .Not (.sqlizer s) => fun _ => by
    rw [Sqlizer.ToSql]; exact ne_empty_of_append_right _ (by decide)
  | .Not .nil => fun h => by rw [Sqlizer.ToSql] at h; simp at h
  | .Not (.slice _) => fun h => by rw [Sqlizer.ToSql] at h; simp at h
/-- The list part of `ToSql_ne_empty`. -/
theorem ToSql_ne_empty_all : ∀ parts : List Sqlizer,
    ∀ p ∈ parts, p.ToSql.2.2 = none → p.ToSql.1 ≠ ""
  | [] => by simp
  | q :: rest => by
    intro p hp
    rcases List.mem_cons.mp hp with rfl | h2
    · exact ToSql_ne_empty p
    · exact ToSql_ne_empty_all rest p h2
end


theorem andLoop_fragments (mf : FieldMapperFunc) : ∀ (cs : List Condition) (Fs : List Sqlizer),
    List.Forall₂ (fun c F => translate mf c = .ok (.sqlizer F)) cs Fs →
    ∀ (ta : Aliases) (conj : List Sqlizer),
      (andLoop cs mf ta conj).1 = .ok (.sqlizer (.And (conj ++ Fs)))
  | [], _, h, ta, conj => by
    cases h
    rw [andLoop_nil, List.append_nil]
  | c :: cs, _, h, ta, conj => by
    cases h with
    | cons hc hcs =>
      obtain ⟨t1, h1⟩ := applyFilter_of_translate hc ta
      rw [andLoop_cons_sqlizer h1, andLoop_fragments mf cs _ hcs t1, List.append_assoc]
      rfl

theorem orLoop_fragments (mf : FieldMapperFunc) : ∀ (cs : List Condition) (Fs : List Sqlizer),
    List.Forall₂ (fun c F => translate mf c = .ok (.sqlizer F)) cs Fs →
    ∀ (ta : Aliases) (conj : List Sqlizer),
      (orLoop cs mf ta conj).1 = .ok (.sqlizer (.Or (conj ++ Fs)))
  | [], _, h, ta, conj => by
    cases h
    rw [orLoop_nil, List.append_nil]
  | c :: cs, _, h, ta, conj => by
    cases h with
    | cons hc hcs =>
      obtain ⟨t1, h1⟩ := applyFilter_of_translate hc ta
      rw [orLoop_cons_sqlizer h1, orLoop_fragments mf cs _ hcs t1, List.append_assoc]
      rfl

/-- An AND (OR) node with at least two children that each translate to a
fragment translates to the conjunction (disjunction) of these fragments. -/
theorem translate_conj {mf : FieldMapperFunc} {cs : List Condition} {Fs : List Sqlizer}
    (hlen : 2 ≤ cs.length)
    (h : List.Forall₂ (fun c F => translate mf c = .ok (.sqlizer F)) cs Fs) :
    translate mf (.And cs) = .ok (.sqlizer (.And Fs)) ∧
    translate mf (.Or cs) = .ok (.sqlizer (.Or Fs)) := by
  unfold translate
  rw [applyFilter_And, applyFilter_Or, if_neg (by omega), if_neg (by omega),
    andLoop_fragments mf cs Fs h, orLoop_fragments mf cs Fs h]
  exact ⟨rfl, rfl⟩

theorem renderArgs_iff {mf : FieldMapperFunc} {c : Condition} {x : List Value} :
    renderArgs mf c = some x ↔
      ∃ F sql, translate mf c = .ok (.sqlizer F) ∧ F.ToSql = (sql, x, none) := by
  unfold renderArgs render
  constructor
  · intro h
    split at h
    · rename_i sql args heq
      split at heq
      · rename_i s hs
        simp only [Option.some.injEq] at heq h
        subst h
        exact ⟨s, sql, hs, heq⟩
      · simp at heq
    · simp at h
  · rintro ⟨F, sql, ht, hs⟩
    rw [ht]
    simp only [hs]

theorem conj_args {Fs : List Sqlizer} (hne : Fs ≠ [])
    (h : ∀ p ∈ Fs, p.ToSql.2.2 = none) :
    (Sqlizer.And Fs).ToSql.2 = ((Fs.map (fun p => p.ToSql.2.1)).flatten, none) ∧
    (Sqlizer.Or Fs).ToSql.2 = ((Fs.map (fun p => p.ToSql.2.1)).flatten, none) := by
  have hj := joinLoop_eq Fs [] [] (fun p hp => ⟨h p hp, ToSql_ne_empty p (h p hp)⟩)
  rw [ToSql_And_ok hne hj, ToSql_Or_ok hne hj]
  simp

/-- The arguments of a composite are those of its children, in order. -/
theorem renderArgs_conj {mf : FieldMapperFunc} {cs : List Condition}
    {argss : List (List Value)} (hlen : 2 ≤ cs.length)
    (h : List.Forall₂ (fun c x => renderArgs mf c = some x) cs argss) :
    renderArgs mf (.And cs) = some argss.flatten ∧
    renderArgs mf (.Or cs) = some argss.flatten := by
  have key : ∃ Fs : List Sqlizer,
      List.Forall₂ (fun c F => translate mf c = .ok (.sqlizer F)) cs Fs ∧
      (∀ p ∈ Fs, p.ToSql.2.2 = none) ∧ Fs.map (fun p => p.ToSql.2.1) = argss := by
    clear hlen
    induction h with
    | nil => exact ⟨[], List.Forall₂.nil, by simp, rfl⟩
    | @cons c x cs argss hc _ ih =>
      obtain ⟨Fs, h1, h2, h3⟩ := ih
      obtain ⟨F, sql, hF, hs⟩ := renderArgs_iff.mp hc
      refine ⟨F :: Fs, List.Forall₂.cons hF h1, ?_, ?_⟩
      · intro p hp
        rcases List.mem_cons.mp hp with rfl | hp2
        · rw [hs]
        · exact h2 p hp2
      · simp [hs, h3]
  obtain ⟨Fs, h1, h2, h3⟩ := key
  have hFs : Fs ≠ [] := by
    have hl := h1.length_eq
    intro e
    rw [e, List.length_nil] at hl
    omega
  obtain ⟨tAnd, tOr⟩ := translate_conj hlen h1
  obtain ⟨ca, co⟩ := conj_args hFs h2
  rw [h3] at ca co
  constructor
  · apply renderArgs_iff.mpr
    refine ⟨_, (Sqlizer.And Fs).ToSql.1, tAnd, ?_⟩
    rw [← ca]
  · apply renderArgs_iff.mpr
    refine ⟨_, (Sqlizer.Or Fs).ToSql.1, tOr, ?_⟩
    rw [← co]


theorem render_iff {mf : FieldMapperFunc} {c : Condition} {r : Rendered} :
    render mf c = some r ↔ ∃ F, translate mf c = .ok (.sqlizer F) ∧ F.ToSql = r := by
  unfold render
  constructor
  · intro h
    split at h
    · rename_i s hs
      simp only [Option.some.injEq] at h
      exact ⟨s, hs, h⟩
    · simp at h
  · rintro ⟨F, ht, hs⟩
    rw [ht]
    simp only [hs]

theorem translate_Not {mf : FieldMapperFunc} {c : Condition} {o : SqlObj}
    (h : translate mf c = .ok o) : translate mf (.Not c) = .ok (.sqlizer (.Not o)) := by
  obtain ⟨t, ht⟩ := applyFilter_of_translate h []
  unfold translate
  rw [applyFilter_Not_ok ht]

theorem ToSql_Not (F : Sqlizer) :
    (Sqlizer.Not (.sqlizer F)).ToSql = ("NOT (" ++ F.ToSql.1 ++ ")", F.ToSql.2.1, F.ToSql.2.2) := by
  rw [Sqlizer.ToSql]


theorem endsInNil_of_leaf {c : Condition} {f : String} {mk : String → Sqlizer}
    (h : c.asLeaf = some (f, mk)) : c.endsInNil = false := by
  cases c <;> simp only [Condition.asLeaf, reduceCtorEq] at h <;> rfl

/-- A WHERE or GROUP wrapper around nil or around such a chain translates to
the nil result and records nothing. -/
theorem applyFilter_nil_chain (mf : FieldMapperFunc) : ∀ (c : Condition), c.endsInNil = true →
    ∀ ta : Aliases, applyFilter (.Where c) mf ta = (.ok .nil, ta) ∧
      applyFilter (.Group c) mf ta = (.ok .nil, ta) := by
  apply Condition.induct
    (P := fun c => c.endsInNil = true →
      ∀ ta : Aliases, applyFilter (.Where c) mf ta = (.ok .nil, ta) ∧
        applyFilter (.Group c) mf ta = (.ok .nil, ta))
    (Q := fun _ => True)
  · intro c f mk hl h
    rw [endsInNil_of_leaf hl] at h
    exact absurd h (by simp)
  · intro _ ta
    constructor <;> rw [applyFilter]
  · intro t h; exact absurd h (by simp [Condition.endsInNil])
  · intro t h; exact absurd h (by simp [Condition.endsInNil])
  · intro c ih h ta
    have h2 : c.endsInNil = true := by rw [Condition.endsInNil] at h; exact h
    rw [applyFilter_Where (c := .Where c) (by simp), applyFilter_Group (c := .Where c) (by simp)]
    exact ⟨(ih h2 ta).1, (ih h2 ta).1⟩
  · intro c ih h ta
    have h2 : c.endsInNil = true := by rw [Condition.endsInNil] at h; exact h
    rw [applyFilter_Where (c := .Group c) (by simp), applyFilter_Group (c := .Group c) (by simp)]
    exact ⟨(ih h2 ta).2, (ih h2 ta).2⟩
  · intro c _ h; exact absurd h (by simp [Condition.endsInNil])
  · intro cs _ h; exact absurd h (by simp [Condition.endsInNil])
  · intro cs _ h; exact absurd h (by simp [Condition.endsInNil])
  · trivial
  · intros; trivial

/-- No translation returns a plain slice of fragments. -/
theorem applyFilter_ne_slice (mf : FieldMapperFunc) : ∀ (c : Condition) (ta : Aliases)
    (l : List Sqlizer), (applyFilter c mf ta).1 ≠ .ok (.slice l) := by
  apply Condition.induct
    (P := fun c => ∀ (ta : Aliases) (l : List Sqlizer), (applyFilter c mf ta).1 ≠ .ok (.slice l))
    (Q := fun cs => ∀ (ta : Aliases) (conj : List Sqlizer) (l : List Sqlizer),
      (andLoop cs mf ta conj).1 ≠ .ok (.slice l) ∧ (orLoop cs mf ta conj).1 ≠ .ok (.slice l))
  · intro c f mk hl ta l
    rw [applyFilter_leaf hl]
    cases mf f <;> simp
  · intro ta l; rw [applyFilter_nil]; simp
  · intro t ta l; rw [applyFilter]; simp
  · intro t ta l; rw [applyFilter_typedNil]; simp
  · intro c ih ta l
    by_cases hc : c = .nil
    · subst hc; rw [applyFilter]; simp
    · rw [applyFilter_Where hc]; exact ih ta l
  · intro c ih ta l
    by_cases hc : c = .nil
    · subst hc; rw [applyFilter]; simp
    · rw [applyFilter_Group hc]; exact ih ta l
  · intro c _ ta l
    rcases hc : applyFilter c mf ta with ⟨r, t1⟩
    cases r with
    | ok o1 => rw [applyFilter_Not_ok hc]; simp
    | err e => rw [applyFilter_Not_err hc]; simp
    | panic => rw [applyFilter_Not_panic hc]; simp
  · intro cs ih ta l
    rw [applyFilter_And]
    split
    · simp
    · exact (ih ta [] l).1
  · intro cs ih ta l
    rw [applyFilter_Or]
    split
    · simp
    · exact (ih ta [] l).2
  · intro ta conj l
    rw [andLoop_nil, orLoop_nil]
    simp
  · intro c cs ihc ihcs ta conj l
    rcases hc : applyFilter c mf ta with ⟨r, t1⟩
    cases r with
    | err e => rw [andLoop_cons_err hc, orLoop_cons_err hc]; simp
    | panic => rw [andLoop_cons_panic hc, orLoop_cons_panic hc]; simp
    | ok o1 =>
      cases o1 with
      | nil => rw [andLoop_cons_nil hc, orLoop_cons_nil hc]; simp
      | sqlizer s =>
        rw [andLoop_cons_sqlizer hc, orLoop_cons_sqlizer hc]
        exact ihcs t1 _ l
      | slice l2 =>
        rw [andLoop_cons_slice hc, orLoop_cons_slice hc]
        exact ihcs t1 _ l

theorem translatesOk_cases {mf : FieldMapperFunc} {c : Condition}
    (h : translatesOk mf c = true) :
    translate mf c = .ok .nil ∨ ∃ s, translate mf c = .ok (.sqlizer s) := by
  unfold translatesOk at h
  split at h
  · rename_i o ho
    cases o with
    | nil => exact Or.inl ho
    | sqlizer s => exact Or.inr ⟨s, ho⟩
    | slice l => exact absurd ho (applyFilter_ne_slice mf c [] l)
  · exact absurd h (by simp)

/-- A conjunction or disjunction over children of which the first that does
not yield a fragment yields the nil result fails with the error for an
unexpected data type. -/
theorem conj_nil_child {mf : FieldMapperFunc} (pre post : List Condition) {n : Condition}
    (hpre : ∀ p ∈ pre, translatesToFragment mf p = true) (hn : translate mf n = .ok .nil)
    (hlen : 2 ≤ (pre ++ n :: post).length) :
    translate mf (.And (pre ++ n :: post)) = .err (Errorf "unexpected data type: <nil>") ∧
    translate mf (.Or (pre ++ n :: post)) = .err (Errorf "unexpected data type: <nil>") := by
  unfold translate
  rw [applyFilter_And, applyFilter_Or, if_neg (by omega), if_neg (by omega)]
  obtain ⟨t1, c1, h1⟩ := andLoop_fragments_prefix mf (n :: post) pre hpre [] []
  obtain ⟨t2, c2, h2⟩ := orLoop_fragments_prefix mf (n :: post) pre hpre [] []
  obtain ⟨u1, hu1⟩ := applyFilter_of_translate hn t1
  obtain ⟨u2, hu2⟩ := applyFilter_of_translate hn t2
  rw [h1, h2, andLoop_cons_nil hu1, orLoop_cons_nil hu2]
  exact ⟨rfl, rfl⟩


theorem Where_sqlizer (b : SelectBuilder) (F : Sqlizer) :
    b.Where (.sqlizer F) = ⟨b.rest, b.WhereParts ++ [.sqlizer F]⟩ := rfl


theorem translate_leaf {c : Condition} {f m : String} {mk : String → Sqlizer}
    {mf : FieldMapperFunc} (h : Condition.asLeaf c = some (f, mk)) (hm : mf f = .ok m) :
    translate mf c = .ok (.sqlizer (mk m)) := by
  unfold translate
  rw [applyFilter_leaf h, hm]


theorem lookupBuilder_other (tag : String) : lookupBuilder (.other tag) = none := by
  simp [lookupBuilder, conditionBuilders]

/-- The translation written by cases agrees with the dispatch through the
table. -/
theorem applyFilter_eq_dispatch (tagText : ConditionType → String)
    (htext : ∀ tag, tagText (.other tag) = tag) (c : Condition) (mf : FieldMapperFunc)
    (ta : Aliases) : applyFilter c mf ta = applyFilterDispatch tagText c mf ta := by
  cases c with
  | nil => rw [applyFilter_nil]; rfl
  | typedNil t => rw [applyFilter_typedNil]; rfl
  | other tag =>
    rw [applyFilter]
    simp only [applyFilterDispatch, Condition.Type, lookupBuilder_other, htext]
  | And cs => rw [applyFilter_And]; rfl
  | Or cs => rw [applyFilter_Or]; rfl
  | Where c =>
    by_cases hc : c = .nil
    · subst hc; rw [applyFilter]; rfl
    · rw [applyFilter_Where hc]
      cases c <;> first | exact absurd rfl hc | rfl
  | Group c =>
    by_cases hc : c = .nil
    · subst hc; rw [applyFilter]; rfl
    · rw [applyFilter_Group hc]
      cases c <;> first | exact absurd rfl hc | rfl
  | Not c =>
    have hd : applyFilterDispatch tagText (.Not c) mf ta = applyNot (.Not c) mf ta := rfl
    rw [hd]
    rcases h : applyFilter c mf ta with ⟨r, t⟩
    cases r with
    | ok o => rw [applyFilter_Not_ok h]; simp only [applyNot, h]
    | err e => rw [applyFilter_Not_err h]; simp only [applyNot, h]
    | panic => rw [applyFilter_Not_panic h]; simp only [applyNot, h]
  | ArrayContains f v => rw [applyFilter]; rfl
  | ArrayContainsArray f v => rw [applyFilter]; rfl
  | ArrayIsContained f v => rw [applyFilter]; rfl
  | ArraysOverlap f v => rw [applyFilter]; rfl
  | Contains f v => rw [applyFilter]; rfl
  | Equals f v => rw [applyFilter]; rfl
  | GreaterThan f v => rw [applyFilter]; rfl
  | GreaterThanOrEqual f v => rw [applyFilter]; rfl
  | In f v => rw [applyFilter]; rfl
  | IsNil f => rw [applyFilter]; rfl
  | LowerThan f v => rw [applyFilter]; rfl
  | LowerThanOrEqual f v => rw [applyFilter]; rfl
  | NotEquals f v => rw [applyFilter]; rfl
  | NotNil f => rw [applyFilter]; rfl
  | NotRegex f v => rw [applyFilter]; rfl
  | Overlaps f v => rw [applyFilter]; rfl
  | Regex f v => rw [applyFilter]; rfl


theorem lookupBuilder_isSome_iff (t : ConditionType) :
    t ∈ AllConditionTypes ↔ (lookupBuilder t).isSome = true := by
  cases t <;> simp [AllConditionTypes, lookupBuilder, conditionBuilders]

theorem foldl_options (fs : List (Option FieldMapperFunc)) : ∀ o : Options,
    ((fs.map WithMapperFunc).foldl (fun o applyOption => applyOption o) o).MapperFunc
      = lastMapper o.MapperFunc fs := by
  induction fs with
  | nil => intro o; rfl
  | cons g rest ih =>
    intro o
    cases g with
    | none => exact ih o
    | some f => exact ih _

theorem lastMapper_append (f : FieldMapperFunc) (rest : List (Option FieldMapperFunc))
    (hrest : ∀ g ∈ rest, g = none) :
    ∀ (fs : List (Option FieldMapperFunc)) (dflt : FieldMapperFunc),
      lastMapper dflt (fs ++ some f :: rest) = f := by
  have hr : ∀ (rest : List (Option FieldMapperFunc)), (∀ g ∈ rest, g = none) →
      ∀ d, lastMapper d rest = d := by
    intro rest
    induction rest with
    | nil => intro _ d; rfl
    | cons g tl ih =>
      intro h d
      have hg := h g (List.mem_cons_self _ _)
      subst hg
      exact ih (fun g hg => h g (List.mem_cons_of_mem _ hg)) d
  intro fs
  induction fs with
  | nil => intro d; exact hr rest hrest f
  | cons g tl ih =>
    intro d
    cases g with
    | none => exact ih d
    | some k => exact ih k


theorem qualifier_eq_some_iff (ref a : String) :
    qualifier ref = some a ↔
      '.' ∈ ref.data ∧ a = String.mk (ref.data.takeWhile (fun ch => ch != '.')) := by
  unfold qualifier
  split
  · rename_i h
    simp only [Option.some.injEq, h, true_and]
    exact eq_comm
  · rename_i h
    simp [h]

/-- The translation consults the mapper only on the fields of the leaves. -/
theorem applyFilter_congr (mf mf2 : FieldMapperFunc) : ∀ (c : Condition),
    (∀ f ∈ c.fields, mf2 f = mf f) → ∀ ta : Aliases, applyFilter c mf2 ta = applyFilter c mf ta := by
  apply Condition.induct
    (P := fun c => (∀ f ∈ c.fields, mf2 f = mf f) →
      ∀ ta : Aliases, applyFilter c mf2 ta = applyFilter c mf ta)
    (Q := fun cs => (∀ f ∈ fieldsAll cs, mf2 f = mf f) →
      ∀ (ta : Aliases) (conj : List Sqlizer),
        andLoop cs mf2 ta conj = andLoop cs mf ta conj ∧
        orLoop cs mf2 ta conj = orLoop cs mf ta conj)
  · intro c f mk hl h ta
    rw [applyFilter_leaf hl, applyFilter_leaf hl, h f (by rw [fields_of_leaf hl]; simp)]
  · intro _ ta; rw [applyFilter_nil, applyFilter_nil]
  · intro t _ ta; rw [applyFilter, applyFilter]
  · intro t _ ta; rw [applyFilter_typedNil, applyFilter_typedNil]
  · intro c ih h ta
    rw [Condition.fields] at h
    by_cases hc : c = .nil
    · subst hc; rw [applyFilter, applyFilter]
    · rw [applyFilter_Where hc, applyFilter_Where hc]; exact ih h ta
  · intro c ih h ta
    rw [Condition.fields] at h
    by_cases hc : c = .nil
    · subst hc; rw [applyFilter, applyFilter]
    · rw [applyFilter_Group hc, applyFilter_Group hc]; exact ih h ta
  · intro c ih h ta
    rw [Condition.fields] at h
    have h1 := ih h ta
    rcases hc : applyFilter c mf ta with ⟨r, t1⟩
    rw [hc] at h1
    cases r with
    | ok o => rw [applyFilter_Not_ok hc, applyFilter_Not_ok h1]
    | err e => rw [applyFilter_Not_err hc, applyFilter_Not_err h1]
    | panic => rw [applyFilter_Not_panic hc, applyFilter_Not_panic h1]
  · intro cs ih h ta
    rw [Condition.fields] at h
    rw [applyFilter_And, applyFilter_And]
    split
    · rfl
    · exact (ih h ta []).1
  · intro cs ih h ta
    rw [Condition.fields] at h
    rw [applyFilter_Or, applyFilter_Or]
    split
    · rfl
    · exact (ih h ta []).2
  · intro _ ta conj
    rw [andLoop_nil, andLoop_nil, orLoop_nil, orLoop_nil]
    exact ⟨rfl, rfl⟩
  · intro c cs ihc ihcs h ta conj
    rw [fieldsAll_cons] at h
    have hc2 := ihc (fun f hf => h f (List.mem_append_left _ hf)) ta
    have hcs := ihcs (fun f hf => h f (List.mem_append_right _ hf))
    rcases hc : applyFilter c mf ta with ⟨r, t1⟩
    rw [hc] at hc2
    cases r with
    | err e =>
      rw [andLoop_cons_err hc, andLoop_cons_err hc2, orLoop_cons_err hc, orLoop_cons_err hc2]
      exact ⟨rfl, rfl⟩
    | panic =>
      rw [andLoop_cons_panic hc, andLoop_cons_panic hc2, orLoop_cons_panic hc,
        orLoop_cons_panic hc2]
      exact ⟨rfl, rfl⟩
    | ok o =>
      cases o with
      | nil =>
        rw [andLoop_cons_nil hc, andLoop_cons_nil hc2, orLoop_cons_nil hc, orLoop_cons_nil hc2]
        exact ⟨rfl, rfl⟩
      | sqlizer s =>
        rw [andLoop_cons_sqlizer hc, andLoop_cons_sqlizer hc2, orLoop_cons_sqlizer hc,
          orLoop_cons_sqlizer hc2]
        exact hcs t1 _
      | slice l =>
        rw [andLoop_cons_slice hc, andLoop_cons_slice hc2, orLoop_cons_slice hc,
          orLoop_cons_slice hc2]
        exact hcs t1 _

/-- A loop whose first child that does not yield a fragment returns an error
returns that error, with an alias map that does not depend on the children to
the right. -/
theorem loop_err_prefix (mf : FieldMapperFunc) {c : Condition} {e : Error}
    (hc : translate mf c = .err e) : ∀ (pre : List Condition),
    (∀ p ∈ pre, translatesToFragment mf p = true) → ∀ (ta : Aliases),
    ∃ t : Aliases, ∀ (post : List Condition) (conj : List Sqlizer),
      andLoop (pre ++ c :: post) mf ta conj = (.err e, t) ∧
      orLoop (pre ++ c :: post) mf ta conj = (.err e, t)
  | [], _, ta => by
    obtain ⟨t, ht⟩ := applyFilter_of_translate hc ta
    exact ⟨t, fun post conj => ⟨andLoop_cons_err ht post conj, orLoop_cons_err ht post conj⟩⟩
  | p :: pre, h, ta => by
    obtain ⟨s, hs⟩ := translatesToFragment_iff.mp (h p (List.mem_cons_self _ _))
    obtain ⟨t1, h1⟩ := applyFilter_of_translate hs ta
    obtain ⟨t, ht⟩ := loop_err_prefix mf hc pre (fun q hq => h q (List.mem_cons_of_mem _ hq)) t1
    refine ⟨t, fun post conj => ?_⟩
    rw [List.cons_append, andLoop_cons_sqlizer h1, orLoop_cons_sqlizer h1]
    exact ht post _


theorem loop_congr (mf mf2 : FieldMapperFunc) : ∀ (cs : List Condition),
    (∀ f ∈ fieldsAll cs, mf2 f = mf f) → ∀ (ta : Aliases) (conj : List Sqlizer),
      andLoop cs mf2 ta conj = andLoop cs mf ta conj ∧
      orLoop cs mf2 ta conj = orLoop cs mf ta conj
  | [], _, ta, conj => by
    rw [andLoop_nil, andLoop_nil, orLoop_nil, orLoop_nil]
    exact ⟨rfl, rfl⟩
  | c :: cs, h, ta, conj => by
    rw [fieldsAll_cons] at h
    have hc2 := applyFilter_congr mf mf2 c (fun f hf => h f (List.mem_append_left _ hf)) ta
    have hcs := loop_congr mf mf2 cs (fun f hf => h f (List.mem_append_right _ hf))
    rcases hc : applyFilter c mf ta with ⟨r, t1⟩
    rw [hc] at hc2
    cases r with
    | err e =>
      rw [andLoop_cons_err hc, andLoop_cons_err hc2, orLoop_cons_err hc, orLoop_cons_err hc2]
      exact ⟨rfl, rfl⟩
    | panic =>
      rw [andLoop_cons_panic hc, andLoop_cons_panic hc2, orLoop_cons_panic hc,
        orLoop_cons_panic hc2]
      exact ⟨rfl, rfl⟩
    | ok o =>
      cases o with
      | nil =>
        rw [andLoop_cons_nil hc, andLoop_cons_nil hc2, orLoop_cons_nil hc, orLoop_cons_nil hc2]
        exact ⟨rfl, rfl⟩
      | sqlizer s =>
        rw [andLoop_cons_sqlizer hc, andLoop_cons_sqlizer hc2, orLoop_cons_sqlizer hc,
          orLoop_cons_sqlizer hc2]
        exact hcs t1 _
      | slice l =>
        rw [andLoop_cons_slice hc, andLoop_cons_slice hc2, orLoop_cons_slice hc,
          orLoop_cons_slice hc2]
        exact hcs t1 _

theorem fieldsAll_append (xs ys : List Condition) :
    fieldsAll (xs ++ ys) = fieldsAll xs ++ fieldsAll ys := by
  induction xs with
  | nil => simp [fieldsAll]
  | cons c cs ih => rw [List.cons_append, fieldsAll_cons, fieldsAll_cons, ih, List.append_assoc]

theorem mem_fieldsAll {cs : List Condition} {p : Condition} {f : String}
    (hp : p ∈ cs) (hf : f ∈ p.fields) : f ∈ fieldsAll cs := by
  induction cs with
  | nil => simp at hp
  | cons c tl ih =>
    rw [fieldsAll_cons]
    rcases List.mem_cons.mp hp with rfl | h
    · exact List.mem_append_left _ hf
    · exact List.mem_append_right _ (ih h)

theorem translate_congr {mf mf2 : FieldMapperFunc} {c : Condition}
    (h : ∀ f ∈ c.fields, mf2 f = mf f) : translate mf2 c = translate mf c := by
  unfold translate
  rw [applyFilter_congr mf mf2 c h]


theorem countPlaceholders_append (a b : String) :
    countPlaceholders (a ++ b) = countPlaceholders a + countPlaceholders b := by
  simp [countPlaceholders, String.data_append, List.count_append]

theorem countPlaceholders_of_not_mem {name : String} (h : '?' ∉ name.data) :
    countPlaceholders name = 0 := by
  unfold countPlaceholders
  exact List.count_eq_zero.mpr h

theorem intercalate_go_count : ∀ (n : Nat) (acc : String),
    countPlaceholders (String.intercalate.go acc "," (List.replicate n "?"))
      = countPlaceholders acc + n
  | 0, acc => by simp [String.intercalate.go]
  | n + 1, acc => by
    rw [List.replicate_succ, String.intercalate.go, intercalate_go_count n,
      countPlaceholders_append, countPlaceholders_append]
    have h1 : countPlaceholders "," = 0 := by decide
    have h2 : countPlaceholders "?" = 1 := by decide
    omega

theorem countPlaceholders_Placeholders (n : Nat) : countPlaceholders (Placeholders n) = n := by
  unfold Placeholders
  cases n with
  | zero => decide
  | succ k =>
    rw [List.replicate_succ, String.intercalate, intercalate_go_count]
    have h2 : countPlaceholders "?" = 1 := by decide
    omega

theorem arrayOp_count (fieldName op : String) (hop : countPlaceholders op = 0)
    (hname : '?' ∉ fieldName.data) (n : Nat) :
    countPlaceholders (fieldName ++ op ++ Placeholders n ++ "]") = n := by
  rw [countPlaceholders_append, countPlaceholders_append, countPlaceholders_append,
    countPlaceholders_of_not_mem hname, hop, countPlaceholders_Placeholders]
  have h : countPlaceholders "]" = 0 := by decide
  omega

theorem package_leaf_count (fieldName : String) (hname : '?' ∉ fieldName.data) (value : Value) :
    ((ArrayContains.ToSql fieldName value).2.2 = none →
      countPlaceholders (ArrayContains.ToSql fieldName value).1
        = (ArrayContains.ToSql fieldName value).2.1.length) ∧
    countPlaceholders (ArrayContainsArray.ToSql fieldName value).1
      = (ArrayContainsArray.ToSql fieldName value).2.1.length ∧
    countPlaceholders (ArrayIsContained.ToSql fieldName value).1
      = (ArrayIsContained.ToSql fieldName value).2.1.length ∧
    countPlaceholders (Overlaps.ToSql fieldName value).1
      = (Overlaps.ToSql fieldName value).2.1.length := by
  have hany : countPlaceholders (fieldName ++ " = ANY (" ++ Placeholders 1 ++ ")") = 1 := by
    rw [countPlaceholders_append, countPlaceholders_append, countPlaceholders_append,
      countPlaceholders_of_not_mem hname, countPlaceholders_Placeholders]
    have h1 : countPlaceholders " = ANY (" = 0 := by decide
    have h2 : countPlaceholders ")" = 0 := by decide
    omega
  have h1 := arrayOp_count fieldName " @> ARRAY[" (by decide) hname
  have h2 := arrayOp_count fieldName " <@ ARRAY[" (by decide) hname
  have h3 := arrayOp_count fieldName " && ARRAY[" (by decide) hname
  have hf : countPlaceholders sqlFalse = 0 := by decide
  unfold ArrayContains.ToSql ArrayContainsArray.ToSql ArrayIsContained.ToSql Overlaps.ToSql
  cases value with
  | nil => exact ⟨fun h => by simp at h, hf, hf, hf⟩
  | list items =>
    refine ⟨fun _ => hany, ?_, ?_, ?_⟩
    · simp only
      split
      · rename_i h0; simp only [hf]; rfl
      · exact h1 _
    · simp only
      split
      · rename_i h0; simp only [hf]; rfl
      · exact h2 _
    · simp only
      split
      · rename_i h0; simp only [hf]; rfl
      · exact h3 _
  | bool b => exact ⟨fun _ => hany, h1 1, h2 1, h3 1⟩
  | int b => exact ⟨fun _ => hany, h1 1, h2 1, h3 1⟩
  | str b => exact ⟨fun _ => hany, h1 1, h2 1, h3 1⟩

theorem regex_count (fieldName expression : String) (hname : '?' ∉ fieldName.data) :
    countPlaceholders (Regex.ToSql fieldName expression).1
      = (Regex.ToSql fieldName expression).2.1.length ∧
    countPlaceholders (NotRegex.ToSql fieldName expression).1
      = (NotRegex.ToSql fieldName expression).2.1.length := by
  unfold Regex.ToSql NotRegex.ToSql
  constructor
  · show countPlaceholders (fieldName ++ " ~ " ++ Placeholders 1) = 1
    rw [countPlaceholders_append, countPlaceholders_append,
      countPlaceholders_of_not_mem hname, countPlaceholders_Placeholders]
    have h1 : countPlaceholders " ~ " = 0 := by decide
    omega
  · show countPlaceholders (fieldName ++ " !~ " ++ Placeholders 1) = 1
    rw [countPlaceholders_append, countPlaceholders_append,
      countPlaceholders_of_not_mem hname, countPlaceholders_Placeholders]
    have h1 : countPlaceholders " !~ " = 0 := by decide
    omega

mutual
/-- In what a fragment of this package renders to without error, there are as
many placeholders as arguments, provided its field name holds none. -/
theorem package_count : ∀ s : Sqlizer, s.isPackageFragment = true →
    (∀ name, s.fieldName = some name → '?' ∉ name.data) → s.ToSql.2.2 = none →
    countPlaceholders s.ToSql.1 = s.ToSql.2.1.length
  | .ArrayContains f v => fun _ hn h => by
    rw [Sqlizer.ToSql] at h ⊢
    exact (package_leaf_count f (hn f (by rw [Sqlizer.fieldName])) v).1 h
  | .ArrayContainsArray f v => fun _ hn _ => by
    rw [Sqlizer.ToSql]
    exact (package_leaf_count f (hn f (by rw [Sqlizer.fieldName])) v).2.1
  | .ArrayIsContained f v => fun _ hn _ => by
    rw [Sqlizer.ToSql]
    exact (package_leaf_count f (hn f (by rw [Sqlizer.fieldName])) v).2.2.1
  | .Overlaps f v => fun _ hn _ => by
    rw [Sqlizer.ToSql]
    exact (package_leaf_count f (hn f (by rw [Sqlizer.fieldName])) v).2.2.2
  | .Regex f e => fun _ hn _ => by
    rw [Sqlizer.ToSql]
    exact (regex_count f e (hn f (by rw [Sqlizer.fieldName]))).1
  | .NotRegex f e => fun _ hn _ => by
    rw [Sqlizer.ToSql]
    exact (regex_count f e (hn f (by rw [Sqlizer.fieldName]))).2
  | .Not (.sqlizer s) => fun hp hn h => by
    rw [Sqlizer.isPackageFragment, SqlObj.isPackageFragment] at hp
    rw [ToSql_Not] at h ⊢
    have ih := package_count s hp
      (fun name hname => hn name (by rw [Sqlizer.fieldName, SqlObj.fieldName]; exact hname)) h
    simp only
    rw [countPlaceholders_append, countPlaceholders_append, ih]
    have h1 : countPlaceholders "NOT (" = 0 := by decide
    have h2 : countPlaceholders ")" = 0 := by decide
    omega
  | .Not .nil => fun hp _ _ => by
    simp [Sqlizer.isPackageFragment, SqlObj.isPackageFragment] at hp
  | .Not (.slice _) => fun hp _ _ => by
    simp [Sqlizer.isPackageFragment, SqlObj.isPackageFragment] at hp
  | .Eq _ _ => fun hp _ _ => by simp [Sqlizer.isPackageFragment] at hp
  | .NotEq _ _ => fun hp _ _ => by simp [Sqlizer.isPackageFragment] at hp
  | .Gt _ _ => fun hp _ _ => by simp [Sqlizer.isPackageFragment] at hp
  | .GtOrEq _ _ => fun hp _ _ => by simp [Sqlizer.isPackageFragment] at hp
  | .Lt _ _ => fun hp _ _ => by simp [Sqlizer.isPackageFragment] at hp
  | .LtOrEq _ _ => fun hp _ _ => by simp [Sqlizer.isPackageFragment] at hp
  | .ILike _ _ => fun hp _ _ => by simp [Sqlizer.isPackageFragment] at hp
  | .And _ => fun hp _ _ => by simp [Sqlizer.isPackageFragment] at hp
  | .Or _ => fun hp _ _ => by simp [Sqlizer.isPackageFragment] at hp
end


theorem isNonNil_iff (c : Condition) : (!c.isNil) = true ↔ c ≠ .nil := by
  cases c <;> simp [Condition.isNil]

/-- A tree without nil operand and without nil pointer never makes the
translation panic. -/
theorem applyFilter_no_panic (mf : FieldMapperFunc) : ∀ (c : Condition),
    c.noNilOperand = true → c.noTypedNil = true → c ≠ .nil →
    ∀ ta : Aliases, (applyFilter c mf ta).1 ≠ .panic := by
  apply Condition.induct
    (P := fun c => c.noNilOperand = true → c.noTypedNil = true → c ≠ .nil →
      ∀ ta : Aliases, (applyFilter c mf ta).1 ≠ .panic)
    (Q := fun cs => noNilOperands cs = true → noTypedNils cs = true →
      ∀ (ta : Aliases) (conj : List Sqlizer),
        (andLoop cs mf ta conj).1 ≠ .panic ∧ (orLoop cs mf ta conj).1 ≠ .panic)
  · intro c f mk hl _ _ _ ta
    rw [applyFilter_leaf hl]
    cases mf f <;> simp
  · intro _ _ h; exact absurd rfl h
  · intro t _ _ _ ta; rw [applyFilter]; simp
  · intro t _ h; simp [Condition.noTypedNil] at h
  · intro c ih h ht _ ta
    rw [Condition.noNilOperand] at h
    rw [Condition.noTypedNil] at ht
    by_cases hc : c = .nil
    · subst hc; rw [applyFilter]; simp
    · rw [applyFilter_Where hc]; exact ih h ht hc ta
  · intro c ih h ht _ ta
    rw [Condition.noNilOperand] at h
    rw [Condition.noTypedNil] at ht
    by_cases hc : c = .nil
    · subst hc; rw [applyFilter]; simp
    · rw [applyFilter_Group hc]; exact ih h ht hc ta
  · intro c ih h ht _ ta
    rw [Condition.noNilOperand, Bool.and_eq_true, isNonNil_iff] at h
    rw [Condition.noTypedNil] at ht
    have h1 := ih h.2 ht h.1 ta
    rcases hc : applyFilter c mf ta with ⟨r, t1⟩
    rw [hc] at h1
    cases r with
    | ok o => rw [applyFilter_Not_ok hc]; simp
    | err e => rw [applyFilter_Not_err hc]; simp
    | panic => exact absurd rfl h1
  · intro cs ih h ht _ ta
    rw [Condition.noNilOperand] at h
    rw [Condition.noTypedNil] at ht
    rw [applyFilter_And]
    split
    · simp
    · exact (ih h ht ta []).1
  · intro cs ih h ht _ ta
    rw [Condition.noNilOperand] at h
    rw [Condition.noTypedNil] at ht
    rw [applyFilter_Or]
    split
    · simp
    · exact (ih h ht ta []).2
  · intro _ _ ta conj
    rw [andLoop_nil, orLoop_nil]
    simp
  · intro c cs ihc ihcs h ht ta conj
    rw [noNilOperands, Bool.and_eq_true, Bool.and_eq_true, isNonNil_iff] at h
    rw [noTypedNils, Bool.and_eq_true] at ht
    have h1 := ihc h.1.2 ht.1 h.1.1 ta
    rcases hc : applyFilter c mf ta with ⟨r, t1⟩
    rw [hc] at h1
    cases r with
    | err e => rw [andLoop_cons_err hc, orLoop_cons_err hc]; simp
    | panic => exact absurd rfl h1
    | ok o =>
      cases o with
      | nil => rw [andLoop_cons_nil hc, orLoop_cons_nil hc]; simp
      | sqlizer s =>
        rw [andLoop_cons_sqlizer hc, orLoop_cons_sqlizer hc]
        exact ihcs h.2 ht.2 t1 _
      | slice l =>
        rw [andLoop_cons_slice hc, orLoop_cons_slice hc]
        exact ihcs h.2 ht.2 t1 _


/-! # The properties -/

/-- C1: when the recursive translation `applyFilter` returns an error,
`ApplyFilter` returns the original builder, the nil alias list and that error,
whatever aliases the walk had recorded before failing. -/
theorem C1_error_returns_original_builder (b : SelectBuilder) (c : Condition)
    (opts : List Option') (e : Error) (ta : Aliases)
    (h : applyFilter c (FromDefaultOptions opts).MapperFunc [] = (.err e, ta)) :
    ApplyFilter b c opts = .returns ⟨b, [], some e⟩ :=
  ApplyFilter_of_err (translate_of_applyFilter h) b opts rfl

/-- Witness for C1: the first leaf records the alias `u`, the second fails. -/
theorem C1_error_returns_original_builder_witness :
    applyFilter exAndMissing (FromDefaultOptions [WithMapperFunc (some exMapper)]).MapperFunc []
        = (.err (Errorf "field name error"), ["u"]) ∧
      ApplyFilter exBuilder exAndMissing [WithMapperFunc (some exMapper)]
        = .returns ⟨exBuilder, [], some (Errorf "field name error")⟩ :=
  ⟨by rfl, C1_error_returns_original_builder exBuilder exAndMissing
    [WithMapperFunc (some exMapper)] (Errorf "field name error") ["u"] (by rfl)⟩

/-- C2, as amended: when the mapper fails with `e` on the field of a leaf, and
the leaf sits under WHERE, GROUP, NOT, AND and OR nodes whose earlier children
each translate to a fragment, `ApplyFilter` returns the original builder, no
aliases and exactly the error `e`. -/
theorem C2_mapper_error_verbatim (mf : FieldMapperFunc) (root leaf : Condition) (f : String)
    (e : Error) (b : SelectBuilder) (opts : List Option')
    (hmf : (FromDefaultOptions opts).MapperFunc = mf)
    (hleaf : leaf.leafField = some f)
    (herr : mf f = .error e)
    (hunder : Under (fun p => translatesToFragment mf p = true) root leaf) :
    ApplyFilter b root opts = .returns ⟨b, [], some e⟩ := by
  have hl : translate mf leaf = .err e := by
    unfold Condition.leafField at hleaf
    cases hal : leaf.asLeaf with
    | none => rw [hal] at hleaf; exact absurd hleaf (by simp)
    | some fm =>
      obtain ⟨f2, mk⟩ := fm
      rw [hal] at hleaf
      simp only [Option.map_some', Option.some.injEq] at hleaf
      subst hleaf
      unfold translate
      rw [applyFilter_leaf hal, herr]
  exact ApplyFilter_of_err (err_of_under hunder hl) b opts hmf

/-- Witness for C2: the failing leaf is the second child of an OR under
GROUP, NOT, AND and WHERE. -/
theorem C2_mapper_error_verbatim_witness :
    ApplyFilter exBuilder exDeepMissing [WithMapperFunc (some exMapper)]
      = .returns ⟨exBuilder, [], some (Errorf "field name error")⟩ :=
  C2_mapper_error_verbatim exMapper exDeepMissing exMissing "missingField"
    (Errorf "field name error") exBuilder [WithMapperFunc (some exMapper)] rfl rfl rfl
    (Under.inWhere (Under.inAnd [.Equals "id" (.int 1)] [] (by decide) (by decide)
      (Under.inNot (Under.inGroup (Under.inOr [.Regex "name" "a$"] [.Equals "id" (.int 2)]
        (by decide) (by decide) (Under.here _))))))

/-- Counterexample to C2 as stated: the earlier child `Group(nil)` translates
successfully (to the nil result), yet the AND node then fails with its own
"unexpected data type" error and the mapper error of the leaf is not
returned. -/
theorem C2_counterexample :
    Under (fun p => translatesOk exMapper p = true) exGroupNilThenMissing exMissing ∧
      exMissing.leafField = some "missingField" ∧
      exMapper "missingField" = .error (Errorf "field name error") ∧
      ApplyFilter exBuilder exGroupNilThenMissing [WithMapperFunc (some exMapper)]
        = .returns ⟨exBuilder, [], some (Errorf "unexpected data type: <nil>")⟩ ∧
      ApplyFilter exBuilder exGroupNilThenMissing [WithMapperFunc (some exMapper)]
        ≠ .returns ⟨exBuilder, [], some (Errorf "field name error")⟩ := by
  refine ⟨Under.inAnd [.Group .nil] [] (by decide) (by decide) (Under.here _), rfl, rfl, rfl, ?_⟩
  intro h
  have h2 : ApplyFilter exBuilder exGroupNilThenMissing [WithMapperFunc (some exMapper)]
      = .returns ⟨exBuilder, [], some (Errorf "unexpected data type: <nil>")⟩ := rfl
  rw [h2] at h
  simp only [Outcome.returns.injEq, Applied.mk.injEq, Option.some.injEq, true_and] at h
  exact absurd h (by decide)

/-- C6: an AND or OR node with fewer than two children, at the root or reached
under WHERE, GROUP, NOT, AND and OR nodes, makes the translation fail with the
arity error of that node, and `ApplyFilter` returns that error with the
original builder. -/
theorem C6_arity_error_any_depth (mf : FieldMapperFunc) (root : Condition)
    (cs : List Condition) (hlen : cs.length < 2) :
    (Under (fun p => translatesToFragment mf p = true) root (.And cs) →
      translate mf root = .err (Errorf "AND condition must have at least two conditions") ∧
      ∀ (b : SelectBuilder) (opts : List Option'), (FromDefaultOptions opts).MapperFunc = mf →
        ApplyFilter b root opts = .returns
          ⟨b, [], some (Errorf "AND condition must have at least two conditions")⟩) ∧
    (Under (fun p => translatesToFragment mf p = true) root (.Or cs) →
      translate mf root = .err (Errorf "OR condition must have at least two conditions") ∧
      ∀ (b : SelectBuilder) (opts : List Option'), (FromDefaultOptions opts).MapperFunc = mf →
        ApplyFilter b root opts = .returns
          ⟨b, [], some (Errorf "OR condition must have at least two conditions")⟩) := by
  constructor
  · intro hu
    have hn : translate mf (.And cs)
        = .err (Errorf "AND condition must have at least two conditions") := by
      unfold translate; rw [applyFilter_And, if_pos hlen]
    have hr := err_of_under hu hn
    exact ⟨hr, fun b opts hmf => ApplyFilter_of_err hr b opts hmf⟩
  · intro hu
    have hn : translate mf (.Or cs)
        = .err (Errorf "OR condition must have at least two conditions") := by
      unfold translate; rw [applyFilter_Or, if_pos hlen]
    have hr := err_of_under hu hn
    exact ⟨hr, fun b opts hmf => ApplyFilter_of_err hr b opts hmf⟩

/-- Witness for C6: a one-child AND under NOT, OR and WHERE. -/
theorem C6_arity_error_any_depth_witness :
    translate FieldAsIsMapperFunc exDeepArity
        = .err (Errorf "AND condition must have at least two conditions") ∧
      ApplyFilter exBuilder exDeepArity []
        = .returns ⟨exBuilder, [], some (Errorf "AND condition must have at least two conditions")⟩ :=
  have h := (C6_arity_error_any_depth FieldAsIsMapperFunc exDeepArity [.Equals "b" (.int 2)]
    (by decide)).1
    (Under.inWhere (Under.inOr [.Equals "a" (.int 1)] [] (by decide) (by decide)
      (Under.inNot (Under.here _))))
  ⟨h.1, h.2 exBuilder [] rfl⟩


/-- C3, as amended: for ArrayContainsArray, ArrayIsContained, Overlaps and
ArraysOverlap on a field the mapper accepts, a nil value and an empty sequence
render without error to the literal-false SQL `(1=0)` with no argument. For
ArrayContains a nil value makes rendering fail with "value cannot be nil", and
an empty sequence renders to `m = ANY (?)` with that sequence as the single
argument. -/
theorem C3_empty_operand (mf : FieldMapperFunc) (f m : String) (v : Value)
    (hm : mf f = .ok m) (hv : v = .nil ∨ v = .list []) :
    render mf (.ArrayContainsArray f v) = some ("(1=0)", [], none) ∧
    render mf (.ArrayIsContained f v) = some ("(1=0)", [], none) ∧
    render mf (.Overlaps f v) = some ("(1=0)", [], none) ∧
    render mf (.ArraysOverlap f v) = some ("(1=0)", [], none) ∧
    render mf (.ArrayContains f .nil) = some ("", [], some (Errorf "value cannot be nil")) ∧
    render mf (.ArrayContains f (.list [])) = some (m ++ " = ANY (?)", [.list []], none) := by
  refine ⟨?_, ?_, ?_, ?_, ?_, ?_⟩
  · rw [render_leaf (c := .ArrayContainsArray f v) rfl hm]
    rcases hv with rfl | rfl <;> rfl
  · rw [render_leaf (c := .ArrayIsContained f v) rfl hm]
    rcases hv with rfl | rfl <;> rfl
  · rw [render_leaf (c := .Overlaps f v) rfl hm]
    rcases hv with rfl | rfl <;> rfl
  · rw [render_leaf (c := .ArraysOverlap f v) rfl hm]
    rcases hv with rfl | rfl <;> rfl
  · rw [render_leaf (c := .ArrayContains f .nil) rfl hm]
    rfl
  · rw [render_leaf (c := .ArrayContains f (.list [])) rfl hm]
    simp only [Sqlizer.ToSql, ArrayContains.ToSql, Placeholders_one, String.append_assoc]
    rfl

/-- Witness for C3: the empty sequence on the field `tags`. -/
theorem C3_empty_operand_witness :
    render FieldAsIsMapperFunc (.ArrayContainsArray "tags" (.list [])) = some ("(1=0)", [], none) ∧
    render FieldAsIsMapperFunc (.ArrayIsContained "tags" (.list [])) = some ("(1=0)", [], none) ∧
    render FieldAsIsMapperFunc (.Overlaps "tags" (.list [])) = some ("(1=0)", [], none) ∧
    render FieldAsIsMapperFunc (.ArraysOverlap "tags" (.list [])) = some ("(1=0)", [], none) ∧
    render FieldAsIsMapperFunc (.ArrayContains "tags" .nil)
      = some ("", [], some (Errorf "value cannot be nil")) ∧
    render FieldAsIsMapperFunc (.ArrayContains "tags" (.list []))
      = some ("tags" ++ " = ANY (?)", [.list []], none) :=
  C3_empty_operand FieldAsIsMapperFunc "tags" "tags" (.list []) rfl (Or.inr rfl)

/-- Counterexample to C3 as stated: ArrayContains with a nil value does not
render to `(1=0)` but fails, and with an empty sequence it renders to
`ids = ANY (?)` with one argument. -/
theorem C3_counterexample :
    render FieldAsIsMapperFunc (.ArrayContains "ids" .nil)
      = some ("", [], some (Errorf "value cannot be nil")) ∧
    render FieldAsIsMapperFunc (.ArrayContains "ids" .nil) ≠ some ("(1=0)", [], none) ∧
    render FieldAsIsMapperFunc (.ArrayContains "ids" (.list []))
      = some ("ids = ANY (?)", [.list []], none) ∧
    render FieldAsIsMapperFunc (.ArrayContains "ids" (.list [])) ≠ some ("(1=0)", [], none) := by
  refine ⟨rfl, ?_, rfl, ?_⟩
  · intro h
    have h2 : render FieldAsIsMapperFunc (.ArrayContains "ids" .nil)
        = some ("", [], some (Errorf "value cannot be nil")) := rfl
    rw [h2] at h
    simp only [Option.some.injEq, Prod.mk.injEq] at h
    exact absurd h.1 (by decide)
  · intro h
    have h2 : render FieldAsIsMapperFunc (.ArrayContains "ids" (.list []))
        = some ("ids = ANY (?)", [.list []], none) := rfl
    rw [h2] at h
    simp only [Option.some.injEq, Prod.mk.injEq] at h
    exact absurd h.1 (by decide)

/-- C4, as amended: for ArrayContainsArray, ArrayIsContained, Overlaps and
ArraysOverlap on a field the mapper accepts, a non-nil scalar value `v` renders
to the same SQL text and the same argument list `[v]` as the one-element
sequence `[v]`. For ArrayContains the SQL text is the same, `m = ANY (?)`, but
the single argument is the value as given: `v` for the scalar, the sequence
`[v]` for the sequence. -/
theorem C4_scalar_as_singleton (mf : FieldMapperFunc) (f m : String) (v : Value)
    (hm : mf f = .ok m) (hnil : v ≠ .nil) (hscalar : isListType v = false) :
    (render mf (.ArrayContainsArray f (.list [v])) = some (m ++ " @> ARRAY[?]", [v], none) ∧
      render mf (.ArrayContainsArray f v) = render mf (.ArrayContainsArray f (.list [v]))) ∧
    (render mf (.ArrayIsContained f (.list [v])) = some (m ++ " <@ ARRAY[?]", [v], none) ∧
      render mf (.ArrayIsContained f v) = render mf (.ArrayIsContained f (.list [v]))) ∧
    (render mf (.Overlaps f (.list [v])) = some (m ++ " && ARRAY[?]", [v], none) ∧
      render mf (.Overlaps f v) = render mf (.Overlaps f (.list [v]))) ∧
    (render mf (.ArraysOverlap f (.list [v])) = some (m ++ " && ARRAY[?]", [v], none) ∧
      render mf (.ArraysOverlap f v) = render mf (.ArraysOverlap f (.list [v]))) ∧
    (render mf (.ArrayContains f v) = some (m ++ " = ANY (?)", [v], none) ∧
      render mf (.ArrayContains f (.list [v])) = some (m ++ " = ANY (?)", [.list [v]], none)) := by
  have e1 : m ++ " @> ARRAY[" ++ "?" ++ "]" = m ++ " @> ARRAY[?]" := by
    simp only [String.append_assoc]; rfl
  have e2 : m ++ " <@ ARRAY[" ++ "?" ++ "]" = m ++ " <@ ARRAY[?]" := by
    simp only [String.append_assoc]; rfl
  have e3 : m ++ " && ARRAY[" ++ "?" ++ "]" = m ++ " && ARRAY[?]" := by
    simp only [String.append_assoc]; rfl
  have e4 : m ++ " = ANY (" ++ "?" ++ ")" = m ++ " = ANY (?)" := by
    simp only [String.append_assoc]; rfl
  rw [render_leaf (c := .ArrayContainsArray f v) rfl hm,
    render_leaf (c := .ArrayContainsArray f (.list [v])) rfl hm,
    render_leaf (c := .ArrayIsContained f v) rfl hm,
    render_leaf (c := .ArrayIsContained f (.list [v])) rfl hm,
    render_leaf (c := .Overlaps f v) rfl hm,
    render_leaf (c := .Overlaps f (.list [v])) rfl hm,
    render_leaf (c := .ArraysOverlap f v) rfl hm,
    render_leaf (c := .ArraysOverlap f (.list [v])) rfl hm,
    render_leaf (c := .ArrayContains f v) rfl hm,
    render_leaf (c := .ArrayContains f (.list [v])) rfl hm]
  rcases scalar_cases hnil hscalar with ⟨b, rfl⟩ | ⟨i, rfl⟩ | ⟨s, rfl⟩ <;>
    simp [Sqlizer.ToSql, ArrayContainsArray.ToSql, ArrayIsContained.ToSql, Overlaps.ToSql,
      ArrayContains.ToSql, Placeholders_one, e1, e2, e3, e4]

/-- Witness for C4: the scalar `"test"` on the field `tags`. -/
theorem C4_scalar_as_singleton_witness :
    render FieldAsIsMapperFunc (.Overlaps "tags" (.str "test"))
        = render FieldAsIsMapperFunc (.Overlaps "tags" (.list [.str "test"])) ∧
      render FieldAsIsMapperFunc (.ArrayContains "tags" (.list [.str "test"]))
        = some ("tags" ++ " = ANY (?)", [.list [.str "test"]], none) :=
  have h := C4_scalar_as_singleton FieldAsIsMapperFunc "tags" "tags" (.str "test") rfl
    (by simp) rfl
  ⟨h.2.2.1.2, h.2.2.2.2.2⟩

/-- Counterexample to C4 as stated: for ArrayContains the scalar `4` renders
with the argument list `[4]`, the one-element sequence with the argument list
`[[4]]`. -/
theorem C4_counterexample :
    render FieldAsIsMapperFunc (.ArrayContains "ids" (.int 4))
      = some ("ids = ANY (?)", [.int 4], none) ∧
    render FieldAsIsMapperFunc (.ArrayContains "ids" (.list [.int 4]))
      = some ("ids = ANY (?)", [.list [.int 4]], none) ∧
    render FieldAsIsMapperFunc (.ArrayContains "ids" (.int 4))
      ≠ render FieldAsIsMapperFunc (.ArrayContains "ids" (.list [.int 4])) := by
  refine ⟨rfl, rfl, ?_⟩
  intro h
  have h1 : render FieldAsIsMapperFunc (.ArrayContains "ids" (.int 4))
      = some ("ids = ANY (?)", [.int 4], none) := rfl
  have h2 : render FieldAsIsMapperFunc (.ArrayContains "ids" (.list [.int 4]))
      = some ("ids = ANY (?)", [.list [.int 4]], none) := rfl
  rw [h1, h2] at h
  simp at h

/-- C5: on a field mapped to `m`, a sequence of `N > 0` elements renders for
ArrayContainsArray, ArrayIsContained and Overlaps to `m OP ARRAY[?,...,?]`
with `N` comma-separated placeholders and the elements, in order, as
arguments, `OP` being `@>`, `<@` and `&&`; ArrayContains with a non-nil value
`v` renders to `m = ANY (?)` with the single argument `v`. -/
theorem C5_array_operator_rendering (mf : FieldMapperFunc) (f m : String)
    (hm : mf f = .ok m) :
    (∀ items : List Value, 0 < items.length →
      render mf (.ArrayContainsArray f (.list items))
        = some (m ++ " @> ARRAY[" ++ ",".intercalate (List.replicate items.length "?") ++ "]",
            items, none) ∧
      render mf (.ArrayIsContained f (.list items))
        = some (m ++ " <@ ARRAY[" ++ ",".intercalate (List.replicate items.length "?") ++ "]",
            items, none) ∧
      render mf (.Overlaps f (.list items))
        = some (m ++ " && ARRAY[" ++ ",".intercalate (List.replicate items.length "?") ++ "]",
            items, none)) ∧
    (∀ v : Value, v ≠ .nil →
      render mf (.ArrayContains f v) = some (m ++ " = ANY (?)", [v], none)) := by
  constructor
  · intro items hpos
    have hne : ¬ items.length = 0 := by omega
    rw [render_leaf (c := .ArrayContainsArray f (.list items)) rfl hm,
      render_leaf (c := .ArrayIsContained f (.list items)) rfl hm,
      render_leaf (c := .Overlaps f (.list items)) rfl hm]
    simp only [Sqlizer.ToSql, ArrayContainsArray.ToSql, ArrayIsContained.ToSql, Overlaps.ToSql,
      if_neg hne, Placeholders, and_self]
  · intro v hv
    have e4 : m ++ " = ANY (" ++ "?" ++ ")" = m ++ " = ANY (?)" := by
      simp only [String.append_assoc]; rfl
    rw [render_leaf (c := .ArrayContains f v) rfl hm]
    cases v <;> first
      | exact absurd rfl hv
      | simp only [Sqlizer.ToSql, ArrayContains.ToSql, Placeholders_one, e4]

/-- Witness for C5: two elements on the field `tags`, and the value `4`. -/
theorem C5_array_operator_rendering_witness :
    render FieldAsIsMapperFunc (.ArrayContainsArray "tags" (.list [.str "a", .str "b"]))
        = some ("tags @> ARRAY[?,?]", [.str "a", .str "b"], none) ∧
      render FieldAsIsMapperFunc (.ArrayContains "ids" (.int 4))
        = some ("ids = ANY (?)", [.int 4], none) :=
  ⟨((C5_array_operator_rendering FieldAsIsMapperFunc "tags" "tags" rfl).1
      [.str "a", .str "b"] (by decide)).1,
    (C5_array_operator_rendering FieldAsIsMapperFunc "ids" "ids" rfl).2 (.int 4) (by simp)⟩

/-- C7: the alias list of a successful `ApplyFilter` call holds no duplicate;
it holds `qual` for every leaf whose mapped reference is `qual.column`; every
alias it holds is the qualifier of the mapped reference of some leaf, that
reference containing a dot; and recording a reference without a dot leaves
the alias map as it is. -/
theorem C7_alias_list (b : SelectBuilder) (c : Condition) (opts : List Option') (r : Applied)
    (h : ApplyFilter b c opts = .returns r) (hok : r.err = none) :
    r.tableAliases.Nodup ∧
    (∀ f ∈ c.fields, ∀ qual column : String,
      (FromDefaultOptions opts).MapperFunc f = .ok (qual ++ "." ++ column) →
      '.' ∉ qual.data → qual ∈ r.tableAliases) ∧
    (∀ a ∈ r.tableAliases, ∃ f ∈ c.fields, ∃ m,
      (FromDefaultOptions opts).MapperFunc f = .ok m ∧ '.' ∈ m.data ∧ qualifier m = some a) ∧
    (∀ (ref : String) (ta : Aliases), '.' ∉ ref.data → addTableAlias ref ta = ta) := by
  have hlast : ∀ (ref : String) (ta : Aliases), '.' ∉ ref.data → addTableAlias ref ta = ta := by
    intro ref ta hd
    apply addTableAlias_of_none
    unfold qualifier
    rw [if_neg hd]
  rcases ApplyFilter_success h hok with ⟨rfl, hr⟩ | ⟨o, ho⟩
  · rw [hr]
    refine ⟨List.nodup_nil, ?_, ?_, hlast⟩
    · intro f hf; simp [Condition.fields] at hf
    · intro a ha; simp at ha
  · have hmem := applyFilter_aliases _ c [] o r.tableAliases ho
    have hnd := applyFilter_nodup (FromDefaultOptions opts).MapperFunc c [] List.nodup_nil
    rw [ho] at hnd
    refine ⟨hnd, ?_, ?_, hlast⟩
    · intro f hf qual column hm ha
      exact (hmem qual).mpr (Or.inr ⟨f, hf, _, hm, qualifier_of_form qual column ha⟩)
    · intro a ha
      rcases (hmem a).mp ha with h1 | ⟨f, hf, m, hm, hq⟩
      · simp at h1
      · exact ⟨f, hf, m, hm, (qualifier_isSome_iff m).mp ⟨a, hq⟩, hq⟩

/-- Witness for C7: the fields `a` (twice), `b` and `c` map to qualified
references, the field `n` to an unqualified one. -/
theorem C7_alias_list_witness :
    ApplyFilter exBuilder exGrouping [WithMapperFunc (some exGroupingMapper)]
        = .returns ⟨exBuilder.Where (.sqlizer (.And [.Eq "aa.a" (.int 2),
            .Or [.Eq "bbb.b" (.str "b"), .Eq "c.c" (.str "c"), .Gt "aa.a" (.str "e"),
              .Eq "n" .nil]])), ["aa", "bbb", "c"], none⟩ ∧
      ["aa", "bbb", "c"].Nodup ∧ "bbb" ∈ ["aa", "bbb", "c"] :=
  have h := C7_alias_list exBuilder exGrouping [WithMapperFunc (some exGroupingMapper)] _ rfl rfl
  ⟨rfl, h.1, h.2.1 "b" (by decide) "bbb" "b" rfl (by decide)⟩

/-- C8, as amended: the arguments rendered for a composite are the arguments
of its children in source order, for children whose fragments render. For
conditions `a`, `b`, `c` whose fragments render without error to the argument
lists `xa`, `xb`, `xc`, the fragment of `And(And(a, b), c)` renders to
`xa ++ xb ++ xc`, and so do `Or(Or(a, b), c)` and the mixed nestings; in
general an AND or OR node over at least two children that render renders to
the concatenation of their argument lists, which applied at every level gives
the leaves' arguments from left to right at any depth. -/
theorem C8_arguments_in_source_order (mf : FieldMapperFunc) :
    (∀ (a b c : Condition) (xa xb xc : List Value),
      renderArgs mf a = some xa → renderArgs mf b = some xb → renderArgs mf c = some xc →
      renderArgs mf (.And [.And [a, b], c]) = some (xa ++ xb ++ xc) ∧
      renderArgs mf (.Or [.Or [a, b], c]) = some (xa ++ xb ++ xc) ∧
      renderArgs mf (.And [.Or [a, b], c]) = some (xa ++ xb ++ xc) ∧
      renderArgs mf (.Or [.And [a, b], c]) = some (xa ++ xb ++ xc) ∧
      renderArgs mf (.And [a, .And [b, c]]) = some (xa ++ xb ++ xc) ∧
      renderArgs mf (.Or [a, .And [b, c]]) = some (xa ++ xb ++ xc)) ∧
    (∀ (cs : List Condition) (argss : List (List Value)), 2 ≤ cs.length →
      List.Forall₂ (fun c x => renderArgs mf c = some x) cs argss →
      renderArgs mf (.And cs) = some argss.flatten ∧
      renderArgs mf (.Or cs) = some argss.flatten) := by
  have two : ∀ (p q : Condition) (xp xq : List Value),
      renderArgs mf p = some xp → renderArgs mf q = some xq →
      renderArgs mf (.And [p, q]) = some (xp ++ xq) ∧
      renderArgs mf (.Or [p, q]) = some (xp ++ xq) := by
    intro p q xp xq hp hq
    have h := @renderArgs_conj mf [p, q] [xp, xq] (by simp)
      (List.Forall₂.cons hp (List.Forall₂.cons hq List.Forall₂.nil))
    simpa using h
  refine ⟨?_, fun cs argss hlen h => renderArgs_conj hlen h⟩
  intro a b c xa xb xc ha hb hc
  have hab := two a b xa xb ha hb
  have hbc := two b c xb xc hb hc
  refine ⟨(two _ c _ xc hab.1 hc).1, (two _ c _ xc hab.2 hc).2, (two _ c _ xc hab.2 hc).1,
    (two _ c _ xc hab.1 hc).2, ?_, ?_⟩
  · rw [List.append_assoc]; exact (two a _ xa _ ha hbc.1).1
  · rw [List.append_assoc]; exact (two a _ xa _ ha hbc.1).2

/-- Witness for C8: `And(And(Equals("a", 1), Overlaps("b", [2, 3])),
Regex("c", "x$"))` renders to the arguments `1, 2, 3, "x$"`. -/
theorem C8_arguments_in_source_order_witness :
    renderArgs FieldAsIsMapperFunc (.And [.And [exA, exB], exC])
      = some ([.int 1] ++ [.int 2, .int 3] ++ [.str "x$"]) :=
  ((C8_arguments_in_source_order FieldAsIsMapperFunc).1 exA exB exC
    [.int 1] [.int 2, .int 3] [.str "x$"] rfl rfl rfl).1

/-- Counterexample to C8 as stated: `Group(nil)`, `Equals("a", 1)` and
`Regex("c", "x$")` translate successfully, yet `And(And(Group(nil), a), c)`
has no rendered argument list, its translation failing with "unexpected data
type: <nil>"; and with `LowerThan("x", nil)`, which translates successfully
too, the composite translates but its rendering fails, again leaving no
argument list. -/
theorem C8_counterexample :
    translatesOk FieldAsIsMapperFunc (.Group .nil) = true ∧
    translatesOk FieldAsIsMapperFunc exA = true ∧
    translatesOk FieldAsIsMapperFunc exC = true ∧
    translate FieldAsIsMapperFunc (.And [.And [.Group .nil, exA], exC])
      = .err (Errorf "unexpected data type: <nil>") ∧
    renderArgs FieldAsIsMapperFunc (.And [.And [.Group .nil, exA], exC]) = none ∧
    translatesOk FieldAsIsMapperFunc (.LowerThan "x" .nil) = true ∧
    translatesOk FieldAsIsMapperFunc (.And [.And [.LowerThan "x" .nil, exA], exC]) = true ∧
    render FieldAsIsMapperFunc (.And [.And [.LowerThan "x" .nil, exA], exC])
      = some ("", [], some (Errorf "cannot use null with less than or greater than operators")) ∧
    renderArgs FieldAsIsMapperFunc (.And [.And [.LowerThan "x" .nil, exA], exC]) = none :=
  ⟨rfl, rfl, rfl, rfl, rfl, rfl, rfl, rfl, rfl⟩

/-- C9, as amended: a child of an AND or OR node that is itself an AND or OR
node stays one nested element of the parent. For `a`, `b`, `c` translating to
the fragments `Fa`, `Fb`, `Fc`, `And(And(a, b), c)` translates to the
two-element conjunction of the inner conjunction `[Fa, Fb]` and `Fc`, and
likewise for OR and for the mixed nestings. -/
theorem C9_nested_conjunction_kept (mf : FieldMapperFunc) (a b c : Condition)
    (Fa Fb Fc : Sqlizer) (ha : translate mf a = .ok (.sqlizer Fa))
    (hb : translate mf b = .ok (.sqlizer Fb)) (hc : translate mf c = .ok (.sqlizer Fc)) :
    translate mf (.And [.And [a, b], c]) = .ok (.sqlizer (.And [.And [Fa, Fb], Fc])) ∧
    translate mf (.Or [.Or [a, b], c]) = .ok (.sqlizer (.Or [.Or [Fa, Fb], Fc])) ∧
    translate mf (.And [.Or [a, b], c]) = .ok (.sqlizer (.And [.Or [Fa, Fb], Fc])) ∧
    translate mf (.Or [.And [a, b], c]) = .ok (.sqlizer (.Or [.And [Fa, Fb], Fc])) := by
  have two : ∀ (p q : Condition) (Fp Fq : Sqlizer),
      translate mf p = .ok (.sqlizer Fp) → translate mf q = .ok (.sqlizer Fq) →
      translate mf (.And [p, q]) = .ok (.sqlizer (.And [Fp, Fq])) ∧
      translate mf (.Or [p, q]) = .ok (.sqlizer (.Or [Fp, Fq])) := by
    intro p q Fp Fq hp hq
    exact @translate_conj mf [p, q] [Fp, Fq] (by simp)
      (List.Forall₂.cons hp (List.Forall₂.cons hq List.Forall₂.nil))
  have hab := two a b Fa Fb ha hb
  exact ⟨(two _ c _ Fc hab.1 hc).1, (two _ c _ Fc hab.2 hc).2, (two _ c _ Fc hab.2 hc).1,
    (two _ c _ Fc hab.1 hc).2⟩

/-- Witness for C9. -/
theorem C9_nested_conjunction_kept_witness :
    translate FieldAsIsMapperFunc (.And [.And [exA, exB], exC])
      = .ok (.sqlizer (.And [.And [.Eq "a" (.int 1), .Overlaps "b" (.list [.int 2, .int 3])],
          .Regex "c" "x$"])) :=
  (C9_nested_conjunction_kept FieldAsIsMapperFunc exA exB exC _ _ _ rfl rfl rfl).1

/-- Counterexample to C9 as stated: `And(And(a, b), c)` translates to a
conjunction of two elements, the first being the inner conjunction, not to
the conjunction of the three fragments. -/
theorem C9_counterexample :
    translate FieldAsIsMapperFunc exA = .ok (.sqlizer (.Eq "a" (.int 1))) ∧
    translate FieldAsIsMapperFunc exB = .ok (.sqlizer (.Overlaps "b" (.list [.int 2, .int 3]))) ∧
    translate FieldAsIsMapperFunc exC = .ok (.sqlizer (.Regex "c" "x$")) ∧
    translate FieldAsIsMapperFunc (.And [.And [exA, exB], exC])
      = .ok (.sqlizer (.And [.And [.Eq "a" (.int 1), .Overlaps "b" (.list [.int 2, .int 3])],
          .Regex "c" "x$"])) ∧
    translate FieldAsIsMapperFunc (.And [.And [exA, exB], exC])
      ≠ .ok (.sqlizer (.And [.Eq "a" (.int 1), .Overlaps "b" (.list [.int 2, .int 3]),
          .Regex "c" "x$"])) := by
  refine ⟨rfl, rfl, rfl, rfl, ?_⟩
  intro h
  have h2 : translate FieldAsIsMapperFunc (.And [.And [exA, exB], exC])
      = .ok (.sqlizer (.And [.And [.Eq "a" (.int 1), .Overlaps "b" (.list [.int 2, .int 3])],
          .Regex "c" "x$"])) := rfl
  rw [h2] at h
  simp at h

/-- C10: when the fragment of a child `c` renders to `(sql, args)` without
error, the fragment of `Not(c)` renders without error to `NOT (sql)` with the
same argument list. -/
theorem C10_not_wraps_child (mf : FieldMapperFunc) (c : Condition) (sql : String)
    (args : List Value) (h : render mf c = some (sql, args, none)) :
    render mf (.Not c) = some ("NOT (" ++ sql ++ ")", args, none) := by
  obtain ⟨F, ht, hs⟩ := render_iff.mp h
  apply render_iff.mpr
  refine ⟨_, translate_Not ht, ?_⟩
  rw [ToSql_Not, hs]

/-- Witness for C10: `Not(LowerThan("regressions", 5))`. -/
theorem C10_not_wraps_child_witness :
    render FieldAsIsMapperFunc (.Not (.LowerThan "regressions" (.int 5)))
      = some ("NOT (" ++ "regressions < ?" ++ ")", [.int 5], none) :=
  C10_not_wraps_child FieldAsIsMapperFunc (.LowerThan "regressions" (.int 5))
    "regressions < ?" [.int 5] rfl


/-- C11, as amended: translating `Not(child)` succeeds whenever translating
the child returns without error, also when the child's result `o` is not a
single fragment (as for `Group(nil)`, whose result is nil). `ApplyFilter` then
returns a nil error and the builder with the fragment `Not o` appended; the
type-mismatch error is returned only when that fragment is rendered. -/
theorem C11_not_type_check_at_render (mf : FieldMapperFunc) (c : Condition) (o : SqlObj)
    (h : translate mf c = .ok o) (hnf : ∀ s, o ≠ .sqlizer s) :
    translate mf (.Not c) = .ok (.sqlizer (.Not o)) ∧
    (∃ e, (Sqlizer.Not o).ToSql = ("", [], some e)) ∧
    (o = .nil →
      (Sqlizer.Not o).ToSql = ("", [], some (Errorf "expected sq.Sqlizer but got <nil>"))) ∧
    (∀ (b : SelectBuilder) (opts : List Option'), (FromDefaultOptions opts).MapperFunc = mf →
      ∃ ta, ApplyFilter b (.Not c) opts
        = .returns ⟨⟨b.rest, b.WhereParts ++ [.sqlizer (.Not o)]⟩, ta, none⟩) := by
  refine ⟨translate_Not h, ?_, ?_, ?_⟩
  · cases o with
    | nil => exact ⟨_, by rw [Sqlizer.ToSql]⟩
    | sqlizer s => exact absurd rfl (hnf s)
    | slice l => exact ⟨_, by rw [Sqlizer.ToSql]⟩
  · rintro rfl
    rw [Sqlizer.ToSql]
  · intro b opts hmf
    subst hmf
    obtain ⟨ta, hta⟩ := applyFilter_of_translate (translate_Not h) []
    exact ⟨ta, by rw [ApplyFilter_of_ok hta, Where_sqlizer]⟩

/-- Witness for C11: the child `Group(nil)`. -/
theorem C11_not_type_check_at_render_witness :
    translate FieldAsIsMapperFunc (.Not (.Group .nil)) = .ok (.sqlizer (.Not .nil)) ∧
    (Sqlizer.Not .nil).ToSql = ("", [], some (Errorf "expected sq.Sqlizer but got <nil>")) :=
  have h := C11_not_type_check_at_render FieldAsIsMapperFunc (.Group .nil) .nil rfl
    (by intro s; simp)
  ⟨h.1, h.2.2.1 rfl⟩

/-- Counterexample to C11 as stated: `Group(nil)` translates to the nil
result, not to a single fragment, yet `ApplyFilter` on `Not(Group(nil))`
returns a nil error and a builder carrying the NOT fragment, which fails to
render. -/
theorem C11_counterexample :
    translate FieldAsIsMapperFunc (.Group .nil) = .ok .nil ∧
    ApplyFilter exBuilder (.Not (.Group .nil)) []
      = .returns ⟨⟨"SELECT * FROM users u", [.sqlizer (.Not .nil)]⟩, [], none⟩ ∧
    (Sqlizer.Not .nil).ToSql = ("", [], some (Errorf "expected sq.Sqlizer but got <nil>")) ∧
    ¬ ∃ e, ApplyFilter exBuilder (.Not (.Group .nil)) [] = .returns ⟨exBuilder, [], some e⟩ := by
  refine ⟨rfl, rfl, rfl, ?_⟩
  rintro ⟨e, he⟩
  have h2 : ApplyFilter exBuilder (.Not (.Group .nil)) []
      = .returns ⟨⟨"SELECT * FROM users u", [.sqlizer (.Not .nil)]⟩, [], none⟩ := rfl
  rw [h2] at he
  simp at he

/-- C12: for the nil condition `ApplyFilter` returns the builder as it is, the
empty alias list and a nil error, whatever the options are: the result does
not depend on the mapper, which is not consulted. -/
theorem C12_nil_condition (b : SelectBuilder) (opts : List Option') :
    ApplyFilter b .nil opts = .returns ⟨b, [], none⟩ ∧
    ApplyFilter b .nil opts = ApplyFilter b .nil [WithMapperFunc (some exRejectingMapper)] :=
  ⟨rfl, rfl⟩

/-- C13: on `Where(nil)`, on `Group(nil)` and on any chain of WHERE and GROUP
wrappers around nil, `ApplyFilter` returns the builder as it is, the empty
alias list and a nil error. -/
theorem C13_empty_wrappers (b : SelectBuilder) (opts : List Option') :
    ApplyFilter b (.Where .nil) opts = .returns ⟨b, [], none⟩ ∧
    ApplyFilter b (.Group .nil) opts = .returns ⟨b, [], none⟩ ∧
    (∀ c : Condition, c.endsInNil = true →
      ApplyFilter b (.Where c) opts = .returns ⟨b, [], none⟩ ∧
      ApplyFilter b (.Group c) opts = .returns ⟨b, [], none⟩) := by
  have key : ∀ c : Condition, c.endsInNil = true →
      ApplyFilter b (.Where c) opts = .returns ⟨b, [], none⟩ ∧
      ApplyFilter b (.Group c) opts = .returns ⟨b, [], none⟩ := by
    intro c hc
    have h := applyFilter_nil_chain (FromDefaultOptions opts).MapperFunc c hc []
    rw [ApplyFilter_of_ok h.1, ApplyFilter_of_ok h.2]
    exact ⟨rfl, rfl⟩
  exact ⟨(key .nil rfl).1, (key .nil rfl).2, key⟩

/-- Witness for C13: the chain `Where(Group(Where(nil)))`. -/
theorem C13_empty_wrappers_witness :
    ApplyFilter exBuilderWithPredicate (.Where (.Group (.Where .nil))) []
      = .returns ⟨exBuilderWithPredicate, [], none⟩ :=
  ((C13_empty_wrappers exBuilderWithPredicate []).2.2 (.Group (.Where .nil)) rfl).1

/-- C14, as amended: a GROUP or WHERE node with a nil child is a no-op at the
root and under WHERE and GROUP wrappers, but not as a child of AND or OR: for
all conditions `a` and `b` that translate successfully, `And(a, b, Group(nil))`
and `Or(a, b, Group(nil))` fail with the error "unexpected data type: <nil>",
and so do they with `Where(nil)` in place of `Group(nil)`. -/
theorem C14_nil_child_in_conjunction (mf : FieldMapperFunc) (a b : Condition)
    (ha : translatesOk mf a = true) (hb : translatesOk mf b = true) :
    translate mf (.And [a, b, .Group .nil]) = .err (Errorf "unexpected data type: <nil>") ∧
    translate mf (.Or [a, b, .Group .nil]) = .err (Errorf "unexpected data type: <nil>") ∧
    translate mf (.And [a, b, .Where .nil]) = .err (Errorf "unexpected data type: <nil>") ∧
    translate mf (.Or [a, b, .Where .nil]) = .err (Errorf "unexpected data type: <nil>") := by
  have hg : translate mf (.Group .nil) = .ok .nil := by unfold translate; rw [applyFilter]
  have hw : translate mf (.Where .nil) = .ok .nil := by unfold translate; rw [applyFilter]
  have key : ∀ n : Condition, translate mf n = .ok .nil →
      translate mf (.And [a, b, n]) = .err (Errorf "unexpected data type: <nil>") ∧
      translate mf (.Or [a, b, n]) = .err (Errorf "unexpected data type: <nil>") := by
    intro n hn
    rcases translatesOk_cases ha with ha0 | ⟨sa, hsa⟩
    · exact conj_nil_child [] [b, n] (by simp) ha0 (by simp)
    · have hfa : translatesToFragment mf a = true := translatesToFragment_iff.mpr ⟨sa, hsa⟩
      rcases translatesOk_cases hb with hb0 | ⟨sb, hsb⟩
      · exact conj_nil_child [a] [n] (by simpa using hfa) hb0 (by simp)
      · have hfb : translatesToFragment mf b = true := translatesToFragment_iff.mpr ⟨sb, hsb⟩
        exact conj_nil_child [a, b] [] (by simp [hfa, hfb]) hn (by simp)
  exact ⟨(key _ hg).1, (key _ hg).2, (key _ hw).1, (key _ hw).2⟩

/-- Witness for C14. -/
theorem C14_nil_child_in_conjunction_witness :
    translate FieldAsIsMapperFunc (.And [exA, exB, .Group .nil])
      = .err (Errorf "unexpected data type: <nil>") :=
  (C14_nil_child_in_conjunction FieldAsIsMapperFunc exA exB rfl rfl).1

/-- Counterexample to C14 as stated: `a` and `b` translate successfully, yet
`And(a, b, Group(nil))` and `Or(a, b, Group(nil))` do not: they fail with the
error "unexpected data type: <nil>". -/
theorem C14_counterexample :
    translatesOk FieldAsIsMapperFunc exA = true ∧ translatesOk FieldAsIsMapperFunc exB = true ∧
    translate FieldAsIsMapperFunc (.And [exA, exB, .Group .nil])
      = .err (Errorf "unexpected data type: <nil>") ∧
    translate FieldAsIsMapperFunc (.Or [exA, exB, .Group .nil])
      = .err (Errorf "unexpected data type: <nil>") ∧
    translatesOk FieldAsIsMapperFunc (.And [exA, exB, .Group .nil]) = false ∧
    translatesOk FieldAsIsMapperFunc (.Or [exA, exB, .Group .nil]) = false ∧
    ApplyFilter exBuilder (.And [exA, exB, .Group .nil]) []
      = .returns ⟨exBuilder, [], some (Errorf "unexpected data type: <nil>")⟩ :=
  ⟨rfl, rfl, rfl, rfl, rfl, rfl, rfl⟩

/-- C15: when the translation succeeds with a fragment `F`, `ApplyFilter`
returns the input builder with `F` appended as one more WHERE predicate after
those it already held, everything else in the builder unchanged, together with
the recorded aliases and a nil error. -/
theorem C15_appends_one_predicate (b : SelectBuilder) (c : Condition) (opts : List Option')
    (F : Sqlizer) (ta : Aliases)
    (h : applyFilter c (FromDefaultOptions opts).MapperFunc [] = (.ok (.sqlizer F), ta)) :
    ApplyFilter b c opts = .returns ⟨⟨b.rest, b.WhereParts ++ [.sqlizer F]⟩, ta, none⟩ := by
  rw [ApplyFilter_of_ok h, Where_sqlizer]

/-- Witness for C15: a builder that already holds a predicate. -/
theorem C15_appends_one_predicate_witness :
    ApplyFilter exBuilderWithPredicate (.Where (.Equals "id" (.int 1234)))
        [WithMapperFunc (some exMapper)]
      = .returns ⟨⟨"SELECT * FROM users u",
          [.sqlizer (.Eq "active" (.bool true)), .sqlizer (.Eq "u.id" (.int 1234))]⟩,
          ["u"], none⟩ :=
  C15_appends_one_predicate exBuilderWithPredicate (.Where (.Equals "id" (.int 1234)))
    [WithMapperFunc (some exMapper)] (.Eq "u.id" (.int 1234)) ["u"] rfl

/-- C16: translating `In(f, v)` gives the same result as translating
`Equals(f, v)`, from any alias map: the same fragment (the equality fragment
of the mapped field and `v`) or the same error, and the same alias map
afterwards; both render alike. -/
theorem C16_in_is_equals (mf : FieldMapperFunc) (f : String) (v : Value) :
    (∀ ta : Aliases, applyFilter (.In f v) mf ta = applyFilter (.Equals f v) mf ta) ∧
    (∀ ta : Aliases, applyIn (.In f v) mf ta = applyEquals (.Equals f v) mf ta) ∧
    (∀ m : String, mf f = .ok m →
      translate mf (.In f v) = .ok (.sqlizer (.Eq m v)) ∧
      translate mf (.Equals f v) = .ok (.sqlizer (.Eq m v))) ∧
    render mf (.In f v) = render mf (.Equals f v) := by
  have h1 : ∀ ta : Aliases, applyFilter (.In f v) mf ta = applyFilter (.Equals f v) mf ta := by
    intro ta
    rw [applyFilter_leaf (c := .In f v) rfl, applyFilter_leaf (c := .Equals f v) rfl]
  refine ⟨h1, fun ta => rfl, ?_, ?_⟩
  · intro m hm
    exact ⟨translate_leaf (c := .In f v) rfl hm, translate_leaf (c := .Equals f v) rfl hm⟩
  · unfold render translate
    rw [h1]

/-- Witness for C16: a sequence value. -/
theorem C16_in_is_equals_witness :
    translate exMapper (.In "id" (.list [.int 1, .int 2]))
        = .ok (.sqlizer (.Eq "u.id" (.list [.int 1, .int 2]))) ∧
      translate exMapper (.Equals "id" (.list [.int 1, .int 2]))
        = .ok (.sqlizer (.Eq "u.id" (.list [.int 1, .int 2]))) :=
  (C16_in_is_equals exMapper "id" (.list [.int 1, .int 2])).2.2.1 "u.id" rfl

/-- C17: translating `ArraysOverlap(f, v)` gives the same result as
translating `Overlaps(f, v)`, from any alias map: the same fragment or the
same error, and the same alias map afterwards. -/
theorem C17_arraysOverlap_is_overlaps (mf : FieldMapperFunc) (f : String) (v : Value)
    (ta : Aliases) :
    applyFilter (.ArraysOverlap f v) mf ta = applyFilter (.Overlaps f v) mf ta ∧
    applyArraysOverlap (.ArraysOverlap f v) mf ta = applyOverlaps (.Overlaps f v) mf ta := by
  constructor
  · rw [applyFilter_leaf (c := .ArraysOverlap f v) rfl, applyFilter_leaf (c := .Overlaps f v) rfl]
  · rfl

/-- C18: with the field `f` mapped to `m`, each of the six comparison
variants translates to the comparison fragment of its operator on `m` and `v`,
and for a non-nil scalar `v` that fragment renders to `m OP ?` with the
argument list `[v]`, `OP` being `=`, `<>`, `>`, `>=`, `<`, `<=`. -/
theorem C18_comparison_fragments (mf : FieldMapperFunc) (f m : String) (v : Value)
    (hm : mf f = .ok m) :
    (translate mf (.Equals f v) = .ok (.sqlizer (.Eq m v)) ∧
      translate mf (.NotEquals f v) = .ok (.sqlizer (.NotEq m v)) ∧
      translate mf (.GreaterThan f v) = .ok (.sqlizer (.Gt m v)) ∧
      translate mf (.GreaterThanOrEqual f v) = .ok (.sqlizer (.GtOrEq m v)) ∧
      translate mf (.LowerThan f v) = .ok (.sqlizer (.Lt m v)) ∧
      translate mf (.LowerThanOrEqual f v) = .ok (.sqlizer (.LtOrEq m v))) ∧
    (v ≠ .nil → isListType v = false →
      render mf (.Equals f v) = some (m ++ " = ?", [v], none) ∧
      render mf (.NotEquals f v) = some (m ++ " <> ?", [v], none) ∧
      render mf (.GreaterThan f v) = some (m ++ " > ?", [v], none) ∧
      render mf (.GreaterThanOrEqual f v) = some (m ++ " >= ?", [v], none) ∧
      render mf (.LowerThan f v) = some (m ++ " < ?", [v], none) ∧
      render mf (.LowerThanOrEqual f v) = some (m ++ " <= ?", [v], none)) := by
  refine ⟨⟨translate_leaf (c := .Equals f v) rfl hm, translate_leaf (c := .NotEquals f v) rfl hm,
    translate_leaf (c := .GreaterThan f v) rfl hm,
    translate_leaf (c := .GreaterThanOrEqual f v) rfl hm,
    translate_leaf (c := .LowerThan f v) rfl hm,
    translate_leaf (c := .LowerThanOrEqual f v) rfl hm⟩, ?_⟩
  intro hnil hscalar
  have e1 : m ++ " " ++ "=" ++ " ?" = m ++ " = ?" := by
    simp only [String.append_assoc]; rfl
  have e2 : m ++ " " ++ "<>" ++ " ?" = m ++ " <> ?" := by
    simp only [String.append_assoc]; rfl
  have e3 : m ++ " " ++ ">" ++ " ?" = m ++ " > ?" := by
    simp only [String.append_assoc]; rfl
  have e4 : m ++ " " ++ ">=" ++ " ?" = m ++ " >= ?" := by
    simp only [String.append_assoc]; rfl
  have e5 : m ++ " " ++ "<" ++ " ?" = m ++ " < ?" := by
    simp only [String.append_assoc]; rfl
  have e6 : m ++ " " ++ "<=" ++ " ?" = m ++ " <= ?" := by
    simp only [String.append_assoc]; rfl
  rw [render_leaf (c := .Equals f v) rfl hm, render_leaf (c := .NotEquals f v) rfl hm,
    render_leaf (c := .GreaterThan f v) rfl hm, render_leaf (c := .GreaterThanOrEqual f v) rfl hm,
    render_leaf (c := .LowerThan f v) rfl hm, render_leaf (c := .LowerThanOrEqual f v) rfl hm]
  rcases scalar_cases hnil hscalar with ⟨b, rfl⟩ | ⟨i, rfl⟩ | ⟨s, rfl⟩ <;>
    simp [Sqlizer.ToSql, eqToSQL, ltToSql, e1, e2, e3, e4, e5, e6]

/-- Witness for C18: the value `5` on the field `regressions`. -/
theorem C18_comparison_fragments_witness :
    render FieldAsIsMapperFunc (.LowerThan "regressions" (.int 5))
        = some ("regressions" ++ " < ?", [.int 5], none) ∧
      render FieldAsIsMapperFunc (.GreaterThanOrEqual "regressions" (.int 5))
        = some ("regressions" ++ " >= ?", [.int 5], none) :=
  have h := (C18_comparison_fragments FieldAsIsMapperFunc "regressions" "regressions" (.int 5)
    rfl).2 (by simp) rfl
  ⟨h.2.2.2.2.1, h.2.2.2.1⟩

/-- C19: with the field `f` mapped to `m`, `Contains(f, v)` for a string `v`
translates to the ILIKE fragment on `m` whose value is `%` followed by `v`
followed by `%`, the characters of `v` unchanged, and that fragment renders to
`m ILIKE ?` with this string as its only argument. -/
theorem C19_contains_wraps_value (mf : FieldMapperFunc) (f m v : String) (hm : mf f = .ok m) :
    translate mf (.Contains f (.str v)) = .ok (.sqlizer (.ILike m (.str ("%" ++ v ++ "%")))) ∧
    render mf (.Contains f (.str v)) = some (m ++ " ILIKE ?", [.str ("%" ++ v ++ "%")], none) := by
  have e1 : m ++ " " ++ "ILIKE" ++ " ?" = m ++ " ILIKE ?" := by
    simp only [String.append_assoc]; rfl
  have ht : translate mf (.Contains f (.str v))
      = .ok (.sqlizer (.ILike m (.str ("%" ++ v ++ "%")))) := by
    rw [translate_leaf (c := .Contains f (.str v)) rfl hm, Sprint]
  refine ⟨ht, ?_⟩
  unfold render
  rw [ht]
  simp only [Sqlizer.ToSql, likeToSql, e1]

/-- Witness for C19: a value that holds both wildcard characters. -/
theorem C19_contains_wraps_value_witness :
    translate FieldAsIsMapperFunc (.Contains "label" (.str "50%_off"))
        = .ok (.sqlizer (.ILike "label" (.str ("%" ++ "50%_off" ++ "%")))) ∧
      "%" ++ "50%_off" ++ "%" = "%50%_off%" :=
  ⟨(C19_contains_wraps_value FieldAsIsMapperFunc "label" "label" "50%_off" rfl).1, by decide⟩

/-- C20: with the field mapped to `m`, `IsNil` translates to the equality
fragment of `m` against nil, rendering to `m IS NULL` without argument, and
`NotNil` to the inequality fragment of `m` against nil, rendering to
`m IS NOT NULL` without argument; two such conditions whose fields are mapped
to the same `m` translate alike. -/
theorem C20_nil_checks (mf : FieldMapperFunc) (f m : String) (hm : mf f = .ok m) :
    translate mf (.IsNil f) = .ok (.sqlizer (.Eq m .nil)) ∧
    translate mf (.NotNil f) = .ok (.sqlizer (.NotEq m .nil)) ∧
    render mf (.IsNil f) = some (m ++ " IS NULL", [], none) ∧
    render mf (.NotNil f) = some (m ++ " IS NOT NULL", [], none) ∧
    (∀ (mf2 : FieldMapperFunc) (f2 : String), mf2 f2 = .ok m →
      translate mf2 (.IsNil f2) = translate mf (.IsNil f) ∧
      translate mf2 (.NotNil f2) = translate mf (.NotNil f)) := by
  have e1 : m ++ " " ++ "IS" ++ " NULL" = m ++ " IS NULL" := by
    simp only [String.append_assoc]; rfl
  have e2 : m ++ " " ++ "IS NOT" ++ " NULL" = m ++ " IS NOT NULL" := by
    simp only [String.append_assoc]; rfl
  have t1 := translate_leaf (c := .IsNil f) rfl hm
  have t2 := translate_leaf (c := .NotNil f) rfl hm
  refine ⟨t1, t2, ?_, ?_, ?_⟩
  · rw [render_leaf (c := .IsNil f) rfl hm]
    simp [Sqlizer.ToSql, eqToSQL, e1]
  · rw [render_leaf (c := .NotNil f) rfl hm]
    simp [Sqlizer.ToSql, eqToSQL, e2]
  · intro mf2 f2 hm2
    rw [t1, t2, translate_leaf (c := .IsNil f2) rfl hm2, translate_leaf (c := .NotNil f2) rfl hm2]
    exact ⟨rfl, rfl⟩

/-- Witness for C20: the field `test`. -/
theorem C20_nil_checks_witness :
    render FieldAsIsMapperFunc (.NotNil "test") = some ("test" ++ " IS NOT NULL", [], none) :=
  (C20_nil_checks FieldAsIsMapperFunc "test" "test" rfl).2.2.2.1


/-- C21: with the field `f` mapped to `m`, `Regex(f, e)` renders to `m ~ ?`
and `NotRegex(f, e)` to `m !~ ?`, each with the expression `e`, unchanged, as
the only argument; the `ToSql` methods of both fragment types return a nil
error for every field name and expression. -/
theorem C21_regex_rendering (mf : FieldMapperFunc) (f m e : String) (hm : mf f = .ok m) :
    render mf (.Regex f e) = some (m ++ " ~ ?", [.str e], none) ∧
    render mf (.NotRegex f e) = some (m ++ " !~ ?", [.str e], none) ∧
    (∀ fieldName expression : String,
      (Regex.ToSql fieldName expression).2.2 = none ∧
      (NotRegex.ToSql fieldName expression).2.2 = none) := by
  have e1 : m ++ " ~ " ++ "?" = m ++ " ~ ?" := by
    simp only [String.append_assoc]; rfl
  have e2 : m ++ " !~ " ++ "?" = m ++ " !~ ?" := by
    simp only [String.append_assoc]; rfl
  refine ⟨?_, ?_, fun _ _ => ⟨rfl, rfl⟩⟩
  · rw [render_leaf (c := .Regex f e) rfl hm]
    simp only [Sqlizer.ToSql, Regex.ToSql, Placeholders_one, e1]
  · rw [render_leaf (c := .NotRegex f e) rfl hm]
    simp only [Sqlizer.ToSql, NotRegex.ToSql, Placeholders_one, e2]

/-- Witness for C21: the expression `frau$` on the field `name`. -/
theorem C21_regex_rendering_witness :
    render FieldAsIsMapperFunc (.Regex "name" "frau$")
      = some ("name" ++ " ~ ?", [.str "frau$"], none) :=
  (C21_regex_rendering FieldAsIsMapperFunc "name" "name" "frau$" rfl).1


/-- C22: the dispatch table holds one entry for each of the 22 tags of
`AllConditionTypes`, no tag twice and no other tag; looking a condition up
under its tag and calling the builder found is the translation of its own
variant, so that no builder is handed a condition of another variant; and a
condition whose tag has no entry gives the error "unknown condition: <tag>",
whatever the mapper is, and leaves the alias map as it is. -/
theorem C22_dispatch_table (tagText : ConditionType → String)
    (htext : ∀ tag, tagText (.other tag) = tag) :
    (conditionBuilders.map Prod.fst).Perm AllConditionTypes ∧
    (conditionBuilders.map Prod.fst).Nodup ∧
    conditionBuilders.length = 22 ∧
    (∀ t, t ∈ AllConditionTypes ↔ (lookupBuilder t).isSome = true) ∧
    (∀ (c : Condition) (mf : FieldMapperFunc) (ta : Aliases),
      applyFilter c mf ta = applyFilterDispatch tagText c mf ta) ∧
    (∀ (c : Condition) (t : ConditionType) (applyFunc : Builder),
      c.Type = some t → lookupBuilder t = some applyFunc →
      ∀ (mf : FieldMapperFunc) (ta : Aliases), applyFunc c mf ta = applyFilter c mf ta) ∧
    (∀ (tag : String) (mf : FieldMapperFunc) (ta : Aliases),
      lookupBuilder (.other tag) = none ∧
      applyFilterDispatch tagText (.other tag) mf ta
        = (.err (Errorf ("unknown condition: " ++ tag)), ta) ∧
      applyFilter (.other tag) mf ta = (.err (Errorf ("unknown condition: " ++ tag)), ta)) := by
  refine ⟨?_, ?_, rfl, lookupBuilder_isSome_iff, applyFilter_eq_dispatch tagText htext, ?_, ?_⟩
  · have h : conditionBuilders.map Prod.fst = AllConditionTypes := rfl
    rw [h]
  · have h : conditionBuilders.map Prod.fst = AllConditionTypes := rfl
    rw [h]
    decide
  · intro c t applyFunc hc hl mf ta
    rw [applyFilter_eq_dispatch tagText htext]
    simp only [applyFilterDispatch, hc, hl]
  · intro tag mf ta
    have h := applyFilter_eq_dispatch tagText htext (.other tag) mf ta
    have h2 : applyFilter (.other tag) mf ta
        = (.err (Errorf ("unknown condition: " ++ tag)), ta) := by rw [applyFilter]
    exact ⟨lookupBuilder_other tag, by rw [← h, h2], h2⟩

/-- Witness for C22: an unregistered tag, and the entry of the tag of an
`Equals` condition. -/
theorem C22_dispatch_table_witness :
    applyFilterDispatch exTagText (.other "BetweenCondition") exRejectingMapper ["u"]
        = (.err (Errorf ("unknown condition: " ++ "BetweenCondition")), ["u"]) ∧
      applyEquals exA FieldAsIsMapperFunc [] = applyFilter exA FieldAsIsMapperFunc [] :=
  have h := C22_dispatch_table exTagText (fun _ => rfl)
  ⟨(h.2.2.2.2.2.2 "BetweenCondition" exRejectingMapper ["u"]).2.1,
    h.2.2.2.2.2.1 exA .EqualsConditionType applyEquals rfl rfl FieldAsIsMapperFunc []⟩

/-- C23: without options the mapper is `FieldAsIsMapperFunc`, which returns
every field name unchanged with a nil error; `WithMapperFunc(nil)` leaves the
options as they are and `WithMapperFunc(f)` for a non-nil `f` sets the mapper
to `f`; with a list of such options the mapper is that of the last non-nil
one, the default when there is none. -/
theorem C23_options :
    (FromDefaultOptions []).MapperFunc = FieldAsIsMapperFunc ∧
    (∀ fieldName : String, FieldAsIsMapperFunc fieldName = .ok fieldName) ∧
    (∀ o : Options, WithMapperFunc none o = o) ∧
    (∀ (f : FieldMapperFunc) (o : Options), (WithMapperFunc (some f) o).MapperFunc = f) ∧
    (∀ fs : List (Option FieldMapperFunc),
      (FromDefaultOptions (fs.map WithMapperFunc)).MapperFunc
        = lastMapper FieldAsIsMapperFunc fs) ∧
    (∀ (fs rest : List (Option FieldMapperFunc)) (f : FieldMapperFunc),
      (∀ g ∈ rest, g = none) →
      (FromDefaultOptions ((fs ++ some f :: rest).map WithMapperFunc)).MapperFunc = f) ∧
    (∀ fs : List (Option FieldMapperFunc), (∀ g ∈ fs, g = none) →
      (FromDefaultOptions (fs.map WithMapperFunc)).MapperFunc = FieldAsIsMapperFunc) := by
  have h5 : ∀ fs : List (Option FieldMapperFunc),
      (FromDefaultOptions (fs.map WithMapperFunc)).MapperFunc
        = lastMapper FieldAsIsMapperFunc fs := fun fs => foldl_options fs DefaultOptions
  refine ⟨rfl, fun _ => rfl, fun _ => rfl, fun _ _ => rfl, h5, ?_, ?_⟩
  · intro fs rest f hrest
    rw [h5, lastMapper_append f rest hrest]
  · intro fs hfs
    rw [h5]
    induction fs with
    | nil => rfl
    | cons g tl ih =>
      have hg := hfs g (List.mem_cons_self _ _)
      subst hg
      exact ih (fun g hg => hfs g (List.mem_cons_of_mem _ hg))

/-- Witness for C23: of the options for `exRejectingMapper`, nil, `exMapper`
and nil, the mapper `exMapper` wins. -/
theorem C23_options_witness :
    (FromDefaultOptions ([WithMapperFunc (some exRejectingMapper), WithMapperFunc none,
      WithMapperFunc (some exMapper), WithMapperFunc none])).MapperFunc = exMapper :=
  C23_options.2.2.2.2.2.1 [some exRejectingMapper, none] [none] exMapper (by simp)


/-- C24: after a successful `ApplyFilter` call the returned aliases are
exactly the texts before the first dot of the mapped references of the leaves
whose mapped reference has a dot. A reference with several dots gives only its
first segment, a reference that begins with a dot gives the empty string. -/
theorem C24_alias_set_exact (b : SelectBuilder) (c : Condition) (opts : List Option')
    (r : Applied) (h : ApplyFilter b c opts = .returns r) (hok : r.err = none) :
    (∀ a : String, a ∈ r.tableAliases ↔
      ∃ f ∈ c.fields, ∃ m, (FromDefaultOptions opts).MapperFunc f = .ok m ∧
        '.' ∈ m.data ∧ a = String.mk (m.data.takeWhile (fun ch => ch != '.'))) ∧
    (∀ (first rest : String) (ta : Aliases), '.' ∉ first.data →
      addTableAlias (first ++ "." ++ rest) ta = ta.set first) ∧
    addTableAlias "a.b.c" [] = ["a"] ∧
    addTableAlias ".x" [] = [""] := by
  refine ⟨?_, ?_, rfl, rfl⟩
  · intro a
    rcases ApplyFilter_success h hok with ⟨rfl, hr⟩ | ⟨o, ho⟩
    · rw [hr]
      simp [Condition.fields]
    · rw [applyFilter_aliases _ c [] o r.tableAliases ho a]
      simp only [List.not_mem_nil, false_or, qualifier_eq_some_iff]
  · intro first rest ta hfirst
    exact addTableAlias_of_some (qualifier_of_form first rest hfirst) ta

/-- Witness for C24: the aliases of the grouping example. -/
theorem C24_alias_set_exact_witness :
    "bbb" ∈ ["aa", "bbb", "c"] ↔
      ∃ f ∈ exGrouping.fields, ∃ m,
        (FromDefaultOptions [WithMapperFunc (some exGroupingMapper)]).MapperFunc f = .ok m ∧
        '.' ∈ m.data ∧ "bbb" = String.mk (m.data.takeWhile (fun ch => ch != '.')) :=
  (C24_alias_set_exact exBuilder exGrouping [WithMapperFunc (some exGroupingMapper)]
    ⟨exBuilder.Where (.sqlizer (.And [.Eq "aa.a" (.int 2),
      .Or [.Eq "bbb.b" (.str "b"), .Eq "c.c" (.str "c"), .Gt "aa.a" (.str "e"),
        .Eq "n" .nil]])), ["aa", "bbb", "c"], none⟩ rfl rfl).1 "bbb"


/-- C25, as amended: the children of an AND or OR node with at least two
children are translated from left to right. When every child translates to a
single fragment, the result is the conjunction (disjunction) of these
fragments, one per child and in the order of the children. When a child fails
and every child to its left translates to a single fragment, the node returns
the error of that child, and neither the error nor the alias map depends on
the children to its right or on what the mapper does on fields that occur
only there. -/
theorem C25_left_to_right (mf : FieldMapperFunc) :
    (∀ (cs : List Condition) (Fs : List Sqlizer), 2 ≤ cs.length →
      List.Forall₂ (fun c F => translate mf c = .ok (.sqlizer F)) cs Fs →
      translate mf (.And cs) = .ok (.sqlizer (.And Fs)) ∧
      translate mf (.Or cs) = .ok (.sqlizer (.Or Fs)) ∧
      Fs.length = cs.length) ∧
    (∀ (pre : List Condition) (c : Condition) (post : List Condition) (e : Error)
      (ta : Aliases), 2 ≤ (pre ++ c :: post).length →
      (∀ p ∈ pre, translatesToFragment mf p = true) → translate mf c = .err e →
      ∃ t : Aliases,
        applyFilter (.And (pre ++ c :: post)) mf ta = (.err e, t) ∧
        applyFilter (.Or (pre ++ c :: post)) mf ta = (.err e, t) ∧
        ∀ (post2 : List Condition) (mf2 : FieldMapperFunc), 2 ≤ (pre ++ c :: post2).length →
          (∀ f ∈ fieldsAll (pre ++ [c]), mf2 f = mf f) →
          applyFilter (.And (pre ++ c :: post2)) mf2 ta = (.err e, t) ∧
          applyFilter (.Or (pre ++ c :: post2)) mf2 ta = (.err e, t)) := by
  constructor
  · intro cs Fs hlen h
    obtain ⟨h1, h2⟩ := translate_conj hlen h
    exact ⟨h1, h2, h.length_eq.symm⟩
  · intro pre c post e ta hlen hpre hc
    obtain ⟨t, ht⟩ := loop_err_prefix mf hc pre hpre ta
    refine ⟨t, ?_, ?_, ?_⟩
    · rw [applyFilter_And, if_neg (by omega)]; exact (ht post []).1
    · rw [applyFilter_Or, if_neg (by omega)]; exact (ht post []).2
    · intro post2 mf2 hlen2 hagree
      have hpre2 : ∀ p ∈ pre, translatesToFragment mf2 p = true := by
        intro p hp
        have hp2 : translate mf2 p = translate mf p :=
          translate_congr (fun f hf => hagree f
            (mem_fieldsAll (List.mem_append_left _ hp) hf))
        unfold translatesToFragment
        rw [hp2]
        exact hpre p hp
      have hc2 : translate mf2 c = .err e := by
        rw [translate_congr (fun f hf => hagree f
          (mem_fieldsAll (List.mem_append_right _ (List.mem_singleton_self c)) hf))]
        exact hc
      obtain ⟨t2, ht2⟩ := loop_err_prefix mf2 hc2 pre hpre2 ta
      have heq : t2 = t := by
        have a1 := (ht2 [] []).1
        have a2 := (ht [] []).1
        rw [(loop_congr mf mf2 (pre ++ [c]) hagree ta []).1, a2] at a1
        exact (Prod.mk.inj a1).2.symm
      subst heq
      constructor
      · rw [applyFilter_And, if_neg (by omega)]; exact (ht2 post2 []).1
      · rw [applyFilter_Or, if_neg (by omega)]; exact (ht2 post2 []).2

/-- Witness for C25: in `Or(Equals("a", 1), Equals("missingField", "x"),
Regex("c", "x$"))` the second child fails after the first recorded `u`. -/
theorem C25_left_to_right_witness :
    ∃ t : Aliases, applyFilter (.Or ([exA] ++ exMissing :: [exC])) exMapper []
      = (.err (Errorf "field name error"), t) :=
  Exists.imp (fun _ ht => ht.2.1)
    ((C25_left_to_right exMapper).2 [exA] exMissing [exC] (Errorf "field name error") []
      (by decide) (by decide) rfl)

/-- Counterexample to C25 as stated: in `And(Group(nil), Equals("missingField",
"x"))` the first child does not fail (it translates to the nil result) and
the second child is the leftmost failing child, with the mapper error; the
node returns another error, "unexpected data type: <nil>". -/
theorem C25_counterexample :
    translate exMapper (.Group .nil) = .ok .nil ∧
    translate exMapper exMissing = .err (Errorf "field name error") ∧
    translate exMapper (.And [.Group .nil, exMissing])
      = .err (Errorf "unexpected data type: <nil>") ∧
    translate exMapper (.And [.Group .nil, exMissing]) ≠ .err (Errorf "field name error") := by
  refine ⟨rfl, rfl, rfl, ?_⟩
  intro h
  have h2 : translate exMapper (.And [.Group .nil, exMissing])
      = .err (Errorf "unexpected data type: <nil>") := rfl
  rw [h2] at h
  simp only [Res.err.injEq] at h
  exact absurd h (by decide)


/-- C26: for a fragment of a type this package defines (one of the four array
fragments, `Regex`, `NotRegex`, or `Not` over such a fragment) whose field
name holds no `?`, whenever `ToSql` returns a nil error the SQL it returns has
as many `?` placeholders as the argument list has elements. -/
theorem C26_placeholders_match_arguments (s : Sqlizer) (sql : String) (args : List Value)
    (hpkg : s.isPackageFragment = true)
    (hname : ∀ name, s.fieldName = some name → '?' ∉ name.data)
    (h : s.ToSql = (sql, args, none)) :
    countPlaceholders sql = args.length := by
  have hc := package_count s hpkg hname (by rw [h])
  rw [h] at hc
  exact hc

/-- Witness for C26: `Not` over `Overlaps` on three elements has three
placeholders and three arguments. -/
theorem C26_placeholders_match_arguments_witness :
    countPlaceholders "NOT (u.tags && ARRAY[?,?,?])" = [Value.int 1, .int 2, .int 3].length :=
  C26_placeholders_match_arguments
    (.Not (.sqlizer (.Overlaps "u.tags" (.list [.int 1, .int 2, .int 3]))))
    "NOT (u.tags && ARRAY[?,?,?])" [.int 1, .int 2, .int 3] rfl
    (by intro name hn; cases hn; decide) rfl


/-- C27, as amended: for a tree in which every NOT node has a non-nil child,
every child of an AND or OR node is non-nil and no condition is a nil pointer
held in a non-nil interface value, and a mapper that returns on every field,
the translation of the non-nil tree returns a value or an error and
`ApplyFilter` returns. Without that condition it does not: on `Not(nil)`, on
an AND or OR node with a nil child after a child that yields a fragment, and
on a nil pointer, at the root or under NOT, WHERE or GROUP, the translation
panics. -/
theorem C27_totality (mf : FieldMapperFunc) :
    (∀ (c : Condition), c.noNilOperand = true → c.noTypedNil = true → c ≠ .nil →
      ∀ ta : Aliases, ∃ t : Aliases, (∃ o, applyFilter c mf ta = (.ok o, t)) ∨
        (∃ e, applyFilter c mf ta = (.err e, t))) ∧
    (∀ (b : SelectBuilder) (c : Condition) (opts : List Option'), c.noNilOperand = true →
      c.noTypedNil = true → ∃ r, ApplyFilter b c opts = .returns r) ∧
    (∀ ta : Aliases, applyFilter (.Not .nil) mf ta = (.panic, ta)) ∧
    (∀ (b : SelectBuilder) (opts : List Option'), ApplyFilter b (.Not .nil) opts = .panics) ∧
    (∀ (a : Condition), translatesToFragment mf a = true →
      translate mf (.And [a, .nil]) = .panic ∧ translate mf (.Or [a, .nil]) = .panic) ∧
    (∀ (t : ConditionType) (ta : Aliases),
      applyFilter (.typedNil t) mf ta = (.panic, ta) ∧
      applyFilter (.Not (.typedNil t)) mf ta = (.panic, ta) ∧
      applyFilter (.Where (.typedNil t)) mf ta = (.panic, ta) ∧
      applyFilter (.Group (.typedNil t)) mf ta = (.panic, ta)) := by
  have total : ∀ (mf : FieldMapperFunc) (c : Condition), c.noNilOperand = true →
      c.noTypedNil = true → c ≠ .nil →
      ∀ ta : Aliases, ∃ t : Aliases, (∃ o, applyFilter c mf ta = (.ok o, t)) ∨
        (∃ e, applyFilter c mf ta = (.err e, t)) := by
    intro mf c h ht hc ta
    have hp := applyFilter_no_panic mf c h ht hc ta
    rcases hr : applyFilter c mf ta with ⟨r, t⟩
    rw [hr] at hp
    cases r with
    | ok o => exact ⟨t, Or.inl ⟨o, rfl⟩⟩
    | err e => exact ⟨t, Or.inr ⟨e, rfl⟩⟩
    | panic => exact absurd rfl hp
  have hnot : ∀ (mf : FieldMapperFunc) (ta : Aliases),
      applyFilter (.Not .nil) mf ta = (.panic, ta) :=
    fun mf ta => applyFilter_Not_panic (applyFilter_nil mf ta)
  refine ⟨total mf, ?_, hnot mf, ?_, ?_, ?_⟩
  · intro b c opts h ht
    by_cases hc : c = .nil
    · subst hc; exact ⟨_, rfl⟩
    · obtain ⟨t, ⟨o, ho⟩ | ⟨e, he⟩⟩ := total (FromDefaultOptions opts).MapperFunc c h ht hc []
      · exact ⟨_, ApplyFilter_of_ok ho b⟩
      · exact ⟨_, ApplyFilter_of_err (translate_of_applyFilter he) b opts rfl⟩
  · intro b opts
    exact ApplyFilter_of_panic (hnot _ []) (by simp) b
  · intro a ha
    obtain ⟨s, hs⟩ := translatesToFragment_iff.mp ha
    obtain ⟨t1, h1⟩ := applyFilter_of_translate hs []
    unfold translate
    rw [applyFilter_And, applyFilter_Or, if_neg (by simp), if_neg (by simp),
      andLoop_cons_sqlizer h1, orLoop_cons_sqlizer h1,
      andLoop_cons_panic (applyFilter_nil mf t1), orLoop_cons_panic (applyFilter_nil mf t1)]
    exact ⟨rfl, rfl⟩
  · intro t ta
    refine ⟨applyFilter_typedNil t mf ta, applyFilter_Not_panic (applyFilter_typedNil t mf ta),
      ?_, ?_⟩
    · rw [applyFilter_Where (by simp), applyFilter_typedNil]
    · rw [applyFilter_Group (by simp), applyFilter_typedNil]

/-- Witness for C27: a tree without nil operand and without nil pointer,
whose inner AND node fails with the arity error, and the panic on
`And(Equals("a", 1), nil)`. -/
theorem C27_totality_witness :
    (∃ r, ApplyFilter exBuilder exNoNilOperand [] = .returns r) ∧
      translate FieldAsIsMapperFunc (.And [exA, .nil]) = .panic :=
  have h := C27_totality FieldAsIsMapperFunc
  ⟨h.2.1 exBuilder exNoNilOperand [] rfl rfl, (h.2.2.2.2.1 exA rfl).1⟩

/-- Counterexample to C27 as stated: in `Not(p)` with `p` a nil pointer to an
Equals condition held in a non-nil interface value, the NOT node has a non-nil
child and there is no AND or OR node, yet the translation panics at the call
of `Type()` on `p`, and so does `ApplyFilter`; the same holds for `p` alone. -/
theorem C27_counterexample :
    (Condition.typedNil .EqualsConditionType).isNil = false ∧
    (Condition.Not (.typedNil .EqualsConditionType)).noNilOperand = true ∧
    applyFilter (.Not (.typedNil .EqualsConditionType)) FieldAsIsMapperFunc [] = (.panic, []) ∧
    ApplyFilter exBuilder (.Not (.typedNil .EqualsConditionType)) [] = .panics ∧
    (Condition.typedNil .EqualsConditionType).noNilOperand = true ∧
    ApplyFilter exBuilder (.typedNil .EqualsConditionType) [] = .panics :=
  ⟨rfl, rfl, rfl, rfl, rfl, rfl⟩

end FilterSquirrel
